import Mathlib

/-!
# BankingAPI ledger core

A shallow embedding of `BankingAPI/internal/model/model.go`,
`BankingAPI/internal/storage/memory.go` and `BankingAPI/internal/repo/repo.go`,
followed by theorems about the repository operations.

Conventions of the embedding:

* Go `int64` is the type `I64`: an integer with its two range bounds; `+` and `-`
  wrap modulo `2^64` as Go signed arithmetic does.
* Go `map[string]V` is `KMap V`, the list of the bindings of the map.  `m[k]` is
  `KMap.find`, the assignment `m[k] = v` is `KMap.put`.
* The maps of the store hold pointers.  Every key owns its record, so a write through
  the pointer read from `m[k]` is `KMap.modify m k`, a write to the record bound to `k`.
  The one method that binds a pointer of its caller is `CreateAccount`; its argument is
  an `AccountPtr`, which tells a pointer to a record of the caller's own from the
  pointer a key of the store binds.
* The locks are left out: every operation holds the store lock from its first read to
  its last write, so an operation is one function from store to store.
* `uuid.NewString()` and `time.Now()` are inputs: every operation takes the values it
  draws, in the order the source draws them.
* An operation returns the pair of its Go result and the store it leaves behind.
-/

namespace BankingAPI

/-! ## Machine integers -/

/-- Reduction of an integer into the `int64` range, modulo `2^64`. -/
def wrap64 (x : Int) : Int :=
  (x + 9223372036854775808) % 18446744073709551616 - 9223372036854775808

/-- Go `int64`. -/
structure I64 where
  val : Int
  lo : -9223372036854775808 ≤ val
  hi : val ≤ 9223372036854775807
deriving DecidableEq

namespace I64

/-- Conversion with wrap-around, as Go integer arithmetic does on overflow. -/
def ofInt (x : Int) : I64 :=
  ⟨wrap64 x, by unfold wrap64; omega, by unfold wrap64; omega⟩

/-- Largest `int64`, `math.MaxInt64`. -/
def MaxInt64 : I64 := ⟨9223372036854775807, by decide, by decide⟩

/-- Smallest `int64`, `math.MinInt64`. -/
def MinInt64 : I64 := ⟨-9223372036854775808, by decide, by decide⟩

instance : OfNat I64 n := ⟨ofInt n⟩
instance : Add I64 := ⟨fun a b => ofInt (a.val + b.val)⟩
instance : Sub I64 := ⟨fun a b => ofInt (a.val - b.val)⟩
instance : LE I64 := ⟨fun a b => a.val ≤ b.val⟩
instance : LT I64 := ⟨fun a b => a.val < b.val⟩
instance (a b : I64) : Decidable (a ≤ b) := inferInstanceAs (Decidable (a.val ≤ b.val))
instance (a b : I64) : Decidable (a < b) := inferInstanceAs (Decidable (a.val < b.val))

end I64

/-! ## Maps -/

/-- Go `map[string]V` as the list of its bindings. -/
abbrev KMap (V : Type) := List (String × V)

namespace KMap

/-- The keys bound in the map. -/
def keys {V : Type} (m : KMap V) : List String := m.map Prod.fst

/-- Map read `v, ok := m[k]`. -/
def find {V : Type} : KMap V → String → Option V
  | [], _ => none
  | (k', v) :: rest, k => if k' = k then some v else find rest k

/-- Map write `m[k] = v`: rebinds `k` when it is bound, adds the binding otherwise. -/
def put {V : Type} : KMap V → String → V → KMap V
  | [], k, v => [(k, v)]
  | (k', v') :: rest, k, v => if k' = k then (k', v) :: rest else (k', v') :: put rest k v

/-- Write through the pointer stored under `k`: the record bound to `k` becomes `f` of
itself; nothing happens when `k` is unbound. -/
def modify {V : Type} : KMap V → String → (V → V) → KMap V
  | [], _, _ => []
  | (k', v) :: rest, k, f => if k' = k then (k', f v) :: rest else (k', v) :: modify rest k f

end KMap

/-! ## `model` -/

/-- Values of `time.Time`. -/
abbrev Time := Nat

/-- Values of `map[string]interface{}`: the metadata of a transaction, which the
repository stores as it receives it. -/
abbrev Meta := List (String × String)

/-- Record `model.User`. -/
structure User where
  ID : String
  Email : String
  PasswordHash : String
  Name : String
  IsActive : Bool
  CreatedAt : Time
  UpdatedAt : Time
deriving DecidableEq

/-- Record `model.Account`. -/
structure Account where
  ID : String
  UserID : String
  Name : String
  Balance : I64
  Currency : String
  IsActive : Bool
  CreatedAt : Time
  UpdatedAt : Time
deriving DecidableEq

/-- Constants of `model.TransactionType`. -/
inductive TransactionType where
  | Deposit
  | Withdraw
  | Transfer
deriving DecidableEq

/-- Record `model.Transaction`; `Typ` is the field `Type`. -/
structure Transaction where
  ID : String
  AccountID : String
  Typ : TransactionType
  Amount : I64
  Meta : Meta
  CreatedAt : Time
deriving DecidableEq

/-! ## `storage` -/

/-- Record `storage.InMemoryStore`, without its lock. -/
structure InMemoryStore where
  Users : KMap User
  Accounts : KMap Account
  Transactions : KMap Transaction
  EmailIndex : KMap String
deriving DecidableEq

/-- Constructor `storage.NewInMemoryStore`. -/
def NewInMemoryStore : InMemoryStore :=
  { Users := [], Accounts := [], Transactions := [], EmailIndex := [] }

/-! ## `repo` -/

/-- The error values the repository returns: the four package variables and the two
errors built in place with `errors.New`. -/
inductive Err where
  | ErrNotFound
  | ErrUnauthorized
  | ErrInsufficient
  | ErrAccountInactive
  | amountMustBePositive
  | emailAlreadyRegistered
deriving DecidableEq

/-- Result of a call: the Go return values, with the error case first as in `Except`. -/
inductive Res (α : Type) where
  | err (e : Err)
  | ok (a : α)
deriving DecidableEq

/-- A pointer to an account record, as a caller hands one to `CreateAccount`.
`fresh a` is a pointer to a record `a` of the caller's own, which no key of the store
binds, as `&model.Account{...}` in `Server.createAccount`.  `stored key a` is the pointer
the store binds under `key`, as `GetAccount`, `UpdateAccount` and `CreateAccount` return
it; `a` is the record it points to, which is the record bound to `key`. -/
inductive AccountPtr where
  | fresh (a : Account)
  | stored (key : String) (a : Account)

/-- The record the pointer points to. -/
def AccountPtr.record : AccountPtr → Account
  | .fresh a => a
  | .stored _ a => a

/-- The account map after a write through the pointer: the write lands on the record
bound to `key` when the pointer is the one the store binds under `key`, and on no record
of the store when the pointer is the caller's own. -/
def AccountPtr.write (accs : KMap Account) (f : Account → Account) :
    AccountPtr → KMap Account
  | .fresh _ => accs
  | .stored key _ => KMap.modify accs key f

namespace Repo

/-- Method `Repo.CreateUser`; `id`, `t1`, `t2` are the values of `uuid.NewString()` and
of the two `time.Now()`. -/
def CreateUser (s : InMemoryStore) (u : User) (id : String) (t1 t2 : Time) :
    Res User × InMemoryStore :=
  if (KMap.find s.EmailIndex u.Email).isSome then
    (.err .emailAlreadyRegistered, s)
  else
    let u1 := { u with ID := id }
    let u2 := { u1 with CreatedAt := t1 }
    let u3 := { u2 with UpdatedAt := t2 }
    let u4 := { u3 with IsActive := true }
    let s1 := { s with Users := KMap.put s.Users u4.ID u4 }
    let s2 := { s1 with EmailIndex := KMap.put s1.EmailIndex u4.Email u4.ID }
    (.ok u4, s2)

/-- Method `Repo.GetUserByEmail`; the user is `none` when the index names an
identifier that the user map does not bind (Go returns the nil pointer). -/
def GetUserByEmail (s : InMemoryStore) (email : String) : Res (Option User) :=
  match KMap.find s.EmailIndex email with
  | none => .err .ErrNotFound
  | some id => .ok (KMap.find s.Users id)

/-- Method `Repo.GetUserByID`. -/
def GetUserByID (s : InMemoryStore) (id : String) : Res User :=
  match KMap.find s.Users id with
  | none => .err .ErrNotFound
  | some u => .ok u

/-- Method `Repo.CreateAccount`; `p` is the pointer `a` it is handed, `id`, `t1`, `t2` are
the values of `uuid.NewString()` and of the two `time.Now()`.  The method writes `ID`,
`CreatedAt`, `UpdatedAt` and, when it is false, `IsActive` through `a`, then binds `a`
itself under the new `ID`.  Handed a pointer that the store binds under `key`, it so
changes the stored record in place and leaves it bound under `key` and under the new
`ID`: the record returned is the one both keys show after the call.  In Go the two keys
then share that record; here each of the two holds its copy of it. -/
def CreateAccount (s : InMemoryStore) (p : AccountPtr) (id : String) (t1 t2 : Time) :
    Res Account × InMemoryStore :=
  let a := p.record
  let a1 := { a with ID := id }
  let accs1 := p.write s.Accounts (fun r => { r with ID := id })
  let a2 := { a1 with CreatedAt := t1 }
  let accs2 := p.write accs1 (fun r => { r with CreatedAt := t1 })
  let a3 := { a2 with UpdatedAt := t2 }
  let accs3 := p.write accs2 (fun r => { r with UpdatedAt := t2 })
  let a4 := if !a3.IsActive then { a3 with IsActive := true } else a3
  let accs4 :=
    if !a3.IsActive then p.write accs3 (fun r => { r with IsActive := true }) else accs3
  (.ok a4, { s with Accounts := KMap.put accs4 a4.ID a4 })

/-- Method `Repo.GetAccount`. -/
def GetAccount (s : InMemoryStore) (id : String) : Res Account :=
  match KMap.find s.Accounts id with
  | none => .err .ErrNotFound
  | some a => .ok a

/-- Method `Repo.ListAccountsByUser`.  The `range` loop visits every binding of
`Accounts` once; the order of the list stands for the order of the visit, which Go leaves
unspecified.  The method only reads the store, so its result is all it gives back. -/
def ListAccountsByUser (s : InMemoryStore) (userID : String) (currency : String)
    (minBalance : Option I64) : Res (List Account) :=
  .ok (s.Accounts.foldl
    (fun out e =>
      if decide (e.2.UserID ≠ userID) || !e.2.IsActive then out
      else if decide (currency ≠ "") && decide (e.2.Currency ≠ currency) then out
      else if (match minBalance with
          | some m => decide (e.2.Balance < m)
          | none => false) then out
      else out ++ [e.2])
    [])

/-- Method `Repo.UpdateAccount`; `t` is the value of `time.Now()`. -/
def UpdateAccount (s : InMemoryStore) (id : String) (name : Option String)
    (isActive : Option Bool) (t : Time) : Res Account × InMemoryStore :=
  match KMap.find s.Accounts id with
  | none => (.err .ErrNotFound, s)
  | some a =>
    let setName : Account → Account := fun r =>
      match name with
      | some n => { r with Name := n }
      | none => r
    let setActive : Account → Account := fun r =>
      match isActive with
      | some b => { r with IsActive := b }
      | none => r
    let setTime : Account → Account := fun r => { r with UpdatedAt := t }
    let accs1 := KMap.modify s.Accounts id setName
    let accs2 := KMap.modify accs1 id setActive
    let accs3 := KMap.modify accs2 id setTime
    (.ok (setTime (setActive (setName a))), { s with Accounts := accs3 })

/-- Method `Repo.DeleteAccount`; `t` is the value of `time.Now()`.  The Go result is the
error alone. -/
def DeleteAccount (s : InMemoryStore) (id : String) (t : Time) : Res Unit × InMemoryStore :=
  match KMap.find s.Accounts id with
  | none => (.err .ErrNotFound, s)
  | some _ =>
    let accs1 := KMap.modify s.Accounts id (fun r => { r with IsActive := false })
    let accs2 := KMap.modify accs1 id (fun r => { r with UpdatedAt := t })
    (.ok (), { s with Accounts := accs2 })

/-- Method `Repo.Deposit`; `t1` is the `time.Now()` of `UpdatedAt`, `id` and `t2` are
the `uuid.NewString()` and `time.Now()` of the transaction. -/
def Deposit (s : InMemoryStore) (accountID : String) (amount : I64) (md : Meta)
    (t1 : Time) (id : String) (t2 : Time) : Res Transaction × InMemoryStore :=
  if amount ≤ 0 then (.err .amountMustBePositive, s)
  else
    match KMap.find s.Accounts accountID with
    | none => (.err .ErrNotFound, s)
    | some a =>
      if !a.IsActive then (.err .ErrAccountInactive, s)
      else
        let accs1 := KMap.modify s.Accounts accountID
          (fun r => { r with Balance := r.Balance + amount })
        let accs2 := KMap.modify accs1 accountID (fun r => { r with UpdatedAt := t1 })
        let t : Transaction :=
          { ID := id, AccountID := a.ID, Typ := .Deposit, Amount := amount, Meta := md,
            CreatedAt := t2 }
        (.ok t, { s with Accounts := accs2, Transactions := KMap.put s.Transactions t.ID t })

/-- Method `Repo.Withdraw`; `t1` is the `time.Now()` of `UpdatedAt`, `id` and `t2` are
the `uuid.NewString()` and `time.Now()` of the transaction. -/
def Withdraw (s : InMemoryStore) (accountID : String) (amount : I64) (md : Meta)
    (t1 : Time) (id : String) (t2 : Time) : Res Transaction × InMemoryStore :=
  if amount ≤ 0 then (.err .amountMustBePositive, s)
  else
    match KMap.find s.Accounts accountID with
    | none => (.err .ErrNotFound, s)
    | some a =>
      if !a.IsActive then (.err .ErrAccountInactive, s)
      else if a.Balance < amount then (.err .ErrInsufficient, s)
      else
        let accs1 := KMap.modify s.Accounts accountID
          (fun r => { r with Balance := r.Balance - amount })
        let accs2 := KMap.modify accs1 accountID (fun r => { r with UpdatedAt := t1 })
        let t : Transaction :=
          { ID := id, AccountID := a.ID, Typ := .Withdraw, Amount := amount, Meta := md,
            CreatedAt := t2 }
        (.ok t, { s with Accounts := accs2, Transactions := KMap.put s.Transactions t.ID t })

/-- Method `Repo.Transfer`; `t1`, `t2` are the `time.Now()` of the two `UpdatedAt`,
`outID`, `outAt` and `inID`, `inAt` the `uuid.NewString()` and `time.Now()` of the two
transactions.  `from` and `to` are pointers: the four writes go to the records bound to
`fromID` and `toID` in program order, which are one record when the keys are equal. -/
def Transfer (s : InMemoryStore) (fromID toID : String) (amount : I64) (md : Meta)
    (t1 t2 : Time) (outID : String) (outAt : Time) (inID : String) (inAt : Time) :
    Res (Transaction × Transaction) × InMemoryStore :=
  if amount ≤ 0 then (.err .amountMustBePositive, s)
  else
    match KMap.find s.Accounts fromID with
    | none => (.err .ErrNotFound, s)
    | some src =>
      match KMap.find s.Accounts toID with
      | none => (.err .ErrNotFound, s)
      | some dst =>
        if !src.IsActive || !dst.IsActive then (.err .ErrAccountInactive, s)
        else if src.Balance < amount then (.err .ErrInsufficient, s)
        else
          let accs1 := KMap.modify s.Accounts fromID
            (fun r => { r with Balance := r.Balance - amount })
          let accs2 := KMap.modify accs1 toID
            (fun r => { r with Balance := r.Balance + amount })
          let accs3 := KMap.modify accs2 fromID (fun r => { r with UpdatedAt := t1 })
          let accs4 := KMap.modify accs3 toID (fun r => { r with UpdatedAt := t2 })
          let txnOut : Transaction :=
            { ID := outID, AccountID := src.ID, Typ := .Withdraw, Amount := amount,
              Meta := md, CreatedAt := outAt }
          let txns1 := KMap.put s.Transactions txnOut.ID txnOut
          let txnIn : Transaction :=
            { ID := inID, AccountID := dst.ID, Typ := .Deposit, Amount := amount,
              Meta := md, CreatedAt := inAt }
          let txns2 := KMap.put txns1 txnIn.ID txnIn
          (.ok (txnOut, txnIn), { s with Accounts := accs4, Transactions := txns2 })

end Repo

/-! ## `httpserver`: the account creation handler -/

/-- Record `createAccountReq`, the decoded request body. -/
structure createAccountReq where
  Name : String
  Currency : String
deriving DecidableEq

/-- Handler `Server.createAccount`, from the decoded request `req` and the caller
`userID` that `getUserID` resolves: the HTTP status and the account written to the
response, with the store left behind.  `t0`, `t0'` are the two `time.Now()` of the record
literal; `id`, `t1`, `t2` are the draws of `Repo.CreateAccount`. -/
def Server.createAccount (s : InMemoryStore) (userID : String) (req : createAccountReq)
    (t0 t0' : Time) (id : String) (t1 t2 : Time) : (Nat × Option Account) × InMemoryStore :=
  if req.Name = "" || req.Currency = "" then ((400, none), s)
  else
    let acc : Account :=
      { ID := "", UserID := userID, Name := req.Name, Currency := req.Currency, Balance := 0,
        IsActive := true, CreatedAt := t0, UpdatedAt := t0' }
    match Repo.CreateAccount s (.fresh acc) id t1 t2 with
    | (.err _, s1) => ((500, none), s1)
    | (.ok created, s1) => ((201, some created), s1)

/-! ## Ledger quantities and runs of calls -/

/-- Signed amount of a transaction record: `+Amount` for a DEPOSIT record, `-Amount`
for a WITHDRAW record. -/
def signedAmount (t : Transaction) : Int :=
  match t.Typ with
  | .Deposit => t.Amount.val
  | .Withdraw => -t.Amount.val
  | .Transfer => 0

/-- Sum of the signed amounts of the stored transactions whose `AccountID` is
`accountID`. -/
def ledgerSum (txns : KMap Transaction) (accountID : String) : Int :=
  ((txns.filter (fun e => e.2.AccountID = accountID)).map (fun e => signedAmount e.2)).sum

/-- Sum of the balances of all accounts of the store. -/
def totalBalance (s : InMemoryStore) : Int :=
  (s.Accounts.map (fun e => e.2.Balance.val)).sum

/-- A call of a mutating repository method, with its arguments and the values it draws
from `uuid.NewString()` and `time.Now()`.  A `CreateAccount` call is handed a pointer to
the record `a` of its caller's own, as the handler `Server.createAccount` does, so that
every key of the stores these calls build owns its record. -/
inductive Call where
  | CreateUser (u : User) (id : String) (t1 t2 : Time)
  | CreateAccount (a : Account) (id : String) (t1 t2 : Time)
  | UpdateAccount (id : String) (name : Option String) (isActive : Option Bool) (t : Time)
  | DeleteAccount (id : String) (t : Time)
  | Deposit (accountID : String) (amount : I64) (md : Meta) (t1 : Time) (id : String)
      (t2 : Time)
  | Withdraw (accountID : String) (amount : I64) (md : Meta) (t1 : Time) (id : String)
      (t2 : Time)
  | Transfer (fromID toID : String) (amount : I64) (md : Meta) (t1 t2 : Time)
      (outID : String) (outAt : Time) (inID : String) (inAt : Time)

namespace Call

/-- The store a call leaves behind, whether it succeeds or fails. -/
def exec (s : InMemoryStore) : Call → InMemoryStore
  | .CreateUser u id t1 t2 => (Repo.CreateUser s u id t1 t2).2
  | .CreateAccount a id t1 t2 => (Repo.CreateAccount s (.fresh a) id t1 t2).2
  | .UpdateAccount id name isActive t => (Repo.UpdateAccount s id name isActive t).2
  | .DeleteAccount id t => (Repo.DeleteAccount s id t).2
  | .Deposit accountID amount md t1 id t2 => (Repo.Deposit s accountID amount md t1 id t2).2
  | .Withdraw accountID amount md t1 id t2 => (Repo.Withdraw s accountID amount md t1 id t2).2
  | .Transfer fromID toID amount md t1 t2 outID outAt inID inAt =>
    (Repo.Transfer s fromID toID amount md t1 t2 outID outAt inID inAt).2

/-- The identifiers the call draws from `uuid.NewString()` are new: bound to nothing in
the map they are written to, and different from each other. -/
def Fresh (s : InMemoryStore) : Call → Prop
  | .CreateUser _ id _ _ => id ∉ KMap.keys s.Users
  | .CreateAccount _ id _ _ => id ∉ KMap.keys s.Accounts
  | .UpdateAccount _ _ _ _ => True
  | .DeleteAccount _ _ => True
  | .Deposit _ _ _ _ id _ => id ∉ KMap.keys s.Transactions
  | .Withdraw _ _ _ _ id _ => id ∉ KMap.keys s.Transactions
  | .Transfer _ _ _ _ _ _ outID _ inID _ =>
    outID ∉ KMap.keys s.Transactions ∧ inID ∉ KMap.keys s.Transactions ∧ inID ≠ outID

instance (s : InMemoryStore) (c : Call) : Decidable (Fresh s c) := by
  cases c <;> unfold Fresh <;> infer_instance

/-- The record handed to `CreateAccount` has balance 0, as the one the HTTP handler
`Server.createAccount` builds. -/
def OpensAtZero : Call → Prop
  | .CreateAccount a _ _ _ => a.Balance.val = 0
  | _ => True

instance (c : Call) : Decidable (OpensAtZero c) := by
  cases c <;> unfold OpensAtZero <;> infer_instance

/-- The record handed to `CreateAccount` has a balance that is not negative. -/
def OpensNonneg : Call → Prop
  | .CreateAccount a _ _ _ => 0 ≤ a.Balance.val
  | _ => True

instance (c : Call) : Decidable (OpensNonneg c) := by
  cases c <;> unfold OpensNonneg <;> infer_instance

/-- The call is a credit that succeeds and carries the credited balance past
`math.MaxInt64`: a `Deposit`, or a `Transfer` between two different accounts. -/
def Overflows (s : InMemoryStore) : Call → Bool
  | .Deposit accountID amount _ _ _ _ =>
    match KMap.find s.Accounts accountID with
    | some a =>
      decide (0 < amount.val) && a.IsActive &&
        decide (9223372036854775807 < a.Balance.val + amount.val)
    | none => false
  | .Transfer fromID toID amount _ _ _ _ _ _ _ =>
    match KMap.find s.Accounts fromID, KMap.find s.Accounts toID with
    | some src, some dst =>
      decide (0 < amount.val) && src.IsActive && dst.IsActive &&
        decide (amount.val ≤ src.Balance.val) && decide (fromID ≠ toID) &&
        decide (9223372036854775807 < dst.Balance.val + amount.val)
    | _, _ => false
  | _ => false

end Call

/-- The store after a sequence of calls, run one after the other from `s`. -/
def run (s : InMemoryStore) : List Call → InMemoryStore
  | [] => s
  | c :: cs => run (c.exec s) cs

/-- Every call of the sequence, run from `s`, draws new identifiers. -/
def FreshRun (s : InMemoryStore) : List Call → Prop
  | [] => True
  | c :: cs => c.Fresh s ∧ FreshRun (c.exec s) cs

instance decFreshRun : (s : InMemoryStore) → (cs : List Call) → Decidable (FreshRun s cs)
  | _, [] => isTrue trivial
  | s, c :: cs => @instDecidableAnd _ _ _ (decFreshRun (c.exec s) cs)

/-- No call of the sequence, run from `s`, is a credit past `math.MaxInt64`, and every
account is created with a balance that is not negative. -/
def BoundedRun (s : InMemoryStore) : List Call → Prop
  | [] => True
  | c :: cs => (c.Overflows s = false ∧ c.OpensNonneg) ∧ BoundedRun (c.exec s) cs

instance decBoundedRun : (s : InMemoryStore) → (cs : List Call) → Decidable (BoundedRun s cs)
  | _, [] => isTrue trivial
  | s, c :: cs => @instDecidableAnd _ _ _ (decBoundedRun (c.exec s) cs)

/-- The bookkeeping relation between the accounts and the transactions of a store:
accounts are bound under their own `ID`, every transaction posts against a bound
account, and every balance is the sum of the signed amounts of its transactions reduced
into the `int64` range, never above that sum. -/
structure Ledgered (s : InMemoryStore) : Prop where
  keyed : ∀ k a, KMap.find s.Accounts k = some a → a.ID = k
  owned : ∀ e ∈ s.Transactions, e.2.AccountID ∈ KMap.keys s.Accounts
  bal : ∀ k a, KMap.find s.Accounts k = some a →
    a.Balance.val ≤ ledgerSum s.Transactions k ∧
      a.Balance.val = wrap64 (ledgerSum s.Transactions k)

/-- No account of the map has a negative balance. -/
def NonNeg (accs : KMap Account) : Prop :=
  ∀ k a, KMap.find accs k = some a → 0 ≤ a.Balance.val

/-- The account bound to `id` exists and is inactive. -/
def Inactive (accs : KMap Account) (id : String) : Prop :=
  ∃ a, KMap.find accs id = some a ∧ a.IsActive = false

/-- The call leaves an inactive account `id` inactive: it is not an `UpdateAccount` of
`id` that sets it active, and it is not a `CreateAccount` that draws `id` again (the
record a `CreateAccount` call is handed is one of the caller's own, never the stored
record of `id`). -/
def Call.KeepsInactive (id : String) : Call → Prop
  | .CreateAccount _ id' _ _ => id' ≠ id
  | .UpdateAccount id' _ isActive _ => id' = id → isActive ≠ some true
  | _ => True

instance (id : String) (c : Call) : Decidable (Call.KeepsInactive id c) := by
  cases c <;> unfold Call.KeepsInactive <;> infer_instance

/-- Two transfers of `amount` run one after the other, as the locks order them: `x → y`
with the metadata `md` and the draws `t1 .. inAt`, then `y → x` with the metadata `md'`
and the draws `t1' .. inAt'`.  The three components are the result of the first call,
the result of the second call and the store after both. -/
def transferThereAndBack (s : InMemoryStore) (x y : String) (amount : I64) (md : Meta)
    (t1 t2 : Time) (outID : String) (outAt : Time) (inID : String) (inAt : Time)
    (md' : Meta) (t1' t2' : Time) (outID' : String) (outAt' : Time) (inID' : String)
    (inAt' : Time) :
    Res (Transaction × Transaction) × Res (Transaction × Transaction) × InMemoryStore :=
  let r1 := Repo.Transfer s x y amount md t1 t2 outID outAt inID inAt
  let r2 := Repo.Transfer r1.2 y x amount md' t1' t2' outID' outAt' inID' inAt'
  (r1.1, r2.1, r2.2)

/-- In the words of the specification: the account is owned by `ownerID`, is not
inactive, has the currency of the filter when one is given (the empty string is no
filter), and holds at least the threshold when one is given. -/
def Listed (ownerID : String) (currency : String) (minBalance : Option I64)
    (a : Account) : Prop :=
  a.UserID = ownerID ∧ a.IsActive = true ∧ (currency = "" ∨ a.Currency = currency) ∧
    (match minBalance with
      | some m => m.val ≤ a.Balance.val
      | none => True)

instance (ownerID currency : String) (minBalance : Option I64) (a : Account) :
    Decidable (Listed ownerID currency minBalance a) := by
  unfold Listed
  cases minBalance <;> infer_instance

/-- The call returned without an error. -/
def Res.isOk {α : Type} : Res α → Bool
  | .ok _ => true
  | .err _ => false

/-- In the words of the specification, the number of records a call adds to the
transactions: 1 for a successful `Deposit` or `Withdraw`, 2 for a successful `Transfer`,
0 in every other case. -/
def Call.added (s : InMemoryStore) : Call → Nat
  | .Deposit accountID amount md t1 id t2 =>
    if (Repo.Deposit s accountID amount md t1 id t2).1.isOk then 1 else 0
  | .Withdraw accountID amount md t1 id t2 =>
    if (Repo.Withdraw s accountID amount md t1 id t2).1.isOk then 1 else 0
  | .Transfer fromID toID amount md t1 t2 outID outAt inID inAt =>
    if (Repo.Transfer s fromID toID amount md t1 t2 outID outAt inID inAt).1.isOk then 2
    else 0
  | _ => 0

/-- A record as the ledger posts it: stored under its own `ID`, with a positive amount
and the type DEPOSIT or WITHDRAW. -/
def Posted (e : String × Transaction) : Prop :=
  e.1 = e.2.ID ∧ 0 < e.2.Amount.val ∧ (e.2.Typ = .Deposit ∨ e.2.Typ = .Withdraw)

/-- The email index and the user map agree: every entry `email -> id` of the index has a
user stored under `id` whose `Email` is that email, and every stored user is stored under
its own `ID` and its `Email` maps to that `ID`. -/
structure IndexAgrees (s : InMemoryStore) : Prop where
  indexed : ∀ email id, KMap.find s.EmailIndex email = some id →
    ∃ u, KMap.find s.Users id = some u ∧ u.Email = email
  registered : ∀ id u, KMap.find s.Users id = some u →
    u.ID = id ∧ KMap.find s.EmailIndex u.Email = some id

/-- The call is a `CreateUser` with the email `email`, successful or not. -/
def Call.Registers (email : String) : Call → Prop
  | .CreateUser u _ _ _ => u.Email = email
  | _ => False

instance (email : String) (c : Call) : Decidable (Call.Registers email c) := by
  cases c <;> unfold Call.Registers <;> infer_instance

/-- In the words of the specification, the error of a `Transfer` by precedence: invalid
amount before everything; otherwise `ErrNotFound` if the source or the destination is
missing; otherwise `ErrAccountInactive` if either account is inactive; otherwise
`ErrInsufficient` if the balance of the source is below `amount`; otherwise none, which
is success. -/
def transferError (s : InMemoryStore) (fromID toID : String) (amount : I64) : Option Err :=
  if amount.val ≤ 0 then some .amountMustBePositive
  else
    match KMap.find s.Accounts fromID, KMap.find s.Accounts toID with
    | some src, some dst =>
      if src.IsActive = false ∨ dst.IsActive = false then some .ErrAccountInactive
      else if src.Balance.val < amount.val then some .ErrInsufficient
      else none
    | _, _ => some .ErrNotFound

/-- The account `a'` is the account `a` in every field but `Balance` and `UpdatedAt`. -/
def Account.SameFixed (a a' : Account) : Prop :=
  a'.ID = a.ID ∧ a'.UserID = a.UserID ∧ a'.Name = a.Name ∧ a'.Currency = a.Currency ∧
    a'.IsActive = a.IsActive ∧ a'.CreatedAt = a.CreatedAt

/-- Every account of `accs` is bound in `accs'` under the same key, the same in every
field but `Balance` and `UpdatedAt`. -/
def FixedKept (accs accs' : KMap Account) : Prop :=
  ∀ k a, KMap.find accs k = some a → ∃ a', KMap.find accs' k = some a' ∧ a.SameFixed a'

/-! ## Concrete stores and runs -/

/-- The overflow run: one account created with balance 0, then two deposits of
`math.MaxInt64`. -/
def overflowRun : List Call :=
  [ .CreateAccount
      { ID := "", UserID := "u1", Name := "main", Balance := 0, Currency := "USD",
        IsActive := true, CreatedAt := 0, UpdatedAt := 0 } "A" 1 2,
    .Deposit "A" I64.MaxInt64 [] 3 "T1" 4,
    .Deposit "A" I64.MaxInt64 [] 5 "T2" 6 ]

/-- A run that creates one account from a record that carries the balance 5. -/
def openingRun : List Call :=
  [ .CreateAccount
      { ID := "", UserID := "u1", Name := "main", Balance := 5, Currency := "USD",
        IsActive := true, CreatedAt := 0, UpdatedAt := 0 } "A" 1 2 ]

/-- The scenario of the specification: a USD account is created and receives 1000, a
second USD account is created, and 400 are transferred from the first to the second. -/
def scenarioRun : List Call :=
  [ .CreateAccount
      { ID := "", UserID := "u1", Name := "main", Balance := 0, Currency := "USD",
        IsActive := true, CreatedAt := 0, UpdatedAt := 0 } "A" 1 2,
    .Deposit "A" 1000 [] 3 "T1" 4,
    .CreateAccount
      { ID := "", UserID := "u1", Name := "savings", Balance := 0, Currency := "USD",
        IsActive := true, CreatedAt := 0, UpdatedAt := 0 } "B" 5 6,
    .Transfer "A" "B" 400 [("note", "rent")] 7 8 "T2" 9 "T3" 10 ]

/-- An active account record with the given identifier and balance. -/
def mkAccount (id : String) (balance : I64) : Account :=
  { ID := id, UserID := "u1", Name := "main", Balance := balance, Currency := "USD",
    IsActive := true, CreatedAt := 1, UpdatedAt := 2 }

/-- A store with two active accounts: `A` holds 1 and `B` holds `math.MaxInt64`. -/
def fullStore : InMemoryStore :=
  { NewInMemoryStore with
    Accounts := [("A", mkAccount "A" 1), ("B", mkAccount "B" I64.MaxInt64)] }

/-- A store with two active accounts: `A` holds 1000 and `B` holds 0, and the DEPOSIT
record of the 1000. -/
def scenarioStore : InMemoryStore :=
  { NewInMemoryStore with
    Accounts := [("A", mkAccount "A" 1000), ("B", mkAccount "B" 0)]
    Transactions :=
      [("T1", { ID := "T1", AccountID := "A", Typ := .Deposit, Amount := 1000, Meta := [],
                CreatedAt := 4 })] }

/-- A store with two active accounts: `A` holds 50 and `B` holds 0. -/
def smallStore : InMemoryStore :=
  { NewInMemoryStore with Accounts := [("A", mkAccount "A" 50), ("B", mkAccount "B" 0)] }

/-- A run that creates one account from a record that carries the balance -5. -/
def negativeOpeningRun : List Call :=
  [ .CreateAccount
      { ID := "", UserID := "u1", Name := "main", Balance := I64.ofInt (-5),
        Currency := "USD", IsActive := true, CreatedAt := 0, UpdatedAt := 0 } "A" 1 2 ]

/-- A run that creates one account with balance 0 and deposits `math.MaxInt64` once. -/
def maxRun : List Call :=
  [ .CreateAccount
      { ID := "", UserID := "u1", Name := "main", Balance := 0, Currency := "USD",
        IsActive := true, CreatedAt := 0, UpdatedAt := 0 } "A" 1 2,
    .Deposit "A" I64.MaxInt64 [] 3 "T1" 4 ]

/-- A store with two active accounts: `A` holds 10 and `B` holds `math.MaxInt64`. -/
def tenStore : InMemoryStore :=
  { NewInMemoryStore with
    Accounts := [("A", mkAccount "A" 10), ("B", mkAccount "B" I64.MaxInt64)] }

/-- A store with two active accounts: `A` holds 50 and `B` holds 30. -/
def pairStore : InMemoryStore :=
  { NewInMemoryStore with Accounts := [("A", mkAccount "A" 50), ("B", mkAccount "B" 30)] }

/-- The store with 50 on `A` and 30 on `B` after `DeleteAccount(B)`. -/
def frozenStore : InMemoryStore := (Repo.DeleteAccount pairStore "B" 3).2

/-- The account `frozenStore` holds under `B`, which `GetAccount(B)` returns: 30 on it,
inactive. -/
def frozenAccount : Account :=
  { ID := "B", UserID := "u1", Name := "main", Balance := 30, Currency := "USD",
    IsActive := false, CreatedAt := 1, UpdatedAt := 3 }

/-- The store `frozenStore` after `CreateAccount` is handed the pointer that
`GetAccount(B)` returns, the one the store binds under `B`, and draws the identifier
`C`. -/
def revivedStore : InMemoryStore :=
  (Repo.CreateAccount frozenStore (.stored "B" frozenAccount) "C" 4 5).2

/-- The store after `CreateAccount`, which draws the identifier `A`, and `Deposit(A, 50)`,
from the empty store. -/
def openedStore : InMemoryStore :=
  (Repo.Deposit
    (Repo.CreateAccount NewInMemoryStore
      (.fresh { ID := "", UserID := "u1", Name := "main", Balance := 0, Currency := "USD",
                IsActive := true, CreatedAt := 0, UpdatedAt := 0 }) "A" 1 2).2
    "A" 50 [] 3 "T1" 4).2

/-- The account `openedStore` holds under `A`, which `GetAccount(A)` returns. -/
def openedAccount : Account :=
  { ID := "A", UserID := "u1", Name := "main", Balance := 50, Currency := "USD",
    IsActive := true, CreatedAt := 1, UpdatedAt := 3 }

/-- The store `openedStore` after `CreateAccount` is handed the pointer that
`GetAccount(A)` returns, the one the store binds under `A`, and draws the identifier
`X`. -/
def reboundStore : InMemoryStore :=
  (Repo.CreateAccount openedStore (.stored "A" openedAccount) "X" 5 6).2

/-- A user record as the registration handler hands it to `CreateUser`. -/
def mkUser (email name : String) : User :=
  { ID := "", Email := email, PasswordHash := "h", Name := name, IsActive := false,
    CreatedAt := 0, UpdatedAt := 0 }

/-- A run with two registrations under one email, the second of which fails, and one
account creation. -/
def registerRun : List Call :=
  [ .CreateUser (mkUser "ann@x.org" "Ann") "U1" 1 2,
    .CreateUser (mkUser "ann@x.org" "Bob") "U2" 3 4,
    .CreateAccount (mkAccount "" 0) "A" 5 6 ]

/-! ## Lemmas on machine integers -/

namespace I64

theorem le_def (a b : I64) : a ≤ b ↔ a.val ≤ b.val := Iff.rfl

theorem lt_def (a b : I64) : a < b ↔ a.val < b.val := Iff.rfl

theorem val_zero : (0 : I64).val = 0 := by decide

theorem val_add (a b : I64) : (a + b).val = wrap64 (a.val + b.val) := rfl

theorem val_sub (a b : I64) : (a - b).val = wrap64 (a.val - b.val) := rfl

theorem eq_of_val_eq {a b : I64} (h : a.val = b.val) : a = b := by
  cases a; cases b; simp only at h; subst h; rfl

theorem not_le_zero (a : I64) : ¬ a ≤ 0 ↔ 0 < a.val := by
  rw [le_def, val_zero]; omega

end I64

/-! ## Lemmas on maps -/

namespace KMap

variable {V : Type}

theorem find_put (m : KMap V) (k k' : String) (v : V) :
    find (put m k v) k' = if k = k' then some v else find m k' := by
  induction m with
  | nil => simp [put, find]
  | cons e rest ih =>
    obtain ⟨k0, v0⟩ := e
    by_cases h0 : k0 = k
    · subst h0; by_cases h1 : k0 = k' <;> simp [put, find, h1]
    · by_cases h1 : k0 = k'
      · subst h1
        have : ¬ k = k0 := fun h => h0 h.symm
        simp [put, find, h0, this]
      · simp [put, find, h0, h1, ih]

theorem find_modify (m : KMap V) (k k' : String) (f : V → V) :
    find (modify m k f) k' = if k = k' then (find m k').map f else find m k' := by
  induction m with
  | nil => simp [modify, find]
  | cons e rest ih =>
    obtain ⟨k0, v0⟩ := e
    by_cases h0 : k0 = k
    · subst h0; by_cases h1 : k0 = k' <;> simp [modify, find, h1]
    · by_cases h1 : k0 = k'
      · subst h1
        have : ¬ k = k0 := fun h => h0 h.symm
        simp [modify, find, h0, this]
      · simp [modify, find, h0, h1, ih]

theorem keys_modify (m : KMap V) (k : String) (f : V → V) :
    keys (modify m k f) = keys m := by
  induction m with
  | nil => rfl
  | cons e rest ih =>
    obtain ⟨k0, v0⟩ := e
    by_cases h0 : k0 = k
    · simp [modify, keys, h0]
    · have := ih
      simp only [keys] at this
      simp [modify, keys, h0, this]

theorem find_eq_none_iff (m : KMap V) (k : String) : find m k = none ↔ k ∉ keys m := by
  induction m with
  | nil => simp [find, keys]
  | cons e rest ih =>
    obtain ⟨k0, v0⟩ := e
    by_cases h0 : k0 = k
    · simp [find, keys, h0]
    · have h1 : ¬ k = k0 := fun h => h0 h.symm
      simp only [keys] at ih
      simp [find, keys, h0, h1, ih]

theorem mem_keys_of_find {m : KMap V} {k : String} {v : V} (h : find m k = some v) :
    k ∈ keys m := by
  by_contra hk
  rw [(find_eq_none_iff m k).mpr hk] at h
  cases h

theorem put_fresh (m : KMap V) (k : String) (v : V) (h : k ∉ keys m) :
    put m k v = m ++ [(k, v)] := by
  induction m with
  | nil => rfl
  | cons e rest ih =>
    obtain ⟨k0, v0⟩ := e
    simp only [keys, List.map_cons, List.mem_cons, not_or] at h
    have h0 : ¬ k0 = k := fun h1 => h.1 h1.symm
    have := ih (by simpa [keys] using h.2)
    simp [put, h0, this]

theorem mem_keys_put (m : KMap V) (k k' : String) (v : V) :
    k' ∈ keys (put m k v) ↔ k' = k ∨ k' ∈ keys m := by
  induction m with
  | nil => simp [put, keys]
  | cons e rest ih =>
    obtain ⟨k0, v0⟩ := e
    simp only [keys] at ih
    by_cases h0 : k0 = k
    · subst h0; simp [put, keys]
    · simp [put, keys, h0, ih]; tauto

theorem modify_of_find_none (m : KMap V) (k : String) (f : V → V) (h : find m k = none) :
    modify m k f = m := by
  induction m with
  | nil => rfl
  | cons e rest ih =>
    obtain ⟨k0, v0⟩ := e
    by_cases h0 : k0 = k
    · simp [find, h0] at h
    · simp only [find, h0, if_false] at h
      simp [modify, h0, ih h]

theorem sum_modify (g : V → Int) (m : KMap V) (k : String) (f : V → V) (a : V)
    (h : find m k = some a) :
    ((modify m k f).map (fun e => g e.2)).sum = (m.map (fun e => g e.2)).sum + (g (f a) - g a) := by
  induction m with
  | nil => simp [find] at h
  | cons e rest ih =>
    obtain ⟨k0, v0⟩ := e
    by_cases h0 : k0 = k
    · simp only [find, h0, if_true, Option.some.injEq] at h
      subst h
      simp only [modify, h0, if_true, List.map_cons, List.sum_cons]
      omega
    · simp only [find, h0, if_false] at h
      simp only [modify, h0, if_false, List.map_cons, List.sum_cons, ih h]
      omega

end KMap

/-! ## Creating an account from a record of the caller's own -/

theorem CreateAccount_eq (s : InMemoryStore) (a : Account) (id : String) (t1 t2 : Time) :
    Repo.CreateAccount s (.fresh a) id t1 t2
      = (.ok { ID := id, UserID := a.UserID, Name := a.Name, Balance := a.Balance,
               Currency := a.Currency, IsActive := true, CreatedAt := t1, UpdatedAt := t2 },
         { s with
           Accounts := KMap.put s.Accounts id
             { ID := id, UserID := a.UserID, Name := a.Name, Balance := a.Balance,
               Currency := a.Currency, IsActive := true, CreatedAt := t1,
               UpdatedAt := t2 } }) := by
  cases hact : a.IsActive <;>
    simp [Repo.CreateAccount, AccountPtr.record, AccountPtr.write, hact]

/-! ## Lemmas on the ledger sum -/

theorem ledgerSum_append (txns : KMap Transaction) (id : String) (t : Transaction)
    (k : String) :
    ledgerSum (txns ++ [(id, t)]) k
      = ledgerSum txns k + (if t.AccountID = k then signedAmount t else 0) := by
  unfold ledgerSum
  by_cases h : t.AccountID = k <;> simp [List.filter_append, List.filter_cons, h]

theorem ledgerSum_eq_zero (txns : KMap Transaction) (k : String)
    (h : ∀ e ∈ txns, e.2.AccountID ≠ k) : ledgerSum txns k = 0 := by
  unfold ledgerSum
  have : txns.filter (fun e => decide (e.2.AccountID = k)) = [] := by
    rw [List.filter_eq_nil_iff]
    intro e he
    simpa using h e he
  rw [this]; rfl

theorem wrap64_of_range (x : Int) (h1 : -9223372036854775808 ≤ x)
    (h2 : x ≤ 9223372036854775807) : wrap64 x = x := by
  unfold wrap64; omega

/-! ## The bookkeeping relation is kept by every call -/

theorem ledgered_init : Ledgered NewInMemoryStore where
  keyed := by intro k a h; simp [NewInMemoryStore, KMap.find] at h
  owned := by intro e he; simp [NewInMemoryStore] at he
  bal := by intro k a h; simp [NewInMemoryStore, KMap.find] at h

theorem ledgered_of_accounts_fields {s : InMemoryStore} (h : Ledgered s)
    (accs : KMap Account) (hkeys : KMap.keys accs = KMap.keys s.Accounts)
    (hfind : ∀ k b, KMap.find accs k = some b →
      ∃ a, KMap.find s.Accounts k = some a ∧ b.ID = a.ID ∧ b.Balance = a.Balance)
    (users : KMap User) (index : KMap String) :
    Ledgered { s with Accounts := accs, Users := users, EmailIndex := index } where
  keyed := by
    intro k b hb
    obtain ⟨a, ha, hid, -⟩ := hfind k b hb
    rw [hid]; exact h.keyed k a ha
  owned := by
    intro e he
    show e.2.AccountID ∈ KMap.keys accs
    rw [hkeys]; exact h.owned e he
  bal := by
    intro k b hb
    obtain ⟨a, ha, -, hbal⟩ := hfind k b hb
    rw [hbal]; exact h.bal k a ha

theorem ledgered_modify {s : InMemoryStore} (h : Ledgered s) (k : String)
    (f : Account → Account) (hf : ∀ r, (f r).ID = r.ID ∧ (f r).Balance = r.Balance) :
    Ledgered { s with Accounts := KMap.modify s.Accounts k f } where
  keyed := by
    intro k' b hb
    simp only [KMap.find_modify] at hb
    split at hb
    · cases hfind : KMap.find s.Accounts k' with
      | none => simp [hfind] at hb
      | some a =>
        simp only [hfind, Option.map_some', Option.some.injEq] at hb
        subst hb
        rw [(hf a).1]; exact h.keyed k' a hfind
    · exact h.keyed k' b hb
  owned := by
    intro e he
    show e.2.AccountID ∈ KMap.keys (KMap.modify s.Accounts k f)
    rw [KMap.keys_modify]; exact h.owned e he
  bal := by
    intro k' b hb
    simp only [KMap.find_modify] at hb
    split at hb
    · cases hfind : KMap.find s.Accounts k' with
      | none => simp [hfind] at hb
      | some a =>
        simp only [hfind, Option.map_some', Option.some.injEq] at hb
        subst hb
        rw [(hf a).2]; exact h.bal k' a hfind
    · exact h.bal k' b hb

theorem ledgered_post {s : InMemoryStore} (h : Ledgered s) (k : String) (a : Account)
    (ha : KMap.find s.Accounts k = some a) (f : Account → Account)
    (hID : ∀ r, (f r).ID = r.ID) (id : String) (t : Transaction)
    (hid : id ∉ KMap.keys s.Transactions) (ht : t.AccountID = a.ID)
    (hbal : ∀ S : Int, a.Balance.val ≤ S → a.Balance.val = wrap64 S →
      (f a).Balance.val ≤ S + signedAmount t ∧ (f a).Balance.val = wrap64 (S + signedAmount t)) :
    Ledgered { s with Accounts := KMap.modify s.Accounts k f,
                      Transactions := KMap.put s.Transactions id t } where
  keyed := by
    intro k' b hb
    simp only [KMap.find_modify] at hb
    split at hb
    · cases hfind : KMap.find s.Accounts k' with
      | none => simp [hfind] at hb
      | some a' =>
        simp only [hfind, Option.map_some', Option.some.injEq] at hb
        subst hb
        rw [hID a']; exact h.keyed k' a' hfind
    · exact h.keyed k' b hb
  owned := by
    intro e he
    show e.2.AccountID ∈ KMap.keys (KMap.modify s.Accounts k f)
    rw [KMap.keys_modify]
    have he' : e ∈ s.Transactions ++ [(id, t)] := by
      rw [← KMap.put_fresh _ _ _ hid]; exact he
    rcases List.mem_append.mp he' with h1 | h1
    · exact h.owned e h1
    · simp only [List.mem_singleton] at h1
      subst h1
      show t.AccountID ∈ KMap.keys s.Accounts
      rw [ht, h.keyed k a ha]
      exact KMap.mem_keys_of_find ha
  bal := by
    intro k' b hb
    show b.Balance.val ≤ ledgerSum (KMap.put s.Transactions id t) k' ∧
      b.Balance.val = wrap64 (ledgerSum (KMap.put s.Transactions id t) k')
    rw [KMap.put_fresh _ _ _ hid, ledgerSum_append, ht, h.keyed k a ha]
    simp only [KMap.find_modify] at hb
    by_cases hk : k = k'
    · subst hk
      simp only [if_true, ha, Option.map_some', Option.some.injEq] at hb
      subst hb
      simp only [if_true]
      exact hbal _ (h.bal k a ha).1 (h.bal k a ha).2
    · simp only [hk, if_false] at hb
      simp only [hk, if_false, add_zero]
      exact h.bal k' b hb

theorem credit_arith (b amt S : Int) (hlo : -9223372036854775808 ≤ b)
    (hamt : 0 < amt) (hmax : amt ≤ 9223372036854775807)
    (h1 : b ≤ S) (h2 : b = wrap64 S) :
    wrap64 (b + amt) ≤ S + amt ∧ wrap64 (b + amt) = wrap64 (S + amt) := by
  unfold wrap64 at *; omega

theorem debit_arith (b amt S : Int) (hhi : b ≤ 9223372036854775807)
    (hamt : 0 < amt) (hle : amt ≤ b)
    (h1 : b ≤ S) (h2 : b = wrap64 S) :
    wrap64 (b - amt) ≤ S + -amt ∧ wrap64 (b - amt) = wrap64 (S + -amt) := by
  unfold wrap64 at *; omega

theorem ledgered_createUser {s : InMemoryStore} (h : Ledgered s) (u : User) (id : String)
    (t1 t2 : Time) : Ledgered (Repo.CreateUser s u id t1 t2).2 := by
  unfold Repo.CreateUser
  split
  · exact h
  · exact ledgered_of_accounts_fields h s.Accounts rfl (fun k b hb => ⟨b, hb, rfl, rfl⟩) _ _

theorem ledgered_createAccount {s : InMemoryStore} (h : Ledgered s) (a : Account)
    (id : String) (t1 t2 : Time) (hid : id ∉ KMap.keys s.Accounts)
    (hzero : a.Balance.val = 0) : Ledgered (Repo.CreateAccount s (.fresh a) id t1 t2).2 := by
  rw [CreateAccount_eq]
  constructor
  · intro k b hb
    have hb' : KMap.find (KMap.put s.Accounts id
        { ID := id, UserID := a.UserID, Name := a.Name, Balance := a.Balance,
          Currency := a.Currency, IsActive := true, CreatedAt := t1, UpdatedAt := t2 }) k
        = some b := hb
    rw [KMap.find_put] at hb'
    split at hb'
    · rename_i hk
      simp only [Option.some.injEq] at hb'
      subst hb'; exact hk
    · exact h.keyed k b hb'
  · intro e he
    show e.2.AccountID ∈ KMap.keys (KMap.put s.Accounts id _)
    rw [KMap.mem_keys_put]
    exact Or.inr (h.owned e he)
  · intro k b hb
    show b.Balance.val ≤ ledgerSum s.Transactions k ∧
      b.Balance.val = wrap64 (ledgerSum s.Transactions k)
    have hb' : KMap.find (KMap.put s.Accounts id
        { ID := id, UserID := a.UserID, Name := a.Name, Balance := a.Balance,
          Currency := a.Currency, IsActive := true, CreatedAt := t1, UpdatedAt := t2 }) k
        = some b := hb
    rw [KMap.find_put] at hb'
    split at hb'
    · rename_i hk
      simp only [Option.some.injEq] at hb'
      subst hb'; subst hk
      have hsum : ledgerSum s.Transactions id = 0 := by
        apply ledgerSum_eq_zero
        intro e he heq
        exact hid (heq ▸ h.owned e he)
      show a.Balance.val ≤ ledgerSum s.Transactions id ∧
        a.Balance.val = wrap64 (ledgerSum s.Transactions id)
      rw [hsum, hzero]
      exact ⟨le_refl _, by decide⟩
    · exact h.bal k b hb'

theorem ledgered_updateAccount {s : InMemoryStore} (h : Ledgered s) (id : String)
    (name : Option String) (isActive : Option Bool) (t : Time) :
    Ledgered (Repo.UpdateAccount s id name isActive t).2 := by
  unfold Repo.UpdateAccount
  split
  · exact h
  · have h1 := ledgered_modify h id
      (fun r => match name with
        | some n => { r with Name := n }
        | none => r) (by intro r; cases name <;> exact ⟨rfl, rfl⟩)
    have h2 := ledgered_modify h1 id
      (fun r => match isActive with
        | some b => { r with IsActive := b }
        | none => r) (by intro r; cases isActive <;> exact ⟨rfl, rfl⟩)
    exact ledgered_modify h2 id (fun r => { r with UpdatedAt := t }) (fun r => ⟨rfl, rfl⟩)

theorem ledgered_deleteAccount {s : InMemoryStore} (h : Ledgered s) (id : String)
    (t : Time) : Ledgered (Repo.DeleteAccount s id t).2 := by
  unfold Repo.DeleteAccount
  split
  · exact h
  · have h1 := ledgered_modify h id (fun r => { r with IsActive := false })
      (fun r => ⟨rfl, rfl⟩)
    exact ledgered_modify h1 id (fun r => { r with UpdatedAt := t }) (fun r => ⟨rfl, rfl⟩)

theorem ledgered_deposit {s : InMemoryStore} (h : Ledgered s) (accountID : String)
    (amount : I64) (md : Meta) (t1 : Time) (id : String) (t2 : Time)
    (hid : id ∉ KMap.keys s.Transactions) :
    Ledgered (Repo.Deposit s accountID amount md t1 id t2).2 := by
  unfold Repo.Deposit
  split
  · exact h
  · rename_i hpos
    rw [I64.not_le_zero] at hpos
    split
    · exact h
    · rename_i a ha
      split
      · exact h
      · have h1 := ledgered_post h accountID a ha
          (fun r => { r with Balance := r.Balance + amount }) (fun r => rfl) id
          { ID := id, AccountID := a.ID, Typ := .Deposit, Amount := amount, Meta := md,
            CreatedAt := t2 } hid rfl
          (by
            intro S hS1 hS2
            exact credit_arith a.Balance.val amount.val S a.Balance.lo hpos amount.hi hS1 hS2)
        exact ledgered_modify h1 accountID (fun r => { r with UpdatedAt := t1 })
          (fun r => ⟨rfl, rfl⟩)

theorem ledgered_withdraw {s : InMemoryStore} (h : Ledgered s) (accountID : String)
    (amount : I64) (md : Meta) (t1 : Time) (id : String) (t2 : Time)
    (hid : id ∉ KMap.keys s.Transactions) :
    Ledgered (Repo.Withdraw s accountID amount md t1 id t2).2 := by
  unfold Repo.Withdraw
  split
  · exact h
  · rename_i hpos
    rw [I64.not_le_zero] at hpos
    split
    · exact h
    · rename_i a ha
      split
      · exact h
      · split
        · exact h
        · rename_i hbal
          rw [I64.lt_def] at hbal
          have h1 := ledgered_post h accountID a ha
            (fun r => { r with Balance := r.Balance - amount }) (fun r => rfl) id
            { ID := id, AccountID := a.ID, Typ := .Withdraw, Amount := amount, Meta := md,
              CreatedAt := t2 } hid rfl
            (by
              intro S hS1 hS2
              exact debit_arith a.Balance.val amount.val S a.Balance.hi hpos (by omega) hS1 hS2)
          exact ledgered_modify h1 accountID (fun r => { r with UpdatedAt := t1 })
            (fun r => ⟨rfl, rfl⟩)

theorem ledgered_transfer {s : InMemoryStore} (h : Ledgered s) (fromID toID : String)
    (amount : I64) (md : Meta) (t1 t2 : Time) (outID : String) (outAt : Time)
    (inID : String) (inAt : Time) (hout : outID ∉ KMap.keys s.Transactions)
    (hin : inID ∉ KMap.keys s.Transactions) (hio : inID ≠ outID) :
    Ledgered (Repo.Transfer s fromID toID amount md t1 t2 outID outAt inID inAt).2 := by
  unfold Repo.Transfer
  split
  · exact h
  · rename_i hpos
    rw [I64.not_le_zero] at hpos
    split
    · exact h
    · rename_i src hsrc
      split
      · exact h
      · rename_i dst hdst
        split
        · exact h
        · split
          · exact h
          · rename_i hbal
            rw [I64.lt_def] at hbal
            have h1 := ledgered_post h fromID src hsrc
              (fun r => { r with Balance := r.Balance - amount }) (fun r => rfl) outID
              { ID := outID, AccountID := src.ID, Typ := .Withdraw, Amount := amount,
                Meta := md, CreatedAt := outAt } hout rfl
              (by
                intro S hS1 hS2
                exact debit_arith src.Balance.val amount.val S src.Balance.hi hpos
                  (by omega) hS1 hS2)
            have hin1 : inID ∉ KMap.keys (KMap.put s.Transactions outID
                { ID := outID, AccountID := src.ID, Typ := .Withdraw, Amount := amount,
                  Meta := md, CreatedAt := outAt }) := by
              rw [KMap.mem_keys_put]
              rintro (h0 | h0)
              · exact hio h0
              · exact hin h0
            obtain ⟨dst1, hdst1, hdstID⟩ : ∃ dst1,
                KMap.find (KMap.modify s.Accounts fromID
                  (fun r => { r with Balance := r.Balance - amount })) toID = some dst1 ∧
                dst1.ID = dst.ID := by
              rw [KMap.find_modify, hdst]
              by_cases hk : fromID = toID
              · exact ⟨{ dst with Balance := dst.Balance - amount },
                  by simp only [hk, if_true, Option.map_some'], rfl⟩
              · exact ⟨dst, by simp only [hk, if_false], rfl⟩
            have h2 := ledgered_post h1 toID dst1 hdst1
              (fun r => { r with Balance := r.Balance + amount }) (fun r => rfl) inID
              { ID := inID, AccountID := dst.ID, Typ := .Deposit, Amount := amount,
                Meta := md, CreatedAt := inAt } hin1 hdstID.symm
              (by
                intro S hS1 hS2
                exact credit_arith dst1.Balance.val amount.val S dst1.Balance.lo hpos
                  amount.hi hS1 hS2)
            have h3 := ledgered_modify h2 fromID (fun r => { r with UpdatedAt := t1 })
              (fun r => ⟨rfl, rfl⟩)
            exact ledgered_modify h3 toID (fun r => { r with UpdatedAt := t2 })
              (fun r => ⟨rfl, rfl⟩)

theorem ledgered_exec {s : InMemoryStore} (h : Ledgered s) (c : Call) (hf : c.Fresh s)
    (hz : c.OpensAtZero) : Ledgered (c.exec s) := by
  cases c with
  | CreateUser u id t1 t2 => exact ledgered_createUser h u id t1 t2
  | CreateAccount a id t1 t2 => exact ledgered_createAccount h a id t1 t2 hf hz
  | UpdateAccount id name isActive t => exact ledgered_updateAccount h id name isActive t
  | DeleteAccount id t => exact ledgered_deleteAccount h id t
  | Deposit accountID amount md t1 id t2 => exact ledgered_deposit h accountID amount md t1 id t2 hf
  | Withdraw accountID amount md t1 id t2 => exact ledgered_withdraw h accountID amount md t1 id t2 hf
  | Transfer fromID toID amount md t1 t2 outID outAt inID inAt =>
    exact ledgered_transfer h fromID toID amount md t1 t2 outID outAt inID inAt hf.1 hf.2.1 hf.2.2

theorem ledgered_run {s : InMemoryStore} (h : Ledgered s) (cs : List Call)
    (hf : FreshRun s cs) (hz : ∀ c ∈ cs, c.OpensAtZero) : Ledgered (run s cs) := by
  induction cs generalizing s with
  | nil => exact h
  | cons c cs ih =>
    exact ih (ledgered_exec h c hf.1 (hz c (List.mem_cons_self c cs))) hf.2
      (fun c' hc' => hz c' (List.mem_cons_of_mem c hc'))

/-- C1 (as stated) fails.  Run from the empty store, with new identifiers: create an
account with balance 0 and deposit `math.MaxInt64` twice.  The second `a.Balance += amount`
wraps: the balance is -2 while the signed sum of the two DEPOSIT records is `2^64 - 2`.
A second run: `CreateAccount` stores the balance of the record it is given, so an
account given with balance 5 has balance 5 and no transaction. -/
theorem balance_ne_ledgerSum :
    (FreshRun NewInMemoryStore overflowRun ∧
      ∃ a, KMap.find (run NewInMemoryStore overflowRun).Accounts "A" = some a ∧
        a.ID = "A" ∧ a.Balance.val = -2 ∧
        ledgerSum (run NewInMemoryStore overflowRun).Transactions a.ID
          = 18446744073709551614) ∧
    (FreshRun NewInMemoryStore openingRun ∧
      ∃ a, KMap.find (run NewInMemoryStore openingRun).Accounts "A" = some a ∧
        a.ID = "A" ∧ a.Balance.val = 5 ∧
        ledgerSum (run NewInMemoryStore openingRun).Transactions a.ID = 0) := by
  refine ⟨⟨by decide, ?_⟩, ⟨by decide, ?_⟩⟩
  · exact ⟨_, rfl, by decide, by decide, by decide⟩
  · exact ⟨_, rfl, by decide, by decide, by decide⟩

/-- C1 (amended).  In every store reached from the empty store by a sequence of
`CreateUser`, `CreateAccount`, `UpdateAccount`, `DeleteAccount`, `Deposit`, `Withdraw`
and `Transfer` calls, successful or failing, that draw new identifiers and create
accounts with balance 0: every account is bound under its own `ID`, its balance is the
sum of the signed amounts of its transactions reduced modulo `2^64` into the `int64`
range, and its balance is that sum itself whenever the sum is at most `2^63 - 1`. -/
theorem balance_eq_ledgerSum (cs : List Call) (hfresh : FreshRun NewInMemoryStore cs)
    (hzero : ∀ c ∈ cs, c.OpensAtZero) (k : String) (a : Account)
    (ha : KMap.find (run NewInMemoryStore cs).Accounts k = some a) :
    a.ID = k ∧
    a.Balance.val = wrap64 (ledgerSum (run NewInMemoryStore cs).Transactions a.ID) ∧
    (ledgerSum (run NewInMemoryStore cs).Transactions a.ID ≤ 9223372036854775807 →
      a.Balance.val = ledgerSum (run NewInMemoryStore cs).Transactions a.ID) := by
  have hL := ledgered_run ledgered_init cs hfresh hzero
  have hk := hL.keyed k a ha
  have hb := hL.bal k a ha
  rw [hk]
  refine ⟨rfl, hb.2, ?_⟩
  intro hle
  have h1 := hb.1
  have h2 := hb.2
  have h3 := a.Balance.lo
  unfold wrap64 at h2
  omega

/-- Witness of `balance_eq_ledgerSum`: after the scenario run the first account holds
600, the signed sum of its DEPOSIT of 1000 and its WITHDRAW of 400. -/
theorem balance_eq_ledgerSum_witness :
    FreshRun NewInMemoryStore scenarioRun ∧ (∀ c ∈ scenarioRun, c.OpensAtZero) ∧
    KMap.find (run NewInMemoryStore scenarioRun).Accounts "A"
      = some { ID := "A", UserID := "u1", Name := "main", Balance := 600,
               Currency := "USD", IsActive := true, CreatedAt := 1, UpdatedAt := 7 } ∧
    ledgerSum (run NewInMemoryStore scenarioRun).Transactions "A" = 600 ∧
    ("A" = "A" ∧
      (600 : I64).val = wrap64 (ledgerSum (run NewInMemoryStore scenarioRun).Transactions "A") ∧
      (ledgerSum (run NewInMemoryStore scenarioRun).Transactions "A" ≤ 9223372036854775807 →
        (600 : I64).val = ledgerSum (run NewInMemoryStore scenarioRun).Transactions "A")) :=
  ⟨by decide, by decide, by decide, by decide,
    balance_eq_ledgerSum scenarioRun (by decide) (by decide) "A"
      { ID := "A", UserID := "u1", Name := "main", Balance := 600,
        Currency := "USD", IsActive := true, CreatedAt := 1, UpdatedAt := 7 } (by decide)⟩

/-! ## Balances stay non-negative while no credit overflows -/

theorem nonNeg_modify {accs : KMap Account} (h : NonNeg accs) (k : String)
    (f : Account → Account)
    (hf : ∀ a, KMap.find accs k = some a → 0 ≤ a.Balance.val → 0 ≤ (f a).Balance.val) :
    NonNeg (KMap.modify accs k f) := by
  intro k' b hb
  simp only [KMap.find_modify] at hb
  by_cases hk : k = k'
  · subst hk
    cases hfind : KMap.find accs k with
    | none => simp [hfind] at hb
    | some a =>
      simp only [hfind, if_true, Option.map_some', Option.some.injEq] at hb
      subst hb
      exact hf a hfind (h k a hfind)
  · simp only [hk, if_false] at hb
    exact h k' b hb

theorem nonNeg_createAccount {s : InMemoryStore} (h : NonNeg s.Accounts) (a : Account)
    (id : String) (t1 t2 : Time) (hz : 0 ≤ a.Balance.val) :
    NonNeg (Repo.CreateAccount s (.fresh a) id t1 t2).2.Accounts := by
  rw [CreateAccount_eq]
  intro k b hb
  have hb' : KMap.find (KMap.put s.Accounts id
      { ID := id, UserID := a.UserID, Name := a.Name, Balance := a.Balance,
        Currency := a.Currency, IsActive := true, CreatedAt := t1, UpdatedAt := t2 }) k
      = some b := hb
  rw [KMap.find_put] at hb'
  split at hb'
  · simp only [Option.some.injEq] at hb'
    subst hb'
    exact hz
  · exact h k b hb'

theorem nonNeg_updateAccount {s : InMemoryStore} (h : NonNeg s.Accounts) (id : String)
    (name : Option String) (isActive : Option Bool) (t : Time) :
    NonNeg (Repo.UpdateAccount s id name isActive t).2.Accounts := by
  unfold Repo.UpdateAccount
  split
  · exact h
  · refine nonNeg_modify (nonNeg_modify (nonNeg_modify h id _ ?_) id _ ?_) id _ ?_
    · intro a _ ha; cases name <;> exact ha
    · intro a _ ha; cases isActive <;> exact ha
    · intro a _ ha; exact ha

theorem nonNeg_deleteAccount {s : InMemoryStore} (h : NonNeg s.Accounts) (id : String)
    (t : Time) : NonNeg (Repo.DeleteAccount s id t).2.Accounts := by
  unfold Repo.DeleteAccount
  split
  · exact h
  · exact nonNeg_modify (nonNeg_modify h id (fun r => { r with IsActive := false })
      (fun a _ ha => ha)) id (fun r => { r with UpdatedAt := t }) (fun a _ ha => ha)

theorem nonNeg_deposit {s : InMemoryStore} (h : NonNeg s.Accounts) (accountID : String)
    (amount : I64) (md : Meta) (t1 : Time) (id : String) (t2 : Time)
    (hov : (Call.Deposit accountID amount md t1 id t2).Overflows s = false) :
    NonNeg (Repo.Deposit s accountID amount md t1 id t2).2.Accounts := by
  unfold Repo.Deposit
  split
  · exact h
  · rename_i hpos
    rw [I64.not_le_zero] at hpos
    split
    · exact h
    · rename_i a ha
      split
      · exact h
      · rename_i hact
        refine nonNeg_modify (nonNeg_modify h accountID _ ?_) accountID _ (fun a _ ha => ha)
        intro a' ha' hnn
        rw [ha] at ha'
        cases ha'
        simp only [Call.Overflows, ha] at hov
        simp only [Bool.not_eq_true, Bool.not_eq_false'] at hact
        simp only [hpos, hact, decide_True, Bool.and_self, Bool.true_and,
          decide_eq_false_iff_not, not_lt] at hov
        show 0 ≤ (a.Balance + amount).val
        rw [I64.val_add, wrap64_of_range _ (by omega) hov]
        omega

theorem nonNeg_withdraw {s : InMemoryStore} (h : NonNeg s.Accounts) (accountID : String)
    (amount : I64) (md : Meta) (t1 : Time) (id : String) (t2 : Time) :
    NonNeg (Repo.Withdraw s accountID amount md t1 id t2).2.Accounts := by
  unfold Repo.Withdraw
  split
  · exact h
  · rename_i hpos
    rw [I64.not_le_zero] at hpos
    split
    · exact h
    · rename_i a ha
      split
      · exact h
      · split
        · exact h
        · rename_i hbal
          rw [I64.lt_def] at hbal
          refine nonNeg_modify (nonNeg_modify h accountID _ ?_) accountID _ (fun a _ ha => ha)
          intro a' ha' hnn
          rw [ha] at ha'
          cases ha'
          show 0 ≤ (a.Balance - amount).val
          have := a.Balance.hi
          rw [I64.val_sub, wrap64_of_range _ (by omega) (by omega)]
          omega

theorem nonNeg_transfer {s : InMemoryStore} (h : NonNeg s.Accounts) (fromID toID : String)
    (amount : I64) (md : Meta) (t1 t2 : Time) (outID : String) (outAt : Time)
    (inID : String) (inAt : Time)
    (hov : (Call.Transfer fromID toID amount md t1 t2 outID outAt inID inAt).Overflows s
      = false) :
    NonNeg (Repo.Transfer s fromID toID amount md t1 t2 outID outAt inID inAt).2.Accounts := by
  unfold Repo.Transfer
  split
  · exact h
  · rename_i hpos
    rw [I64.not_le_zero] at hpos
    split
    · exact h
    · rename_i src hsrc
      split
      · exact h
      · rename_i dst hdst
        split
        · exact h
        · rename_i hact
          split
          · exact h
          · rename_i hbal
            rw [I64.lt_def] at hbal
            simp only [Bool.or_eq_true, Bool.not_eq_true', not_or, Bool.not_eq_false] at hact
            simp only [Call.Overflows, hsrc, hdst, hpos, hact.1, hact.2, decide_True,
              Bool.and_self, Bool.true_and, Bool.and_eq_false_imp, decide_eq_true_eq,
              decide_eq_false_iff_not, not_lt] at hov
            have hsrcHi := src.Balance.hi
            have hdebit : (src.Balance - amount).val = src.Balance.val - amount.val := by
              rw [I64.val_sub, wrap64_of_range _ (by omega) (by omega)]
            refine nonNeg_modify (nonNeg_modify (nonNeg_modify (nonNeg_modify h fromID
              (fun r => { r with Balance := r.Balance - amount }) ?_) toID
              (fun r => { r with Balance := r.Balance + amount }) ?_) fromID
              (fun r => { r with UpdatedAt := t1 }) (fun a _ ha => ha)) toID
              (fun r => { r with UpdatedAt := t2 }) (fun a _ ha => ha)
            · intro a ha _
              rw [hsrc] at ha
              cases ha
              show 0 ≤ (src.Balance - amount).val
              rw [hdebit]; omega
            · intro a ha hnn
              show 0 ≤ (a.Balance + amount).val
              rw [KMap.find_modify] at ha
              by_cases hk : fromID = toID
              · subst hk
                simp only [if_true, hsrc, Option.map_some', Option.some.injEq] at ha
                subst ha
                show 0 ≤ ((src.Balance - amount) + amount).val
                rw [I64.val_add, hdebit, wrap64_of_range _ (by omega) (by omega)]
                omega
              · simp only [hk, if_false, hdst, Option.some.injEq] at ha
                subst ha
                have hroom := hov (by
                  simp only [Bool.and_eq_true, decide_eq_true_eq]
                  exact ⟨by omega, hk⟩)
                rw [I64.val_add, wrap64_of_range _ (by omega) hroom]
                omega

theorem nonNeg_exec {s : InMemoryStore} (h : NonNeg s.Accounts) (c : Call)
    (hov : c.Overflows s = false) (hz : c.OpensNonneg) : NonNeg (c.exec s).Accounts := by
  cases c with
  | CreateUser u id t1 t2 =>
    show NonNeg (Repo.CreateUser s u id t1 t2).2.Accounts
    unfold Repo.CreateUser
    split <;> exact h
  | CreateAccount a id t1 t2 => exact nonNeg_createAccount h a id t1 t2 hz
  | UpdateAccount id name isActive t => exact nonNeg_updateAccount h id name isActive t
  | DeleteAccount id t => exact nonNeg_deleteAccount h id t
  | Deposit accountID amount md t1 id t2 =>
    exact nonNeg_deposit h accountID amount md t1 id t2 hov
  | Withdraw accountID amount md t1 id t2 =>
    exact nonNeg_withdraw h accountID amount md t1 id t2
  | Transfer fromID toID amount md t1 t2 outID outAt inID inAt =>
    exact nonNeg_transfer h fromID toID amount md t1 t2 outID outAt inID inAt hov

theorem nonNeg_run {s : InMemoryStore} (h : NonNeg s.Accounts) (cs : List Call)
    (hb : BoundedRun s cs) : NonNeg (run s cs).Accounts := by
  induction cs generalizing s with
  | nil => exact h
  | cons c cs ih => exact ih (nonNeg_exec h c hb.1.1 hb.1.2) hb.2

/-- C2 (as stated) fails.  Run from the empty store, with new identifiers: create an
account with balance 0 and deposit `math.MaxInt64` twice.  Both deposits succeed, the
second `a.Balance += amount` wraps, and the account is left with the balance -2.
A second run: `CreateAccount` stores the balance of the record it is given, so an
account given with balance -5 has the balance -5. -/
theorem balance_negative_reachable :
    (FreshRun NewInMemoryStore overflowRun ∧
      ∃ a, KMap.find (run NewInMemoryStore overflowRun).Accounts "A" = some a ∧
        a.Balance.val = -2 ∧ ¬ 0 ≤ a.Balance.val) ∧
    (FreshRun NewInMemoryStore negativeOpeningRun ∧
      ∃ a, KMap.find (run NewInMemoryStore negativeOpeningRun).Accounts "A" = some a ∧
        a.Balance.val = -5 ∧ ¬ 0 ≤ a.Balance.val) :=
  ⟨⟨by decide, _, rfl, by decide, by decide⟩, ⟨by decide, _, rfl, by decide, by decide⟩⟩

/-- C2 (amended).  In every store reached from the empty store by a sequence of
repository calls in which every account is created with a balance that is not negative
and no successful `Deposit` or `Transfer` credit carries a balance past `2^63 - 1`,
the balance of every account is greater than or equal to 0. -/
theorem balance_nonneg (cs : List Call) (hb : BoundedRun NewInMemoryStore cs) (k : String)
    (a : Account) (ha : KMap.find (run NewInMemoryStore cs).Accounts k = some a) :
    0 ≤ a.Balance.val := by
  have h0 : NonNeg NewInMemoryStore.Accounts := by
    intro k a h; simp [NewInMemoryStore, KMap.find] at h
  exact nonNeg_run h0 cs hb k a ha

/-- Witness of `balance_nonneg`: the scenario run is bounded, and its first account
ends with the balance 600. -/
theorem balance_nonneg_witness :
    BoundedRun NewInMemoryStore scenarioRun ∧
    KMap.find (run NewInMemoryStore scenarioRun).Accounts "A"
      = some { ID := "A", UserID := "u1", Name := "main", Balance := 600,
               Currency := "USD", IsActive := true, CreatedAt := 1, UpdatedAt := 7 } ∧
    0 ≤ (600 : I64).val :=
  ⟨by decide, by decide,
    balance_nonneg scenarioRun (by decide) "A"
      { ID := "A", UserID := "u1", Name := "main", Balance := 600,
        Currency := "USD", IsActive := true, CreatedAt := 1, UpdatedAt := 7 } (by decide)⟩

/-! ## Transfers and the total of the balances -/

theorem sum_modify_same {V : Type} (g : V → Int) (m : KMap V) (k : String)
    (f : V → V) (hf : ∀ a, g (f a) = g a) :
    ((KMap.modify m k f).map (fun e => g e.2)).sum = (m.map (fun e => g e.2)).sum := by
  induction m with
  | nil => rfl
  | cons e rest ih =>
    obtain ⟨k0, v0⟩ := e
    by_cases h0 : k0 = k
    · simp only [KMap.modify, h0, if_true, List.map_cons, List.sum_cons, hf]
    · simp only [KMap.modify, h0, if_false, List.map_cons, List.sum_cons, ih]

/-! ## The successful paths of the money operations -/

theorem find_modify_self {V : Type} (m : KMap V) (k : String) (f : V → V) (a : V)
    (h : KMap.find m k = some a) : KMap.find (KMap.modify m k f) k = some (f a) := by
  rw [KMap.find_modify, h]; simp

theorem find_modify_ne {V : Type} (m : KMap V) (k k' : String) (f : V → V) (h : k ≠ k') :
    KMap.find (KMap.modify m k f) k' = KMap.find m k' := by
  rw [KMap.find_modify]; simp [h]

theorem Deposit_ok_eq (s : InMemoryStore) (accountID : String) (amount : I64) (md : Meta)
    (t1 : Time) (id : String) (t2 : Time) (a : Account) (hpos : 0 < amount.val)
    (ha : KMap.find s.Accounts accountID = some a) (hact : a.IsActive = true) :
    Repo.Deposit s accountID amount md t1 id t2
      = (.ok { ID := id, AccountID := a.ID, Typ := .Deposit, Amount := amount, Meta := md,
               CreatedAt := t2 },
         { s with
           Accounts := KMap.modify (KMap.modify s.Accounts accountID
             (fun r => { r with Balance := r.Balance + amount })) accountID
             (fun r => { r with UpdatedAt := t1 })
           Transactions := KMap.put s.Transactions id
             { ID := id, AccountID := a.ID, Typ := .Deposit, Amount := amount, Meta := md,
               CreatedAt := t2 } }) := by
  unfold Repo.Deposit
  rw [if_neg ((I64.not_le_zero amount).mpr hpos)]
  simp only [ha, hact, Bool.not_true, Bool.false_eq_true, if_false]

theorem Withdraw_ok_eq (s : InMemoryStore) (accountID : String) (amount : I64) (md : Meta)
    (t1 : Time) (id : String) (t2 : Time) (a : Account) (hpos : 0 < amount.val)
    (ha : KMap.find s.Accounts accountID = some a) (hact : a.IsActive = true)
    (hbal : amount.val ≤ a.Balance.val) :
    Repo.Withdraw s accountID amount md t1 id t2
      = (.ok { ID := id, AccountID := a.ID, Typ := .Withdraw, Amount := amount, Meta := md,
               CreatedAt := t2 },
         { s with
           Accounts := KMap.modify (KMap.modify s.Accounts accountID
             (fun r => { r with Balance := r.Balance - amount })) accountID
             (fun r => { r with UpdatedAt := t1 })
           Transactions := KMap.put s.Transactions id
             { ID := id, AccountID := a.ID, Typ := .Withdraw, Amount := amount, Meta := md,
               CreatedAt := t2 } }) := by
  unfold Repo.Withdraw
  have hlt : ¬ a.Balance < amount := by rw [I64.lt_def]; omega
  rw [if_neg ((I64.not_le_zero amount).mpr hpos)]
  simp only [ha, hact, Bool.not_true, Bool.false_eq_true, if_false, hlt]

theorem Transfer_ok_eq (s : InMemoryStore) (fromID toID : String) (amount : I64)
    (md : Meta) (t1 t2 : Time) (outID : String) (outAt : Time) (inID : String) (inAt : Time)
    (src dst : Account) (hpos : 0 < amount.val)
    (hsrc : KMap.find s.Accounts fromID = some src)
    (hdst : KMap.find s.Accounts toID = some dst)
    (hsa : src.IsActive = true) (hda : dst.IsActive = true)
    (hbal : amount.val ≤ src.Balance.val) :
    Repo.Transfer s fromID toID amount md t1 t2 outID outAt inID inAt
      = (.ok ({ ID := outID, AccountID := src.ID, Typ := .Withdraw, Amount := amount,
                Meta := md, CreatedAt := outAt },
              { ID := inID, AccountID := dst.ID, Typ := .Deposit, Amount := amount,
                Meta := md, CreatedAt := inAt }),
         { s with
           Accounts := KMap.modify (KMap.modify (KMap.modify (KMap.modify s.Accounts fromID
             (fun r => { r with Balance := r.Balance - amount })) toID
             (fun r => { r with Balance := r.Balance + amount })) fromID
             (fun r => { r with UpdatedAt := t1 })) toID
             (fun r => { r with UpdatedAt := t2 })
           Transactions := KMap.put (KMap.put s.Transactions outID
             { ID := outID, AccountID := src.ID, Typ := .Withdraw, Amount := amount,
               Meta := md, CreatedAt := outAt }) inID
             { ID := inID, AccountID := dst.ID, Typ := .Deposit, Amount := amount,
               Meta := md, CreatedAt := inAt } }) := by
  unfold Repo.Transfer
  have hlt : ¬ src.Balance < amount := by rw [I64.lt_def]; omega
  rw [if_neg ((I64.not_le_zero amount).mpr hpos)]
  simp only [hsrc, hdst, hsa, hda, Bool.not_true, Bool.or_self, Bool.false_eq_true, if_false,
    hlt]

theorem put_put_fresh {V : Type} (m : KMap V) (k1 k2 : String) (v1 v2 : V)
    (h1 : k1 ∉ KMap.keys m) (h2 : k2 ∉ KMap.keys m) (h12 : k2 ≠ k1) :
    KMap.put (KMap.put m k1 v1) k2 v2 = m ++ [(k1, v1), (k2, v2)] := by
  rw [KMap.put_fresh m k1 v1 h1, KMap.put_fresh]
  · simp
  · simp only [KMap.keys, List.map_append, List.map_cons, List.map_nil, List.mem_append,
      List.mem_singleton, not_or]
    exact ⟨h2, h12⟩

/-! ## The failing paths of the money operations -/

theorem Transfer_invalid_eq (s : InMemoryStore) (fromID toID : String) (amount : I64)
    (md : Meta) (t1 t2 : Time) (outID : String) (outAt : Time) (inID : String) (inAt : Time)
    (hle : amount.val ≤ 0) :
    Repo.Transfer s fromID toID amount md t1 t2 outID outAt inID inAt
      = (.err .amountMustBePositive, s) := by
  unfold Repo.Transfer
  rw [if_pos (by rw [I64.le_def, I64.val_zero]; exact hle)]

theorem Transfer_from_missing_eq (s : InMemoryStore) (fromID toID : String) (amount : I64)
    (md : Meta) (t1 t2 : Time) (outID : String) (outAt : Time) (inID : String) (inAt : Time)
    (hpos : 0 < amount.val) (hsrc : KMap.find s.Accounts fromID = none) :
    Repo.Transfer s fromID toID amount md t1 t2 outID outAt inID inAt
      = (.err .ErrNotFound, s) := by
  unfold Repo.Transfer
  rw [if_neg ((I64.not_le_zero amount).mpr hpos)]
  simp only [hsrc]

theorem Transfer_to_missing_eq (s : InMemoryStore) (fromID toID : String) (amount : I64)
    (md : Meta) (t1 t2 : Time) (outID : String) (outAt : Time) (inID : String) (inAt : Time)
    (src : Account) (hpos : 0 < amount.val) (hsrc : KMap.find s.Accounts fromID = some src)
    (hdst : KMap.find s.Accounts toID = none) :
    Repo.Transfer s fromID toID amount md t1 t2 outID outAt inID inAt
      = (.err .ErrNotFound, s) := by
  unfold Repo.Transfer
  rw [if_neg ((I64.not_le_zero amount).mpr hpos)]
  simp only [hsrc, hdst]

theorem Transfer_inactive_eq (s : InMemoryStore) (fromID toID : String) (amount : I64)
    (md : Meta) (t1 t2 : Time) (outID : String) (outAt : Time) (inID : String) (inAt : Time)
    (src dst : Account) (hpos : 0 < amount.val)
    (hsrc : KMap.find s.Accounts fromID = some src)
    (hdst : KMap.find s.Accounts toID = some dst)
    (hact : src.IsActive = false ∨ dst.IsActive = false) :
    Repo.Transfer s fromID toID amount md t1 t2 outID outAt inID inAt
      = (.err .ErrAccountInactive, s) := by
  unfold Repo.Transfer
  rw [if_neg ((I64.not_le_zero amount).mpr hpos)]
  simp only [hsrc, hdst]
  rw [if_pos (by rcases hact with h | h <;> simp [h])]

theorem Transfer_insufficient_eq (s : InMemoryStore) (fromID toID : String) (amount : I64)
    (md : Meta) (t1 t2 : Time) (outID : String) (outAt : Time) (inID : String) (inAt : Time)
    (src dst : Account) (hpos : 0 < amount.val)
    (hsrc : KMap.find s.Accounts fromID = some src)
    (hdst : KMap.find s.Accounts toID = some dst)
    (hsa : src.IsActive = true) (hda : dst.IsActive = true)
    (hbal : src.Balance.val < amount.val) :
    Repo.Transfer s fromID toID amount md t1 t2 outID outAt inID inAt
      = (.err .ErrInsufficient, s) := by
  unfold Repo.Transfer
  have hlt : src.Balance < amount := by rw [I64.lt_def]; exact hbal
  rw [if_neg ((I64.not_le_zero amount).mpr hpos)]
  simp only [hsrc, hdst, hsa, hda, Bool.not_true, Bool.or_self, Bool.false_eq_true, if_false,
    hlt, if_true]

/-! ## Transfer -/

/-- C4.  Whenever `Transfer` returns an error, the store after the call is the store
before it, with every account and every transaction as they were; and the error is the
invalid-amount error with `amount <= 0`, or `ErrNotFound` with one of the two accounts
missing, or `ErrAccountInactive` with one of the two accounts inactive, or
`ErrInsufficient` with the balance of the source below `amount`. -/
theorem Transfer_err_store_unchanged (s : InMemoryStore) (fromID toID : String)
    (amount : I64) (md : Meta) (t1 t2 : Time) (outID : String) (outAt : Time)
    (inID : String) (inAt : Time) (e : Err)
    (h : (Repo.Transfer s fromID toID amount md t1 t2 outID outAt inID inAt).1 = .err e) :
    (Repo.Transfer s fromID toID amount md t1 t2 outID outAt inID inAt).2 = s ∧
    ((e = .amountMustBePositive ∧ amount.val ≤ 0) ∨
     (e = .ErrNotFound ∧
        (KMap.find s.Accounts fromID = none ∨ KMap.find s.Accounts toID = none)) ∨
     (e = .ErrAccountInactive ∧ ∃ src dst, KMap.find s.Accounts fromID = some src ∧
        KMap.find s.Accounts toID = some dst ∧
        (src.IsActive = false ∨ dst.IsActive = false)) ∨
     (e = .ErrInsufficient ∧ ∃ src, KMap.find s.Accounts fromID = some src ∧
        src.Balance.val < amount.val)) := by
  by_cases hpos : 0 < amount.val
  · cases hsrc : KMap.find s.Accounts fromID with
    | none =>
      rw [Transfer_from_missing_eq s fromID toID amount md t1 t2 outID outAt inID inAt hpos
        hsrc] at h ⊢
      cases h
      exact ⟨rfl, Or.inr (Or.inl ⟨rfl, Or.inl rfl⟩)⟩
    | some src =>
      cases hdst : KMap.find s.Accounts toID with
      | none =>
        rw [Transfer_to_missing_eq s fromID toID amount md t1 t2 outID outAt inID inAt src
          hpos hsrc hdst] at h ⊢
        cases h
        exact ⟨rfl, Or.inr (Or.inl ⟨rfl, Or.inr rfl⟩)⟩
      | some dst =>
        by_cases hact : src.IsActive = true ∧ dst.IsActive = true
        · by_cases hbal : src.Balance.val < amount.val
          · rw [Transfer_insufficient_eq s fromID toID amount md t1 t2 outID outAt inID inAt
              src dst hpos hsrc hdst hact.1 hact.2 hbal] at h ⊢
            cases h
            exact ⟨rfl, Or.inr (Or.inr (Or.inr ⟨rfl, src, rfl, hbal⟩))⟩
          · rw [Transfer_ok_eq s fromID toID amount md t1 t2 outID outAt inID inAt src dst
              hpos hsrc hdst hact.1 hact.2 (by omega)] at h
            cases h
        · have hact2 : src.IsActive = false ∨ dst.IsActive = false := by
            cases h1 : src.IsActive <;> cases h2 : dst.IsActive <;> simp_all
          rw [Transfer_inactive_eq s fromID toID amount md t1 t2 outID outAt inID inAt
            src dst hpos hsrc hdst hact2] at h ⊢
          cases h
          exact ⟨rfl, Or.inr (Or.inr (Or.inl ⟨rfl, src, dst, rfl, rfl, hact2⟩))⟩
  · rw [Transfer_invalid_eq s fromID toID amount md t1 t2 outID outAt inID inAt
      (by omega)] at h ⊢
    cases h
    exact ⟨rfl, Or.inl ⟨rfl, by omega⟩⟩

/-- Witness of `Transfer_err_store_unchanged`: a transfer of 60 out of the account that
holds 50 fails with `ErrInsufficient` and the store stays as it was. -/
theorem Transfer_err_store_unchanged_witness :
    (Repo.Transfer smallStore "A" "B" 60 [] 5 6 "T1" 7 "T2" 8).1 = .err .ErrInsufficient ∧
    (Repo.Transfer smallStore "A" "B" 60 [] 5 6 "T1" 7 "T2" 8).2 = smallStore :=
  ⟨by decide,
    (Transfer_err_store_unchanged smallStore "A" "B" 60 [] 5 6 "T1" 7 "T2" 8
      .ErrInsufficient (by decide)).1⟩

/-- C5 (as stated) fails.  In the store where `A` holds 1 and `B` holds `math.MaxInt64`,
both active, `Transfer(A, B, 1)` meets every condition of C5 and succeeds, but
`to.Balance += amount` wraps: `B` is left with `math.MinInt64`, not with its balance
plus 1. -/
theorem Transfer_credit_wraps :
    KMap.find fullStore.Accounts "A" = some (mkAccount "A" 1) ∧
    KMap.find fullStore.Accounts "B" = some (mkAccount "B" I64.MaxInt64) ∧
    "A" ≠ "B" ∧ (mkAccount "A" 1).IsActive = true ∧
    (mkAccount "B" I64.MaxInt64).IsActive = true ∧
    0 < (1 : I64).val ∧ (1 : I64).val ≤ (mkAccount "A" 1).Balance.val ∧
    (∃ r, (Repo.Transfer fullStore "A" "B" 1 [] 5 6 "T1" 7 "T2" 8).1 = .ok r) ∧
    ∃ b, KMap.find (Repo.Transfer fullStore "A" "B" 1 [] 5 6 "T1" 7 "T2" 8).2.Accounts "B"
        = some b ∧
      b.Balance.val = -9223372036854775808 ∧
      b.Balance.val ≠ (mkAccount "B" I64.MaxInt64).Balance.val + (1 : I64).val :=
  ⟨by decide, by decide, by decide, by decide, by decide, by decide, by decide, ⟨_, rfl⟩,
    _, rfl, by decide, by decide⟩

/-- C5 (amended).  For every store, every two distinct existing active accounts `from`
and `to`, and every `amount > 0` with `from.Balance >= amount` and
`to.Balance + amount <= 2^63 - 1`: `Transfer(from, to, amount, meta)` succeeds, decreases
`from.Balance` by exactly `amount`, increases `to.Balance` by exactly `amount`, changes
nothing else of the two accounts but `UpdatedAt`, and writes to the transaction map the
two transactions it returns, a WITHDRAW on `from` and a DEPOSIT on `to`, both with
`Amount = amount` and `Meta = meta`; the two identifiers drawn being new, these are
exactly two transactions added to the ones of the store. -/
theorem Transfer_ok (s : InMemoryStore) (fromID toID : String) (amount : I64) (md : Meta)
    (t1 t2 : Time) (outID : String) (outAt : Time) (inID : String) (inAt : Time)
    (src dst : Account) (hne : fromID ≠ toID)
    (hsrc : KMap.find s.Accounts fromID = some src)
    (hdst : KMap.find s.Accounts toID = some dst)
    (hsa : src.IsActive = true) (hda : dst.IsActive = true)
    (hpos : 0 < amount.val) (hbal : amount.val ≤ src.Balance.val)
    (hroom : dst.Balance.val + amount.val ≤ 9223372036854775807) :
    (Repo.Transfer s fromID toID amount md t1 t2 outID outAt inID inAt).1
      = .ok ({ ID := outID, AccountID := src.ID, Typ := .Withdraw, Amount := amount,
               Meta := md, CreatedAt := outAt },
             { ID := inID, AccountID := dst.ID, Typ := .Deposit, Amount := amount,
               Meta := md, CreatedAt := inAt }) ∧
    KMap.find (Repo.Transfer s fromID toID amount md t1 t2 outID outAt inID inAt).2.Accounts
        fromID
      = some { src with Balance := src.Balance - amount, UpdatedAt := t1 } ∧
    (src.Balance - amount).val = src.Balance.val - amount.val ∧
    KMap.find (Repo.Transfer s fromID toID amount md t1 t2 outID outAt inID inAt).2.Accounts
        toID
      = some { dst with Balance := dst.Balance + amount, UpdatedAt := t2 } ∧
    (dst.Balance + amount).val = dst.Balance.val + amount.val ∧
    (Repo.Transfer s fromID toID amount md t1 t2 outID outAt inID inAt).2.Transactions
      = KMap.put (KMap.put s.Transactions outID
          { ID := outID, AccountID := src.ID, Typ := .Withdraw, Amount := amount,
            Meta := md, CreatedAt := outAt }) inID
          { ID := inID, AccountID := dst.ID, Typ := .Deposit, Amount := amount,
            Meta := md, CreatedAt := inAt } ∧
    (outID ∉ KMap.keys s.Transactions → inID ∉ KMap.keys s.Transactions → inID ≠ outID →
      (Repo.Transfer s fromID toID amount md t1 t2 outID outAt inID inAt).2.Transactions
        = s.Transactions ++
            [(outID, { ID := outID, AccountID := src.ID, Typ := .Withdraw, Amount := amount,
                       Meta := md, CreatedAt := outAt }),
             (inID, { ID := inID, AccountID := dst.ID, Typ := .Deposit, Amount := amount,
                      Meta := md, CreatedAt := inAt })]) := by
  have hsrcHi := src.Balance.hi
  have hdstLo := dst.Balance.lo
  rw [Transfer_ok_eq s fromID toID amount md t1 t2 outID outAt inID inAt src dst hpos hsrc
    hdst hsa hda hbal]
  refine ⟨rfl, ?_, ?_, ?_, ?_, rfl, ?_⟩
  · show KMap.find (KMap.modify (KMap.modify (KMap.modify (KMap.modify s.Accounts fromID _)
      toID _) fromID _) toID _) fromID = _
    rw [find_modify_ne _ _ _ _ (Ne.symm hne),
      find_modify_self _ _ _ { src with Balance := src.Balance - amount }]
    rw [find_modify_ne _ _ _ _ (Ne.symm hne), find_modify_self _ _ _ src hsrc]
  · rw [I64.val_sub, wrap64_of_range _ (by omega) (by omega)]
  · show KMap.find (KMap.modify (KMap.modify (KMap.modify (KMap.modify s.Accounts fromID _)
      toID _) fromID _) toID _) toID = _
    rw [find_modify_self _ _ _ { dst with Balance := dst.Balance + amount }]
    rw [find_modify_ne _ _ _ _ hne, find_modify_self _ _ _ dst]
    rw [find_modify_ne _ _ _ _ hne, hdst]
  · rw [I64.val_add, wrap64_of_range _ (by omega) hroom]
  · intro hout hin hio
    exact put_put_fresh _ _ _ _ _ hout hin hio

/-- Witness of `Transfer_ok`, the scenario of the specification: from the account that
holds 1000, a transfer of 400 to the account that holds 0 gives 600 and 400 and two new
transactions. -/
theorem Transfer_ok_witness :
    KMap.find (Repo.Transfer scenarioStore "A" "B" 400 [] 7 8 "T2" 9 "T3" 10).2.Accounts "A"
      = some { mkAccount "A" 1000 with Balance := 1000 - 400, UpdatedAt := 7 } ∧
    ((1000 : I64) - 400).val = 600 ∧
    KMap.find (Repo.Transfer scenarioStore "A" "B" 400 [] 7 8 "T2" 9 "T3" 10).2.Accounts "B"
      = some { mkAccount "B" 0 with Balance := 0 + 400, UpdatedAt := 8 } ∧
    ((0 : I64) + 400).val = 400 ∧
    (Repo.Transfer scenarioStore "A" "B" 400 [] 7 8 "T2" 9 "T3" 10).2.Transactions
      = scenarioStore.Transactions ++
          [("T2", { ID := "T2", AccountID := "A", Typ := .Withdraw, Amount := 400,
                    Meta := [], CreatedAt := 9 }),
           ("T3", { ID := "T3", AccountID := "B", Typ := .Deposit, Amount := 400,
                    Meta := [], CreatedAt := 10 })] :=
  have h := Transfer_ok scenarioStore "A" "B" 400 [] 7 8 "T2" 9 "T3" 10
    (mkAccount "A" 1000) (mkAccount "B" 0) (by decide) (by decide) (by decide) (by decide)
    (by decide) (by decide) (by decide) (by decide)
  ⟨h.2.1, by decide, h.2.2.2.1, by decide,
    h.2.2.2.2.2.2 (by decide) (by decide) (by decide)⟩

theorem I64.sub_add_cancel_of_le (b amt : I64) (hpos : 0 < amt.val) (hle : amt.val ≤ b.val) :
    b - amt + amt = b := by
  apply I64.eq_of_val_eq
  have h1 := b.hi
  rw [I64.val_add, I64.val_sub, wrap64_of_range (b.val - amt.val) (by omega) (by omega),
    wrap64_of_range _ (by have := b.lo; omega) (by omega)]
  omega

/-- C6.  For every existing active account `A` and every amount with
`0 < amount <= A.Balance`, the self-transfer `Transfer(A, A, amount, meta)` succeeds,
leaves `A.Balance` (and every field of `A` but `UpdatedAt`) equal to its value before the
call, and writes to the transaction map the two transactions it returns, a WITHDRAW and a
DEPOSIT on `A`, both with `Amount = amount`; the two identifiers drawn being new, these
are exactly two transactions added to the ones of the store. -/
theorem Transfer_self (s : InMemoryStore) (accountID : String) (amount : I64) (md : Meta)
    (t1 t2 : Time) (outID : String) (outAt : Time) (inID : String) (inAt : Time)
    (a : Account) (ha : KMap.find s.Accounts accountID = some a)
    (hact : a.IsActive = true) (hpos : 0 < amount.val) (hbal : amount.val ≤ a.Balance.val) :
    (Repo.Transfer s accountID accountID amount md t1 t2 outID outAt inID inAt).1
      = .ok ({ ID := outID, AccountID := a.ID, Typ := .Withdraw, Amount := amount,
               Meta := md, CreatedAt := outAt },
             { ID := inID, AccountID := a.ID, Typ := .Deposit, Amount := amount,
               Meta := md, CreatedAt := inAt }) ∧
    KMap.find
        (Repo.Transfer s accountID accountID amount md t1 t2 outID outAt inID inAt).2.Accounts
        accountID
      = some { a with UpdatedAt := t2 } ∧
    (Repo.Transfer s accountID accountID amount md t1 t2 outID outAt inID inAt).2.Transactions
      = KMap.put (KMap.put s.Transactions outID
          { ID := outID, AccountID := a.ID, Typ := .Withdraw, Amount := amount,
            Meta := md, CreatedAt := outAt }) inID
          { ID := inID, AccountID := a.ID, Typ := .Deposit, Amount := amount,
            Meta := md, CreatedAt := inAt } ∧
    (outID ∉ KMap.keys s.Transactions → inID ∉ KMap.keys s.Transactions → inID ≠ outID →
      (Repo.Transfer s accountID accountID amount md t1 t2 outID outAt inID
          inAt).2.Transactions
        = s.Transactions ++
            [(outID, { ID := outID, AccountID := a.ID, Typ := .Withdraw, Amount := amount,
                       Meta := md, CreatedAt := outAt }),
             (inID, { ID := inID, AccountID := a.ID, Typ := .Deposit, Amount := amount,
                      Meta := md, CreatedAt := inAt })]) := by
  rw [Transfer_ok_eq s accountID accountID amount md t1 t2 outID outAt inID inAt a a hpos ha
    ha hact hact hbal]
  refine ⟨rfl, ?_, rfl, ?_⟩
  · show KMap.find (KMap.modify (KMap.modify (KMap.modify (KMap.modify s.Accounts accountID _)
      accountID _) accountID _) accountID _) accountID = _
    rw [find_modify_self _ _ _
      { a with Balance := a.Balance - amount + amount, UpdatedAt := t1 }]
    · show some { a with Balance := a.Balance - amount + amount, UpdatedAt := t2 } = _
      rw [I64.sub_add_cancel_of_le a.Balance amount hpos hbal]
    · rw [find_modify_self _ _ _ { a with Balance := a.Balance - amount + amount }]
      rw [find_modify_self _ _ _ { a with Balance := a.Balance - amount }]
      rw [find_modify_self _ _ _ a ha]
  · intro hout hin hio
    exact put_put_fresh _ _ _ _ _ hout hin hio

/-- Witness of `Transfer_self`: the account that holds 50 transfers 50 to itself and
still holds 50, with a WITHDRAW and a DEPOSIT of 50 added. -/
theorem Transfer_self_witness :
    KMap.find (Repo.Transfer smallStore "A" "A" 50 [] 5 6 "T1" 7 "T2" 8).2.Accounts "A"
      = some { mkAccount "A" 50 with UpdatedAt := 6 } ∧
    (Repo.Transfer smallStore "A" "A" 50 [] 5 6 "T1" 7 "T2" 8).2.Transactions
      = smallStore.Transactions ++
          [("T1", { ID := "T1", AccountID := "A", Typ := .Withdraw, Amount := 50,
                    Meta := [], CreatedAt := 7 }),
           ("T2", { ID := "T2", AccountID := "A", Typ := .Deposit, Amount := 50,
                    Meta := [], CreatedAt := 8 })] :=
  have h := Transfer_self smallStore "A" 50 [] 5 6 "T1" 7 "T2" 8 (mkAccount "A" 50)
    (by decide) (by decide) (by decide) (by decide)
  ⟨h.2.1, h.2.2.2 (by decide) (by decide) (by decide)⟩

/-! ## Invalid amounts and insufficient funds -/

theorem Deposit_invalid_eq (s : InMemoryStore) (accountID : String) (amount : I64)
    (md : Meta) (t1 : Time) (id : String) (t2 : Time) (hle : amount.val ≤ 0) :
    Repo.Deposit s accountID amount md t1 id t2 = (.err .amountMustBePositive, s) := by
  unfold Repo.Deposit
  rw [if_pos (by rw [I64.le_def, I64.val_zero]; exact hle)]

theorem Withdraw_invalid_eq (s : InMemoryStore) (accountID : String) (amount : I64)
    (md : Meta) (t1 : Time) (id : String) (t2 : Time) (hle : amount.val ≤ 0) :
    Repo.Withdraw s accountID amount md t1 id t2 = (.err .amountMustBePositive, s) := by
  unfold Repo.Withdraw
  rw [if_pos (by rw [I64.le_def, I64.val_zero]; exact hle)]

/-- C7.  For every store, every account identifier (bound or not, active or not) and
every `amount <= 0`, each of `Deposit`, `Withdraw` and `Transfer` fails with the
invalid-amount error and leaves the store unchanged. -/
theorem invalid_amount_rejected (s : InMemoryStore) (accountID toID : String) (amount : I64)
    (md : Meta) (t1 t2 : Time) (id : String) (outAt : Time) (inID : String) (inAt : Time)
    (hle : amount.val ≤ 0) :
    Repo.Deposit s accountID amount md t1 id t2 = (.err .amountMustBePositive, s) ∧
    Repo.Withdraw s accountID amount md t1 id t2 = (.err .amountMustBePositive, s) ∧
    Repo.Transfer s accountID toID amount md t1 t2 id outAt inID inAt
      = (.err .amountMustBePositive, s) :=
  ⟨Deposit_invalid_eq s accountID amount md t1 id t2 hle,
    Withdraw_invalid_eq s accountID amount md t1 id t2 hle,
    Transfer_invalid_eq s accountID toID amount md t1 t2 id outAt inID inAt hle⟩

/-- Witness of `invalid_amount_rejected`: the amount -5 on the store of the scenario. -/
theorem invalid_amount_rejected_witness :
    (I64.ofInt (-5)).val ≤ 0 ∧
    Repo.Deposit scenarioStore "A" (I64.ofInt (-5)) [] 5 "T2" 6
      = (.err .amountMustBePositive, scenarioStore) ∧
    Repo.Withdraw scenarioStore "A" (I64.ofInt (-5)) [] 5 "T2" 6
      = (.err .amountMustBePositive, scenarioStore) ∧
    Repo.Transfer scenarioStore "A" "B" (I64.ofInt (-5)) [] 5 6 "T2" 7 "T3" 8
      = (.err .amountMustBePositive, scenarioStore) :=
  ⟨by decide,
    invalid_amount_rejected scenarioStore "A" "B" (I64.ofInt (-5)) [] 5 6 "T2" 7 "T3" 8
      (by decide)⟩

theorem Withdraw_insufficient_eq (s : InMemoryStore) (accountID : String) (amount : I64)
    (md : Meta) (t1 : Time) (id : String) (t2 : Time) (a : Account) (hpos : 0 < amount.val)
    (ha : KMap.find s.Accounts accountID = some a) (hact : a.IsActive = true)
    (hbal : a.Balance.val < amount.val) :
    Repo.Withdraw s accountID amount md t1 id t2 = (.err .ErrInsufficient, s) := by
  unfold Repo.Withdraw
  have hlt : a.Balance < amount := by rw [I64.lt_def]; exact hbal
  rw [if_neg ((I64.not_le_zero amount).mpr hpos)]
  simp only [ha, hact, Bool.not_true, Bool.false_eq_true, if_false, hlt, if_true]

/-- C8.  For every existing active account with balance `b` and every `amount > b`
(`amount > 0`), `Withdraw` on that account, and `Transfer` from that account to any
existing active account, fail with `ErrInsufficient` and leave the store, so every
balance and the transaction set, unchanged. -/
theorem insufficient_funds_rejected (s : InMemoryStore) (accountID toID : String)
    (amount : I64) (md : Meta) (t1 t2 : Time) (id : String) (outAt : Time) (inID : String)
    (inAt : Time) (a dst : Account) (ha : KMap.find s.Accounts accountID = some a)
    (hact : a.IsActive = true) (hpos : 0 < amount.val) (hbal : a.Balance.val < amount.val)
    (hdst : KMap.find s.Accounts toID = some dst) (hda : dst.IsActive = true) :
    Repo.Withdraw s accountID amount md t1 id t2 = (.err .ErrInsufficient, s) ∧
    Repo.Transfer s accountID toID amount md t1 t2 id outAt inID inAt
      = (.err .ErrInsufficient, s) :=
  ⟨Withdraw_insufficient_eq s accountID amount md t1 id t2 a hpos ha hact hbal,
    Transfer_insufficient_eq s accountID toID amount md t1 t2 id outAt inID inAt a dst hpos
      ha hdst hact hda hbal⟩

/-- Witness of `insufficient_funds_rejected`: balance 50, `Withdraw(60)` fails, the
balance is still 50 and no transaction is added; so does a transfer of 60. -/
theorem insufficient_funds_rejected_witness :
    KMap.find smallStore.Accounts "A" = some (mkAccount "A" 50) ∧
    (mkAccount "A" 50).Balance.val = 50 ∧
    Repo.Withdraw smallStore "A" 60 [] 5 "T1" 6 = (.err .ErrInsufficient, smallStore) ∧
    Repo.Transfer smallStore "A" "B" 60 [] 5 6 "T1" 7 "T2" 8
      = (.err .ErrInsufficient, smallStore) :=
  ⟨by decide, by decide,
    insufficient_funds_rejected smallStore "A" "B" 60 [] 5 6 "T1" 7 "T2" 8
      (mkAccount "A" 50) (mkAccount "B" 0) (by decide) (by decide) (by decide) (by decide)
      (by decide) (by decide)⟩

/-! ## Deposit and Withdraw -/

theorem Deposit_missing_eq (s : InMemoryStore) (accountID : String) (amount : I64)
    (md : Meta) (t1 : Time) (id : String) (t2 : Time) (hpos : 0 < amount.val)
    (ha : KMap.find s.Accounts accountID = none) :
    Repo.Deposit s accountID amount md t1 id t2 = (.err .ErrNotFound, s) := by
  unfold Repo.Deposit
  rw [if_neg ((I64.not_le_zero amount).mpr hpos)]
  simp only [ha]

theorem Deposit_inactive_eq (s : InMemoryStore) (accountID : String) (amount : I64)
    (md : Meta) (t1 : Time) (id : String) (t2 : Time) (a : Account) (hpos : 0 < amount.val)
    (ha : KMap.find s.Accounts accountID = some a) (hact : a.IsActive = false) :
    Repo.Deposit s accountID amount md t1 id t2 = (.err .ErrAccountInactive, s) := by
  unfold Repo.Deposit
  rw [if_neg ((I64.not_le_zero amount).mpr hpos)]
  simp only [ha, hact, Bool.not_false, if_true]

theorem Withdraw_missing_eq (s : InMemoryStore) (accountID : String) (amount : I64)
    (md : Meta) (t1 : Time) (id : String) (t2 : Time) (hpos : 0 < amount.val)
    (ha : KMap.find s.Accounts accountID = none) :
    Repo.Withdraw s accountID amount md t1 id t2 = (.err .ErrNotFound, s) := by
  unfold Repo.Withdraw
  rw [if_neg ((I64.not_le_zero amount).mpr hpos)]
  simp only [ha]

theorem Withdraw_inactive_eq (s : InMemoryStore) (accountID : String) (amount : I64)
    (md : Meta) (t1 : Time) (id : String) (t2 : Time) (a : Account) (hpos : 0 < amount.val)
    (ha : KMap.find s.Accounts accountID = some a) (hact : a.IsActive = false) :
    Repo.Withdraw s accountID amount md t1 id t2 = (.err .ErrAccountInactive, s) := by
  unfold Repo.Withdraw
  rw [if_neg ((I64.not_le_zero amount).mpr hpos)]
  simp only [ha, hact, Bool.not_false, if_true]

/-- C9 (as stated) fails.  In the store where `B` is active and holds `math.MaxInt64`,
`Deposit(B, 1)` succeeds, but `a.Balance += amount` wraps: the balance after the call is
`math.MinInt64`, not the balance before plus 1. -/
theorem Deposit_credit_wraps :
    KMap.find fullStore.Accounts "B" = some (mkAccount "B" I64.MaxInt64) ∧
    (∃ t, (Repo.Deposit fullStore "B" 1 [] 5 "T1" 6).1 = .ok t) ∧
    ∃ b, KMap.find (Repo.Deposit fullStore "B" 1 [] 5 "T1" 6).2.Accounts "B" = some b ∧
      b.Balance.val = -9223372036854775808 ∧
      b.Balance.val ≠ (mkAccount "B" I64.MaxInt64).Balance.val + (1 : I64).val :=
  ⟨by decide, ⟨_, rfl⟩, _, rfl, by decide, by decide⟩

/-- C9 (amended).  `Deposit(accountID, amount, meta)` succeeds if and only if
`amount > 0` and the account exists and is active.  On success the balance after the call
is the balance before plus `amount` reduced modulo `2^64` into the `int64` range, which
is the balance before plus `amount` whenever that is at most `2^63 - 1`; nothing else of
the account changes but `UpdatedAt`; and, the identifier drawn being new, exactly one
transaction is added to the store, the one returned: type DEPOSIT, `AccountID` the `ID`
of the account, `Amount = amount`, `Meta = meta`.  Otherwise it fails with the
invalid-amount error, `ErrNotFound` or `ErrAccountInactive` respectively and the store is
unchanged. -/
theorem Deposit_spec (s : InMemoryStore) (accountID : String) (amount : I64) (md : Meta)
    (t1 : Time) (id : String) (t2 : Time) :
    ((∃ t, (Repo.Deposit s accountID amount md t1 id t2).1 = .ok t) ↔
      (0 < amount.val ∧
        ∃ a, KMap.find s.Accounts accountID = some a ∧ a.IsActive = true)) ∧
    (∀ a, 0 < amount.val → KMap.find s.Accounts accountID = some a → a.IsActive = true →
      (Repo.Deposit s accountID amount md t1 id t2).1
        = .ok { ID := id, AccountID := a.ID, Typ := .Deposit, Amount := amount, Meta := md,
                CreatedAt := t2 } ∧
      KMap.find (Repo.Deposit s accountID amount md t1 id t2).2.Accounts accountID
        = some { a with Balance := a.Balance + amount, UpdatedAt := t1 } ∧
      (a.Balance + amount).val = wrap64 (a.Balance.val + amount.val) ∧
      (a.Balance.val + amount.val ≤ 9223372036854775807 →
        (a.Balance + amount).val = a.Balance.val + amount.val) ∧
      (Repo.Deposit s accountID amount md t1 id t2).2.Transactions
        = KMap.put s.Transactions id
            { ID := id, AccountID := a.ID, Typ := .Deposit, Amount := amount, Meta := md,
              CreatedAt := t2 } ∧
      (id ∉ KMap.keys s.Transactions →
        (Repo.Deposit s accountID amount md t1 id t2).2.Transactions
          = s.Transactions ++
              [(id, { ID := id, AccountID := a.ID, Typ := .Deposit, Amount := amount,
                      Meta := md, CreatedAt := t2 })])) ∧
    (amount.val ≤ 0 →
      Repo.Deposit s accountID amount md t1 id t2 = (.err .amountMustBePositive, s)) ∧
    (0 < amount.val → KMap.find s.Accounts accountID = none →
      Repo.Deposit s accountID amount md t1 id t2 = (.err .ErrNotFound, s)) ∧
    (∀ a, 0 < amount.val → KMap.find s.Accounts accountID = some a → a.IsActive = false →
      Repo.Deposit s accountID amount md t1 id t2 = (.err .ErrAccountInactive, s)) := by
  refine ⟨⟨?_, ?_⟩, ?_, ?_, ?_, ?_⟩
  · rintro ⟨t, ht⟩
    by_cases hpos : 0 < amount.val
    · cases ha : KMap.find s.Accounts accountID with
      | none =>
        rw [Deposit_missing_eq s accountID amount md t1 id t2 hpos ha] at ht
        cases ht
      | some a =>
        cases hact : a.IsActive with
        | false =>
          rw [Deposit_inactive_eq s accountID amount md t1 id t2 a hpos ha hact] at ht
          cases ht
        | true => exact ⟨hpos, a, rfl, hact⟩
    · rw [Deposit_invalid_eq s accountID amount md t1 id t2 (by omega)] at ht
      cases ht
  · rintro ⟨hpos, a, ha, hact⟩
    rw [Deposit_ok_eq s accountID amount md t1 id t2 a hpos ha hact]
    exact ⟨_, rfl⟩
  · intro a hpos ha hact
    rw [Deposit_ok_eq s accountID amount md t1 id t2 a hpos ha hact]
    refine ⟨rfl, ?_, rfl, ?_, rfl, ?_⟩
    · show KMap.find (KMap.modify (KMap.modify s.Accounts accountID _) accountID _) accountID
        = _
      rw [find_modify_self _ _ _ { a with Balance := a.Balance + amount }]
      rw [find_modify_self _ _ _ a ha]
    · intro hroom
      have := a.Balance.lo
      rw [I64.val_add, wrap64_of_range _ (by omega) hroom]
    · intro hid
      exact KMap.put_fresh _ _ _ hid
  · exact Deposit_invalid_eq s accountID amount md t1 id t2
  · exact Deposit_missing_eq s accountID amount md t1 id t2
  · intro a hpos ha hact
    exact Deposit_inactive_eq s accountID amount md t1 id t2 a hpos ha hact

/-- Witness of `Deposit_spec`, after the scenario of the specification: a deposit of 1000
on the account that holds 0 gives the balance 1000 and one DEPOSIT record of 1000. -/
theorem Deposit_spec_witness :
    (Repo.Deposit smallStore "B" 1000 [] 5 "T1" 6).1
      = .ok { ID := "T1", AccountID := "B", Typ := .Deposit, Amount := 1000, Meta := [],
              CreatedAt := 6 } ∧
    KMap.find (Repo.Deposit smallStore "B" 1000 [] 5 "T1" 6).2.Accounts "B"
      = some { mkAccount "B" 0 with Balance := 0 + 1000, UpdatedAt := 5 } ∧
    ((0 : I64) + 1000).val = (0 : I64).val + (1000 : I64).val ∧
    (Repo.Deposit smallStore "B" 1000 [] 5 "T1" 6).2.Transactions
      = smallStore.Transactions ++
          [("T1", { ID := "T1", AccountID := "B", Typ := .Deposit, Amount := 1000,
                    Meta := [], CreatedAt := 6 })] :=
  have h := (Deposit_spec smallStore "B" 1000 [] 5 "T1" 6).2.1 (mkAccount "B" 0)
    (by decide) (by decide) (by decide)
  ⟨h.1, h.2.1, h.2.2.2.1 (by decide), h.2.2.2.2.2 (by decide)⟩

/-- C10 (as stated) fails.  The transaction of a withdrawal carries the `ID` field of the
account, `AccountID: a.ID`, not the key `accountID` of the call.  From the empty store,
`CreateAccount` draws `A` and `Deposit(A, 50)` succeeds; `CreateAccount` handed the
pointer `GetAccount(A)` returns draws `X` and writes it into the record bound under `A`;
`Withdraw(A, 20)` then succeeds and returns a transaction with `AccountID = X`. -/
theorem Withdraw_AccountID_is_record_ID :
    Repo.GetAccount openedStore "A" = .ok openedAccount ∧
    KMap.find reboundStore.Accounts "A"
      = some { ID := "X", UserID := "u1", Name := "main", Balance := 50, Currency := "USD",
               IsActive := true, CreatedAt := 5, UpdatedAt := 6 } ∧
    (Repo.Withdraw reboundStore "A" 20 [] 7 "T2" 8).1
      = .ok { ID := "T2", AccountID := "X", Typ := .Withdraw, Amount := 20, Meta := [],
              CreatedAt := 8 } ∧
    ∃ t, (Repo.Withdraw reboundStore "A" 20 [] 7 "T2" 8).1 = .ok t ∧ t.AccountID ≠ "A" :=
  ⟨rfl, rfl, rfl, _, rfl, by decide⟩

/-- C10 (amended).  `Withdraw(accountID, amount, meta)` succeeds if and only if
`amount > 0`, the account exists, is active, and its balance is at least `amount`.  On
success the balance after the call is the balance before minus `amount` (0 when the whole
balance is withdrawn); nothing else of the account changes but `UpdatedAt`; and, the
identifier drawn being new, exactly one transaction is added, the one returned: type
WITHDRAW, `AccountID` the `ID` of the account stored under `accountID`, `Amount = amount`,
`Meta = meta`.  `AccountID` is `accountID` whenever that account is stored under its own
`ID`. -/
theorem Withdraw_spec (s : InMemoryStore) (accountID : String) (amount : I64) (md : Meta)
    (t1 : Time) (id : String) (t2 : Time) :
    ((∃ t, (Repo.Withdraw s accountID amount md t1 id t2).1 = .ok t) ↔
      (0 < amount.val ∧
        ∃ a, KMap.find s.Accounts accountID = some a ∧ a.IsActive = true ∧
          amount.val ≤ a.Balance.val)) ∧
    (∀ a, 0 < amount.val → KMap.find s.Accounts accountID = some a → a.IsActive = true →
      amount.val ≤ a.Balance.val →
      (Repo.Withdraw s accountID amount md t1 id t2).1
        = .ok { ID := id, AccountID := a.ID, Typ := .Withdraw, Amount := amount, Meta := md,
                CreatedAt := t2 } ∧
      KMap.find (Repo.Withdraw s accountID amount md t1 id t2).2.Accounts accountID
        = some { a with Balance := a.Balance - amount, UpdatedAt := t1 } ∧
      (a.Balance - amount).val = a.Balance.val - amount.val ∧
      (amount = a.Balance → (a.Balance - amount).val = 0) ∧
      (Repo.Withdraw s accountID amount md t1 id t2).2.Transactions
        = KMap.put s.Transactions id
            { ID := id, AccountID := a.ID, Typ := .Withdraw, Amount := amount, Meta := md,
              CreatedAt := t2 } ∧
      (id ∉ KMap.keys s.Transactions →
        (Repo.Withdraw s accountID amount md t1 id t2).2.Transactions
          = s.Transactions ++
              [(id, { ID := id, AccountID := a.ID, Typ := .Withdraw, Amount := amount,
                      Meta := md, CreatedAt := t2 })])) ∧
    (∀ a, 0 < amount.val → KMap.find s.Accounts accountID = some a → a.IsActive = true →
      amount.val ≤ a.Balance.val → a.ID = accountID →
      (Repo.Withdraw s accountID amount md t1 id t2).1
        = .ok { ID := id, AccountID := accountID, Typ := .Withdraw, Amount := amount,
                Meta := md, CreatedAt := t2 }) := by
  refine ⟨⟨?_, ?_⟩, ?_, ?_⟩
  · rintro ⟨t, ht⟩
    by_cases hpos : 0 < amount.val
    · cases ha : KMap.find s.Accounts accountID with
      | none =>
        rw [Withdraw_missing_eq s accountID amount md t1 id t2 hpos ha] at ht
        cases ht
      | some a =>
        cases hact : a.IsActive with
        | false =>
          rw [Withdraw_inactive_eq s accountID amount md t1 id t2 a hpos ha hact] at ht
          cases ht
        | true =>
          by_cases hbal : a.Balance.val < amount.val
          · rw [Withdraw_insufficient_eq s accountID amount md t1 id t2 a hpos ha hact
              hbal] at ht
            cases ht
          · exact ⟨hpos, a, rfl, hact, by omega⟩
    · rw [Withdraw_invalid_eq s accountID amount md t1 id t2 (by omega)] at ht
      cases ht
  · rintro ⟨hpos, a, ha, hact, hbal⟩
    rw [Withdraw_ok_eq s accountID amount md t1 id t2 a hpos ha hact hbal]
    exact ⟨_, rfl⟩
  · intro a hpos ha hact hbal
    have hval : (a.Balance - amount).val = a.Balance.val - amount.val := by
      have := a.Balance.hi
      rw [I64.val_sub, wrap64_of_range _ (by omega) (by omega)]
    rw [Withdraw_ok_eq s accountID amount md t1 id t2 a hpos ha hact hbal]
    refine ⟨rfl, ?_, hval, ?_, rfl, ?_⟩
    · show KMap.find (KMap.modify (KMap.modify s.Accounts accountID _) accountID _) accountID
        = _
      rw [find_modify_self _ _ _ { a with Balance := a.Balance - amount }]
      rw [find_modify_self _ _ _ a ha]
    · intro heq
      rw [hval, heq]; omega
    · intro hid
      exact KMap.put_fresh _ _ _ hid
  · intro a hpos ha hact hbal hid
    rw [Withdraw_ok_eq s accountID amount md t1 id t2 a hpos ha hact hbal, hid]

/-- Witness of `Withdraw_spec`: withdrawing the whole balance 50 succeeds, leaves 0, and
adds one WITHDRAW record of 50, whose `AccountID` is the key `A` of the call. -/
theorem Withdraw_spec_witness :
    (Repo.Withdraw smallStore "A" 50 [] 5 "T1" 6).1
      = .ok { ID := "T1", AccountID := "A", Typ := .Withdraw, Amount := 50, Meta := [],
              CreatedAt := 6 } ∧
    KMap.find (Repo.Withdraw smallStore "A" 50 [] 5 "T1" 6).2.Accounts "A"
      = some { mkAccount "A" 50 with Balance := 50 - 50, UpdatedAt := 5 } ∧
    ((50 : I64) - 50).val = 0 ∧
    (Repo.Withdraw smallStore "A" 50 [] 5 "T1" 6).2.Transactions
      = smallStore.Transactions ++
          [("T1", { ID := "T1", AccountID := "A", Typ := .Withdraw, Amount := 50,
                    Meta := [], CreatedAt := 6 })] :=
  have h := (Withdraw_spec smallStore "A" 50 [] 5 "T1" 6).2.1 (mkAccount "A" 50)
    (by decide) (by decide) (by decide) (by decide)
  ⟨(Withdraw_spec smallStore "A" 50 [] 5 "T1" 6).2.2 (mkAccount "A" 50)
      (by decide) (by decide) (by decide) (by decide) (by decide),
    h.2.1, h.2.2.2.1 (by decide), h.2.2.2.2.2 (by decide)⟩

/-! ## The accounts after a successful money operation -/

theorem Deposit_ok_find (s : InMemoryStore) (accountID : String) (amount : I64) (md : Meta)
    (t1 : Time) (id : String) (t2 : Time) (a : Account) (hpos : 0 < amount.val)
    (ha : KMap.find s.Accounts accountID = some a) (hact : a.IsActive = true) :
    KMap.find (Repo.Deposit s accountID amount md t1 id t2).2.Accounts accountID
      = some { a with Balance := a.Balance + amount, UpdatedAt := t1 } := by
  rw [Deposit_ok_eq s accountID amount md t1 id t2 a hpos ha hact]
  show KMap.find (KMap.modify (KMap.modify s.Accounts accountID _) accountID _) accountID = _
  rw [find_modify_self _ _ _ { a with Balance := a.Balance + amount }]
  rw [find_modify_self _ _ _ a ha]

theorem Withdraw_ok_find (s : InMemoryStore) (accountID : String) (amount : I64) (md : Meta)
    (t1 : Time) (id : String) (t2 : Time) (a : Account) (hpos : 0 < amount.val)
    (ha : KMap.find s.Accounts accountID = some a) (hact : a.IsActive = true)
    (hbal : amount.val ≤ a.Balance.val) :
    KMap.find (Repo.Withdraw s accountID amount md t1 id t2).2.Accounts accountID
      = some { a with Balance := a.Balance - amount, UpdatedAt := t1 } := by
  rw [Withdraw_ok_eq s accountID amount md t1 id t2 a hpos ha hact hbal]
  show KMap.find (KMap.modify (KMap.modify s.Accounts accountID _) accountID _) accountID = _
  rw [find_modify_self _ _ _ { a with Balance := a.Balance - amount }]
  rw [find_modify_self _ _ _ a ha]

theorem Transfer_ok_find_src (s : InMemoryStore) (fromID toID : String) (amount : I64)
    (md : Meta) (t1 t2 : Time) (outID : String) (outAt : Time) (inID : String) (inAt : Time)
    (src dst : Account) (hne : fromID ≠ toID) (hpos : 0 < amount.val)
    (hsrc : KMap.find s.Accounts fromID = some src)
    (hdst : KMap.find s.Accounts toID = some dst)
    (hsa : src.IsActive = true) (hda : dst.IsActive = true)
    (hbal : amount.val ≤ src.Balance.val) :
    KMap.find (Repo.Transfer s fromID toID amount md t1 t2 outID outAt inID inAt).2.Accounts
        fromID
      = some { src with Balance := src.Balance - amount, UpdatedAt := t1 } := by
  rw [Transfer_ok_eq s fromID toID amount md t1 t2 outID outAt inID inAt src dst hpos hsrc
    hdst hsa hda hbal]
  show KMap.find (KMap.modify (KMap.modify (KMap.modify (KMap.modify s.Accounts fromID _)
    toID _) fromID _) toID _) fromID = _
  rw [find_modify_ne _ _ _ _ (Ne.symm hne),
    find_modify_self _ _ _ { src with Balance := src.Balance - amount }]
  rw [find_modify_ne _ _ _ _ (Ne.symm hne), find_modify_self _ _ _ src hsrc]

theorem Transfer_ok_find_dst (s : InMemoryStore) (fromID toID : String) (amount : I64)
    (md : Meta) (t1 t2 : Time) (outID : String) (outAt : Time) (inID : String) (inAt : Time)
    (src dst : Account) (hne : fromID ≠ toID) (hpos : 0 < amount.val)
    (hsrc : KMap.find s.Accounts fromID = some src)
    (hdst : KMap.find s.Accounts toID = some dst)
    (hsa : src.IsActive = true) (hda : dst.IsActive = true)
    (hbal : amount.val ≤ src.Balance.val) :
    KMap.find (Repo.Transfer s fromID toID amount md t1 t2 outID outAt inID inAt).2.Accounts
        toID
      = some { dst with Balance := dst.Balance + amount, UpdatedAt := t2 } := by
  rw [Transfer_ok_eq s fromID toID amount md t1 t2 outID outAt inID inAt src dst hpos hsrc
    hdst hsa hda hbal]
  show KMap.find (KMap.modify (KMap.modify (KMap.modify (KMap.modify s.Accounts fromID _)
    toID _) fromID _) toID _) toID = _
  rw [find_modify_self _ _ _ { dst with Balance := dst.Balance + amount }]
  rw [find_modify_ne _ _ _ _ hne, find_modify_self _ _ _ dst]
  rw [find_modify_ne _ _ _ _ hne, hdst]

theorem I64.val_add_of_room (b amt : I64) (hpos : 0 < amt.val)
    (hroom : b.val + amt.val ≤ 9223372036854775807) : (b + amt).val = b.val + amt.val := by
  have h1 := b.lo
  rw [I64.val_add, wrap64_of_range _ (by omega) hroom]

theorem I64.val_sub_of_le (b amt : I64) (hpos : 0 < amt.val) (hle : amt.val ≤ b.val) :
    (b - amt).val = b.val - amt.val := by
  have h1 := b.hi
  rw [I64.val_sub, wrap64_of_range _ (by omega) (by omega)]

/-! ## Deposit followed by Withdraw -/

theorem I64.add_sub_cancel_of_room (b amt : I64) (hpos : 0 < amt.val)
    (hroom : b.val + amt.val ≤ 9223372036854775807) : b + amt - amt = b := by
  apply I64.eq_of_val_eq
  have h1 := b.lo
  have h2 := b.hi
  rw [I64.val_sub, I64.val_add, wrap64_of_range (b.val + amt.val) (by omega) hroom,
    wrap64_of_range _ (by omega) (by omega)]
  omega

/-- C11 (as stated) fails.  The balance `math.MaxInt64` is reached from the empty store
by creating an account with balance 0 and depositing `math.MaxInt64`.  On that account
`Deposit(A, 1)` succeeds and wraps the balance to `math.MinInt64`, and the `Withdraw(A, 1)`
that follows fails with `ErrInsufficient`: the balance is left at `math.MinInt64`. -/
theorem Deposit_Withdraw_roundtrip_breaks :
    FreshRun NewInMemoryStore maxRun ∧
    (∃ a, KMap.find (run NewInMemoryStore maxRun).Accounts "A" = some a ∧
      a.IsActive = true ∧ a.Balance.val = 9223372036854775807) ∧
    (∃ t, (Repo.Deposit (run NewInMemoryStore maxRun) "A" 1 [] 5 "T2" 6).1 = .ok t) ∧
    (Repo.Withdraw (Repo.Deposit (run NewInMemoryStore maxRun) "A" 1 [] 5 "T2" 6).2
        "A" 1 [] 7 "T3" 8).1 = .err .ErrInsufficient ∧
    ∃ a, KMap.find
        (Repo.Withdraw (Repo.Deposit (run NewInMemoryStore maxRun) "A" 1 [] 5 "T2" 6).2
          "A" 1 [] 7 "T3" 8).2.Accounts "A" = some a ∧
      a.Balance.val = -9223372036854775808 :=
  ⟨by decide, ⟨_, rfl, by decide, by decide⟩, ⟨_, rfl⟩, by decide, _, rfl, by decide⟩

/-- C11 (amended).  For every existing active account `A` with a balance `b >= 0` and
every amount `n > 0` with `b + n <= 2^63 - 1`, `Deposit(A, n)` followed immediately by
`Withdraw(A, n)` both succeed and leave the balance of `A` (and every field of `A` but
`UpdatedAt`) equal to its value before the pair. -/
theorem Deposit_then_Withdraw (s : InMemoryStore) (accountID : String) (amount : I64)
    (md : Meta) (t1 : Time) (id : String) (t2 : Time) (md' : Meta) (t1' : Time)
    (id' : String) (t2' : Time) (a : Account)
    (ha : KMap.find s.Accounts accountID = some a) (hact : a.IsActive = true)
    (hpos : 0 < amount.val) (hnn : 0 ≤ a.Balance.val)
    (hroom : a.Balance.val + amount.val ≤ 9223372036854775807) :
    (Repo.Deposit s accountID amount md t1 id t2).1
      = .ok { ID := id, AccountID := a.ID, Typ := .Deposit, Amount := amount, Meta := md,
              CreatedAt := t2 } ∧
    (Repo.Withdraw (Repo.Deposit s accountID amount md t1 id t2).2 accountID amount md'
        t1' id' t2').1
      = .ok { ID := id', AccountID := a.ID, Typ := .Withdraw, Amount := amount, Meta := md',
              CreatedAt := t2' } ∧
    KMap.find
        (Repo.Withdraw (Repo.Deposit s accountID amount md t1 id t2).2 accountID amount md'
          t1' id' t2').2.Accounts accountID
      = some { a with UpdatedAt := t1' } := by
  have hfind := Deposit_ok_find s accountID amount md t1 id t2 a hpos ha hact
  have hval := I64.val_add_of_room a.Balance amount hpos hroom
  have hbal : amount.val ≤ (a.Balance + amount).val := by rw [hval]; omega
  refine ⟨?_, ?_, ?_⟩
  · rw [Deposit_ok_eq s accountID amount md t1 id t2 a hpos ha hact]
  · rw [Withdraw_ok_eq (Repo.Deposit s accountID amount md t1 id t2).2 accountID amount md'
      t1' id' t2' { a with Balance := a.Balance + amount, UpdatedAt := t1 } hpos hfind hact
      hbal]
  · rw [Withdraw_ok_find (Repo.Deposit s accountID amount md t1 id t2).2 accountID amount md'
      t1' id' t2' { a with Balance := a.Balance + amount, UpdatedAt := t1 } hpos hfind hact
      hbal]
    show some { a with Balance := a.Balance + amount - amount, UpdatedAt := t1' } = _
    rw [I64.add_sub_cancel_of_room a.Balance amount hpos hroom]

/-- Witness of `Deposit_then_Withdraw`: on the account that holds 50, a deposit of 10
followed by a withdrawal of 10 both succeed and leave 50. -/
theorem Deposit_then_Withdraw_witness :
    KMap.find smallStore.Accounts "A" = some (mkAccount "A" 50) ∧
    (Repo.Withdraw (Repo.Deposit smallStore "A" 10 [] 5 "T1" 6).2 "A" 10 [] 7 "T2" 8).1
      = .ok { ID := "T2", AccountID := "A", Typ := .Withdraw, Amount := 10, Meta := [],
              CreatedAt := 8 } ∧
    KMap.find
        (Repo.Withdraw (Repo.Deposit smallStore "A" 10 [] 5 "T1" 6).2 "A" 10 [] 7 "T2"
          8).2.Accounts "A"
      = some { mkAccount "A" 50 with UpdatedAt := 7 } :=
  ⟨by decide,
    (Deposit_then_Withdraw smallStore "A" 10 [] 5 "T1" 6 [] 7 "T2" 8 (mkAccount "A" 50)
      (by decide) (by decide) (by decide) (by decide) (by decide)).2⟩

/-! ## Two opposite transfers -/

theorem transferThereAndBack_ok (s : InMemoryStore) (x y : String) (amount : I64)
    (md : Meta) (t1 t2 : Time) (outID : String) (outAt : Time) (inID : String) (inAt : Time)
    (md' : Meta) (t1' t2' : Time) (outID' : String) (outAt' : Time) (inID' : String) (inAt' : Time)
    (a b : Account) (hne : x ≠ y)
    (ha : KMap.find s.Accounts x = some a) (hb : KMap.find s.Accounts y = some b)
    (haa : a.IsActive = true) (hba : b.IsActive = true) (hpos : 0 < amount.val)
    (hbal : amount.val ≤ a.Balance.val) (hnn : 0 ≤ b.Balance.val)
    (hroom : b.Balance.val + amount.val ≤ 9223372036854775807) :
    transferThereAndBack s x y amount md t1 t2 outID outAt inID inAt md' t1' t2' outID' outAt'
        inID' inAt'
      = (.ok ({ ID := outID, AccountID := a.ID, Typ := .Withdraw, Amount := amount,
                Meta := md, CreatedAt := outAt },
              { ID := inID, AccountID := b.ID, Typ := .Deposit, Amount := amount,
                Meta := md, CreatedAt := inAt }),
         .ok ({ ID := outID', AccountID := b.ID, Typ := .Withdraw, Amount := amount,
                Meta := md', CreatedAt := outAt' },
              { ID := inID', AccountID := a.ID, Typ := .Deposit, Amount := amount,
                Meta := md', CreatedAt := inAt' }),
         (Repo.Transfer (Repo.Transfer s x y amount md t1 t2 outID outAt inID inAt).2 y x
           amount md' t1' t2' outID' outAt' inID' inAt').2) ∧
    KMap.find (transferThereAndBack s x y amount md t1 t2 outID outAt inID inAt md' t1' t2'
        outID' outAt' inID' inAt').2.2.Accounts x = some { a with UpdatedAt := t2' } ∧
    KMap.find (transferThereAndBack s x y amount md t1 t2 outID outAt inID inAt md' t1' t2'
        outID' outAt' inID' inAt').2.2.Accounts y = some { b with UpdatedAt := t1' } ∧
    (transferThereAndBack s x y amount md t1 t2 outID outAt inID inAt md' t1' t2'
        outID' outAt' inID' inAt').2.2.Transactions
      = KMap.put (KMap.put (KMap.put (KMap.put s.Transactions outID
          { ID := outID, AccountID := a.ID, Typ := .Withdraw, Amount := amount,
            Meta := md, CreatedAt := outAt }) inID
          { ID := inID, AccountID := b.ID, Typ := .Deposit, Amount := amount,
            Meta := md, CreatedAt := inAt }) outID'
          { ID := outID', AccountID := b.ID, Typ := .Withdraw, Amount := amount,
            Meta := md', CreatedAt := outAt' }) inID'
          { ID := inID', AccountID := a.ID, Typ := .Deposit, Amount := amount,
            Meta := md', CreatedAt := inAt' } := by
  have hx1 := Transfer_ok_find_src s x y amount md t1 t2 outID outAt inID inAt a b hne hpos
    ha hb haa hba hbal
  have hy1 := Transfer_ok_find_dst s x y amount md t1 t2 outID outAt inID inAt a b hne hpos
    ha hb haa hba hbal
  have hval := I64.val_add_of_room b.Balance amount hpos hroom
  have hbal2 : amount.val ≤ (b.Balance + amount).val := by
    rw [hval]
    omega
  have e1 := Transfer_ok_eq s x y amount md t1 t2 outID outAt inID inAt a b hpos ha hb haa
    hba hbal
  have e2 := Transfer_ok_eq (Repo.Transfer s x y amount md t1 t2 outID outAt inID inAt).2 y x
    amount md' t1' t2' outID' outAt' inID' inAt'
    { b with Balance := b.Balance + amount, UpdatedAt := t2 }
    { a with Balance := a.Balance - amount, UpdatedAt := t1 } hpos hy1 hx1 hba haa hbal2
  have hx2 := Transfer_ok_find_dst (Repo.Transfer s x y amount md t1 t2 outID outAt inID
    inAt).2 y x amount md' t1' t2' outID' outAt' inID' inAt'
    { b with Balance := b.Balance + amount, UpdatedAt := t2 }
    { a with Balance := a.Balance - amount, UpdatedAt := t1 } (Ne.symm hne) hpos hy1 hx1 hba
    haa hbal2
  have hy2 := Transfer_ok_find_src (Repo.Transfer s x y amount md t1 t2 outID outAt inID
    inAt).2 y x amount md' t1' t2' outID' outAt' inID' inAt'
    { b with Balance := b.Balance + amount, UpdatedAt := t2 }
    { a with Balance := a.Balance - amount, UpdatedAt := t1 } (Ne.symm hne) hpos hy1 hx1 hba
    haa hbal2
  refine ⟨?_, ?_, ?_, ?_⟩
  · unfold transferThereAndBack
    simp only
    rw [e2]
    simp only [e1]
  · show KMap.find (Repo.Transfer (Repo.Transfer s x y amount md t1 t2 outID outAt inID
      inAt).2 y x amount md' t1' t2' outID' outAt' inID' inAt').2.Accounts x = _
    rw [hx2]
    show some { a with Balance := a.Balance - amount + amount, UpdatedAt := t2' } = _
    rw [I64.sub_add_cancel_of_le a.Balance amount hpos hbal]
  · show KMap.find (Repo.Transfer (Repo.Transfer s x y amount md t1 t2 outID outAt inID
      inAt).2 y x amount md' t1' t2' outID' outAt' inID' inAt').2.Accounts y = _
    rw [hy2]
    show some { b with Balance := b.Balance + amount - amount, UpdatedAt := t1' } = _
    rw [I64.add_sub_cancel_of_room b.Balance amount hpos hroom]
  · show (Repo.Transfer (Repo.Transfer s x y amount md t1 t2 outID outAt inID
      inAt).2 y x amount md' t1' t2' outID' outAt' inID' inAt').2.Transactions = _
    rw [e2]
    simp only [e1]

theorem put4_fresh {V : Type} (m : KMap V) (k1 k2 k3 k4 : String) (v1 v2 v3 v4 : V)
    (hnd : [k1, k2, k3, k4].Nodup) (hnew : ∀ k ∈ [k1, k2, k3, k4], k ∉ KMap.keys m) :
    KMap.put (KMap.put (KMap.put (KMap.put m k1 v1) k2 v2) k3 v3) k4 v4
      = m ++ [(k1, v1), (k2, v2), (k3, v3), (k4, v4)] := by
  simp only [List.nodup_cons, List.mem_cons, List.mem_singleton, List.not_mem_nil, or_false,
    not_or, List.nodup_nil, and_true, not_false_eq_true] at hnd
  obtain ⟨⟨h12, h13, h14⟩, ⟨h23, h24⟩, h34⟩ := hnd
  have n1 := hnew k1 (by simp)
  have n2 := hnew k2 (by simp)
  have n3 := hnew k3 (by simp)
  have n4 := hnew k4 (by simp)
  rw [put_put_fresh m k1 k2 v1 v2 n1 n2 (Ne.symm h12)]
  rw [put_put_fresh _ k3 k4 v3 v4 _ _ (Ne.symm h34)]
  · simp
  · simp only [KMap.keys, List.map_append, List.map_cons, List.map_nil, List.mem_append,
      List.mem_cons, List.mem_singleton, List.not_mem_nil, or_false, not_or]
    exact ⟨n3, Ne.symm h13, Ne.symm h23⟩
  · simp only [KMap.keys, List.map_append, List.map_cons, List.map_nil, List.mem_append,
      List.mem_cons, List.mem_singleton, List.not_mem_nil, or_false, not_or]
    exact ⟨n4, Ne.symm h14, Ne.symm h24⟩

/-- C12 (as stated) fails.  In the store where `A` holds 10 and `B` holds
`math.MaxInt64`, both active, `Transfer(A, B, 10)` succeeds and wraps the balance of `B`
to `math.MinInt64 + 9`; the `Transfer(B, A, 10)` run after it fails with
`ErrInsufficient`, and the two balances are left at 0 and `math.MinInt64 + 9`. -/
theorem opposite_transfers_break :
    KMap.find tenStore.Accounts "A" = some (mkAccount "A" 10) ∧
    KMap.find tenStore.Accounts "B" = some (mkAccount "B" I64.MaxInt64) ∧
    10 ≤ (mkAccount "A" 10).Balance.val ∧ 10 ≤ (mkAccount "B" I64.MaxInt64).Balance.val ∧
    (∃ r, (transferThereAndBack tenStore "A" "B" 10 [] 5 6 "T1" 7 "T2" 8 [] 9 10 "T3" 11
      "T4" 12).1 = .ok r) ∧
    (transferThereAndBack tenStore "A" "B" 10 [] 5 6 "T1" 7 "T2" 8 [] 9 10 "T3" 11
      "T4" 12).2.1 = .err .ErrInsufficient ∧
    (∃ a, KMap.find (transferThereAndBack tenStore "A" "B" 10 [] 5 6 "T1" 7 "T2" 8 [] 9 10
        "T3" 11 "T4" 12).2.2.Accounts "A" = some a ∧ a.Balance.val = 0) ∧
    (∃ b, KMap.find (transferThereAndBack tenStore "A" "B" 10 [] 5 6 "T1" 7 "T2" 8 [] 9 10
        "T3" 11 "T4" 12).2.2.Accounts "B" = some b ∧
      b.Balance.val = -9223372036854775799) ∧
    (transferThereAndBack tenStore "A" "B" 10 [] 5 6 "T1" 7 "T2" 8 [] 9 10 "T3" 11
      "T4" 12).2.2.Transactions.length = 2 :=
  ⟨by decide, by decide, by decide, by decide, ⟨_, rfl⟩, by decide, ⟨_, rfl, by decide⟩,
    ⟨_, rfl, by decide⟩, by decide⟩

/-- C12 (amended).  For every store, every two distinct existing active accounts `A` and
`B` and every `amount > 0` (10 in the specification) such that each of the two holds at
least `amount` and at most `2^63 - 1 - amount`: running `Transfer(A, B, amount)` and
`Transfer(B, A, amount)` one after the other, in either of the two orders, makes both
calls succeed and leaves the balances of `A` and `B` (and every field of the two but
`UpdatedAt`) equal to their values before the pair; the four identifiers drawn being new,
exactly four transaction records are added in total. -/
theorem opposite_transfers (s : InMemoryStore) (A B : String) (amount : I64) (md : Meta)
    (t1 t2 : Time) (outID : String) (outAt : Time) (inID : String) (inAt : Time)
    (md' : Meta) (t1' t2' : Time) (outID' : String) (outAt' : Time) (inID' : String)
    (inAt' : Time) (a b : Account) (hne : A ≠ B)
    (ha : KMap.find s.Accounts A = some a) (hb : KMap.find s.Accounts B = some b)
    (haa : a.IsActive = true) (hba : b.IsActive = true) (hpos : 0 < amount.val)
    (hA : amount.val ≤ a.Balance.val) (hB : amount.val ≤ b.Balance.val)
    (hAroom : a.Balance.val + amount.val ≤ 9223372036854775807)
    (hBroom : b.Balance.val + amount.val ≤ 9223372036854775807) :
    ((∃ r, (transferThereAndBack s A B amount md t1 t2 outID outAt inID inAt md' t1' t2'
        outID' outAt' inID' inAt').1 = .ok r) ∧
      (∃ r, (transferThereAndBack s A B amount md t1 t2 outID outAt inID inAt md' t1' t2'
        outID' outAt' inID' inAt').2.1 = .ok r) ∧
      KMap.find (transferThereAndBack s A B amount md t1 t2 outID outAt inID inAt md' t1'
        t2' outID' outAt' inID' inAt').2.2.Accounts A = some { a with UpdatedAt := t2' } ∧
      KMap.find (transferThereAndBack s A B amount md t1 t2 outID outAt inID inAt md' t1'
        t2' outID' outAt' inID' inAt').2.2.Accounts B = some { b with UpdatedAt := t1' } ∧
      ([outID, inID, outID', inID'].Nodup →
        (∀ k ∈ [outID, inID, outID', inID'], k ∉ KMap.keys s.Transactions) →
        (transferThereAndBack s A B amount md t1 t2 outID outAt inID inAt md' t1' t2'
          outID' outAt' inID' inAt').2.2.Transactions
        = s.Transactions ++
            [(outID, { ID := outID, AccountID := a.ID, Typ := .Withdraw, Amount := amount,
                       Meta := md, CreatedAt := outAt }),
             (inID, { ID := inID, AccountID := b.ID, Typ := .Deposit, Amount := amount,
                      Meta := md, CreatedAt := inAt }),
             (outID', { ID := outID', AccountID := b.ID, Typ := .Withdraw,
                        Amount := amount, Meta := md', CreatedAt := outAt' }),
             (inID', { ID := inID', AccountID := a.ID, Typ := .Deposit, Amount := amount,
                       Meta := md', CreatedAt := inAt' })])) ∧
    ((∃ r, (transferThereAndBack s B A amount md t1 t2 outID outAt inID inAt md' t1' t2'
        outID' outAt' inID' inAt').1 = .ok r) ∧
      (∃ r, (transferThereAndBack s B A amount md t1 t2 outID outAt inID inAt md' t1' t2'
        outID' outAt' inID' inAt').2.1 = .ok r) ∧
      KMap.find (transferThereAndBack s B A amount md t1 t2 outID outAt inID inAt md' t1'
        t2' outID' outAt' inID' inAt').2.2.Accounts A = some { a with UpdatedAt := t1' } ∧
      KMap.find (transferThereAndBack s B A amount md t1 t2 outID outAt inID inAt md' t1'
        t2' outID' outAt' inID' inAt').2.2.Accounts B = some { b with UpdatedAt := t2' } ∧
      ([outID, inID, outID', inID'].Nodup →
        (∀ k ∈ [outID, inID, outID', inID'], k ∉ KMap.keys s.Transactions) →
        (transferThereAndBack s B A amount md t1 t2 outID outAt inID inAt md' t1' t2'
          outID' outAt' inID' inAt').2.2.Transactions
        = s.Transactions ++
            [(outID, { ID := outID, AccountID := b.ID, Typ := .Withdraw, Amount := amount,
                       Meta := md, CreatedAt := outAt }),
             (inID, { ID := inID, AccountID := a.ID, Typ := .Deposit, Amount := amount,
                      Meta := md, CreatedAt := inAt }),
             (outID', { ID := outID', AccountID := a.ID, Typ := .Withdraw,
                        Amount := amount, Meta := md', CreatedAt := outAt' }),
             (inID', { ID := inID', AccountID := b.ID, Typ := .Deposit, Amount := amount,
                       Meta := md', CreatedAt := inAt' })])) := by
  have hAB := transferThereAndBack_ok s A B amount md t1 t2 outID outAt inID inAt md' t1' t2'
    outID' outAt' inID' inAt' a b hne ha hb haa hba hpos hA (by omega) hBroom
  have hBA := transferThereAndBack_ok s B A amount md t1 t2 outID outAt inID inAt md' t1' t2'
    outID' outAt' inID' inAt' b a (Ne.symm hne) hb ha hba haa hpos hB (by omega) hAroom
  refine ⟨⟨⟨_, congrArg Prod.fst hAB.1⟩,
      ⟨_, congrArg (fun r => r.2.1) hAB.1⟩, hAB.2.1, hAB.2.2.1, ?_⟩,
    ⟨⟨_, congrArg Prod.fst hBA.1⟩, ⟨_, congrArg (fun r => r.2.1) hBA.1⟩, hBA.2.2.1,
      hBA.2.1, ?_⟩⟩
  · intro hnd hnew
    rw [hAB.2.2.2]
    exact put4_fresh _ _ _ _ _ _ _ _ _ hnd hnew
  · intro hnd hnew
    rw [hBA.2.2.2]
    exact put4_fresh _ _ _ _ _ _ _ _ _ hnd hnew

/-- Witness of `opposite_transfers`: with 50 on `A` and 30 on `B`, the two transfers of
10 succeed in both orders, leave 50 and 30, and add four records. -/
theorem opposite_transfers_witness :
    KMap.find (transferThereAndBack pairStore "A" "B" 10 [] 5 6 "T1" 7 "T2" 8 [] 9 10 "T3"
      11 "T4" 12).2.2.Accounts "A" = some { mkAccount "A" 50 with UpdatedAt := 10 } ∧
    KMap.find (transferThereAndBack pairStore "A" "B" 10 [] 5 6 "T1" 7 "T2" 8 [] 9 10 "T3"
      11 "T4" 12).2.2.Accounts "B" = some { mkAccount "B" 30 with UpdatedAt := 9 } ∧
    KMap.find (transferThereAndBack pairStore "B" "A" 10 [] 5 6 "T1" 7 "T2" 8 [] 9 10 "T3"
      11 "T4" 12).2.2.Accounts "A" = some { mkAccount "A" 50 with UpdatedAt := 9 } ∧
    (transferThereAndBack pairStore "A" "B" 10 [] 5 6 "T1" 7 "T2" 8 [] 9 10 "T3" 11 "T4"
      12).2.2.Transactions
      = pairStore.Transactions ++
          [("T1", { ID := "T1", AccountID := "A", Typ := .Withdraw, Amount := 10,
                    Meta := [], CreatedAt := 7 }),
           ("T2", { ID := "T2", AccountID := "B", Typ := .Deposit, Amount := 10,
                    Meta := [], CreatedAt := 8 }),
           ("T3", { ID := "T3", AccountID := "B", Typ := .Withdraw, Amount := 10,
                    Meta := [], CreatedAt := 11 }),
           ("T4", { ID := "T4", AccountID := "A", Typ := .Deposit, Amount := 10,
                    Meta := [], CreatedAt := 12 })] :=
  have h := opposite_transfers pairStore "A" "B" 10 [] 5 6 "T1" 7 "T2" 8 [] 9 10 "T3" 11
    "T4" 12 (mkAccount "A" 50) (mkAccount "B" 30) (by decide) (by decide) (by decide)
    (by decide) (by decide) (by decide) (by decide) (by decide) (by decide) (by decide)
  ⟨h.1.2.2.1, h.1.2.2.2.1, h.2.2.2.1, h.1.2.2.2.2 (by decide) (by decide)⟩

/-! ## Inactive accounts -/

/-- C13.  For every `amount > 0` and every pair of existing accounts of which at least
one is inactive, in either role, `Transfer` fails with `ErrAccountInactive` and leaves the
store, so the two accounts and their balances, unchanged. -/
theorem Transfer_inactive_rejected (s : InMemoryStore) (fromID toID : String) (amount : I64)
    (md : Meta) (t1 t2 : Time) (outID : String) (outAt : Time) (inID : String) (inAt : Time)
    (src dst : Account) (hpos : 0 < amount.val)
    (hsrc : KMap.find s.Accounts fromID = some src)
    (hdst : KMap.find s.Accounts toID = some dst)
    (hact : src.IsActive = false ∨ dst.IsActive = false) :
    Repo.Transfer s fromID toID amount md t1 t2 outID outAt inID inAt
      = (.err .ErrAccountInactive, s) ∧
    KMap.find (Repo.Transfer s fromID toID amount md t1 t2 outID outAt inID inAt).2.Accounts
      fromID = some src ∧
    KMap.find (Repo.Transfer s fromID toID amount md t1 t2 outID outAt inID inAt).2.Accounts
      toID = some dst := by
  rw [Transfer_inactive_eq s fromID toID amount md t1 t2 outID outAt inID inAt src dst hpos
    hsrc hdst hact]
  exact ⟨rfl, hsrc, hdst⟩

/-- Witness of `Transfer_inactive_rejected`: with `B` deactivated, a transfer of 10 from
`A` to `B` fails with `ErrAccountInactive` and changes nothing. -/
theorem Transfer_inactive_rejected_witness :
    KMap.find frozenStore.Accounts "A" = some (mkAccount "A" 50) ∧
    KMap.find frozenStore.Accounts "B"
      = some { mkAccount "B" 30 with IsActive := false, UpdatedAt := 3 } ∧
    Repo.Transfer frozenStore "A" "B" 10 [] 5 6 "T1" 7 "T2" 8
      = (.err .ErrAccountInactive, frozenStore) :=
  ⟨by decide, by decide,
    (Transfer_inactive_rejected frozenStore "A" "B" 10 [] 5 6 "T1" 7 "T2" 8
      (mkAccount "A" 50) { mkAccount "B" 30 with IsActive := false, UpdatedAt := 3 }
      (by decide) (by decide) (by decide) (Or.inr (by decide))).1⟩

theorem inactive_modify (accs : KMap Account) (id k : String) (f : Account → Account)
    (h : Inactive accs id) (hf : ∀ r, k = id → r.IsActive = false → (f r).IsActive = false) :
    Inactive (KMap.modify accs k f) id := by
  obtain ⟨a, ha, hina⟩ := h
  by_cases hk : k = id
  · subst hk
    exact ⟨f a, find_modify_self _ _ _ a ha, hf a rfl hina⟩
  · exact ⟨a, by rw [find_modify_ne _ _ _ _ hk]; exact ha, hina⟩

theorem inactive_exec (s : InMemoryStore) (id : String) (c : Call)
    (h : Inactive s.Accounts id) (hk : c.KeepsInactive id) :
    Inactive (c.exec s).Accounts id := by
  cases c with
  | CreateUser u uid t1 t2 =>
    show Inactive (Repo.CreateUser s u uid t1 t2).2.Accounts id
    unfold Repo.CreateUser
    split <;> exact h
  | CreateAccount a id' t1 t2 =>
    show Inactive (Repo.CreateAccount s (.fresh a) id' t1 t2).2.Accounts id
    obtain ⟨r, hr, hina⟩ := h
    refine ⟨r, ?_, hina⟩
    have hne : id' ≠ id := hk
    rw [CreateAccount_eq]
    show KMap.find (KMap.put s.Accounts id' _) id = some r
    rw [KMap.find_put, if_neg hne]
    exact hr
  | UpdateAccount id' name isActive t =>
    show Inactive (Repo.UpdateAccount s id' name isActive t).2.Accounts id
    unfold Repo.UpdateAccount
    split
    · exact h
    · refine inactive_modify _ id id' _ (inactive_modify _ id id' _
        (inactive_modify _ id id' _ h ?_) ?_) ?_
      · intro r _ hr; cases name <;> exact hr
      · intro r hid hr
        have hno : isActive ≠ some true := hk hid
        cases isActive with
        | none => exact hr
        | some b =>
          cases b with
          | false => rfl
          | true => exact absurd rfl hno
      · intro r _ hr; exact hr
  | DeleteAccount id' t =>
    show Inactive (Repo.DeleteAccount s id' t).2.Accounts id
    unfold Repo.DeleteAccount
    split
    · exact h
    · exact inactive_modify _ id id' (fun r => { r with UpdatedAt := t })
        (inactive_modify _ id id' (fun r => { r with IsActive := false }) h
          (fun r _ _ => rfl)) (fun r _ hr => hr)
  | Deposit accountID amount md t1 tid t2 =>
    show Inactive (Repo.Deposit s accountID amount md t1 tid t2).2.Accounts id
    unfold Repo.Deposit
    split
    · exact h
    · split
      · exact h
      · split
        · exact h
        · exact inactive_modify _ id accountID (fun r => { r with UpdatedAt := t1 })
            (inactive_modify _ id accountID
              (fun r => { r with Balance := r.Balance + amount }) h (fun r _ hr => hr))
            (fun r _ hr => hr)
  | Withdraw accountID amount md t1 tid t2 =>
    show Inactive (Repo.Withdraw s accountID amount md t1 tid t2).2.Accounts id
    unfold Repo.Withdraw
    split
    · exact h
    · split
      · exact h
      · split
        · exact h
        · split
          · exact h
          · exact inactive_modify _ id accountID (fun r => { r with UpdatedAt := t1 })
              (inactive_modify _ id accountID
                (fun r => { r with Balance := r.Balance - amount }) h (fun r _ hr => hr))
              (fun r _ hr => hr)
  | Transfer fromID toID amount md t1 t2 outID outAt inID inAt =>
    show Inactive (Repo.Transfer s fromID toID amount md t1 t2 outID outAt inID
      inAt).2.Accounts id
    unfold Repo.Transfer
    split
    · exact h
    · split
      · exact h
      · split
        · exact h
        · split
          · exact h
          · split
            · exact h
            · exact inactive_modify _ id toID (fun r => { r with UpdatedAt := t2 })
                (inactive_modify _ id fromID (fun r => { r with UpdatedAt := t1 })
                  (inactive_modify _ id toID
                    (fun r => { r with Balance := r.Balance + amount })
                    (inactive_modify _ id fromID
                      (fun r => { r with Balance := r.Balance - amount }) h
                      (fun r _ hr => hr)) (fun r _ hr => hr)) (fun r _ hr => hr))
                (fun r _ hr => hr)

theorem inactive_run (s : InMemoryStore) (id : String) (cs : List Call)
    (h : Inactive s.Accounts id) (hk : ∀ c ∈ cs, c.KeepsInactive id) :
    Inactive (run s cs).Accounts id := by
  induction cs generalizing s with
  | nil => exact h
  | cons c cs ih =>
    exact ih (c.exec s) (inactive_exec s id c h (hk c (List.mem_cons_self c cs)))
      (fun c' hc' => hk c' (List.mem_cons_of_mem c hc'))

theorem DeleteAccount_ok_eq (s : InMemoryStore) (id : String) (t : Time) (a : Account)
    (ha : KMap.find s.Accounts id = some a) :
    Repo.DeleteAccount s id t
      = (.ok (), { s with Accounts := KMap.modify (KMap.modify s.Accounts id
          (fun r => { r with IsActive := false })) id (fun r => { r with UpdatedAt := t }) }) := by
  unfold Repo.DeleteAccount
  simp only [ha]

theorem DeleteAccount_ok_find (s : InMemoryStore) (id : String) (t : Time) (a : Account)
    (ha : KMap.find s.Accounts id = some a) :
    KMap.find (Repo.DeleteAccount s id t).2.Accounts id
      = some { a with IsActive := false, UpdatedAt := t } := by
  rw [DeleteAccount_ok_eq s id t a ha]
  show KMap.find (KMap.modify (KMap.modify s.Accounts id _) id _) id = _
  rw [find_modify_self _ _ _ { a with IsActive := false }]
  rw [find_modify_self _ _ _ a ha]

theorem DeleteAccount_missing_eq (s : InMemoryStore) (id : String) (t : Time)
    (ha : KMap.find s.Accounts id = none) :
    Repo.DeleteAccount s id t = (.err .ErrNotFound, s) := by
  unfold Repo.DeleteAccount
  simp only [ha]

/-- C15.  `DeleteAccount` is a soft delete.  For every existing `id` it succeeds; the
account stays in the store, no key is removed, with `IsActive = false` and with its `ID`,
`UserID`, `Name`, `Currency` and `Balance` as before (only `UpdatedAt` is set besides);
and a following `GetAccount(id)` returns that inactive account, not `ErrNotFound`.  For an
absent `id` both `DeleteAccount` and `GetAccount` fail with `ErrNotFound` and the store is
unchanged. -/
theorem DeleteAccount_soft (s : InMemoryStore) (id : String) (t : Time) :
    (∀ a, KMap.find s.Accounts id = some a →
      (Repo.DeleteAccount s id t).1 = .ok () ∧
      KMap.find (Repo.DeleteAccount s id t).2.Accounts id
        = some { ID := a.ID, UserID := a.UserID, Name := a.Name, Balance := a.Balance,
                 Currency := a.Currency, IsActive := false, CreatedAt := a.CreatedAt,
                 UpdatedAt := t } ∧
      KMap.keys (Repo.DeleteAccount s id t).2.Accounts = KMap.keys s.Accounts ∧
      Repo.GetAccount (Repo.DeleteAccount s id t).2 id
        = .ok { ID := a.ID, UserID := a.UserID, Name := a.Name, Balance := a.Balance,
                Currency := a.Currency, IsActive := false, CreatedAt := a.CreatedAt,
                UpdatedAt := t }) ∧
    (KMap.find s.Accounts id = none →
      Repo.DeleteAccount s id t = (.err .ErrNotFound, s) ∧
      Repo.GetAccount s id = .err .ErrNotFound) := by
  constructor
  · intro a ha
    have hfind := DeleteAccount_ok_find s id t a ha
    refine ⟨?_, hfind, ?_, ?_⟩
    · rw [DeleteAccount_ok_eq s id t a ha]
    · rw [DeleteAccount_ok_eq s id t a ha]
      show KMap.keys (KMap.modify (KMap.modify s.Accounts id _) id _) = _
      rw [KMap.keys_modify, KMap.keys_modify]
    · unfold Repo.GetAccount
      rw [hfind]
  · intro ha
    refine ⟨DeleteAccount_missing_eq s id t ha, ?_⟩
    unfold Repo.GetAccount
    rw [ha]

/-- Witness of `DeleteAccount_soft`: deleting `B`, which holds 30, leaves it readable,
inactive, with 30 on it; deleting the unbound `Z` fails with `ErrNotFound`. -/
theorem DeleteAccount_soft_witness :
    Repo.GetAccount (Repo.DeleteAccount pairStore "B" 3).2 "B"
      = .ok { ID := "B", UserID := "u1", Name := "main", Balance := 30, Currency := "USD",
              IsActive := false, CreatedAt := 1, UpdatedAt := 3 } ∧
    Repo.DeleteAccount pairStore "Z" 3 = (.err .ErrNotFound, pairStore) ∧
    Repo.GetAccount pairStore "Z" = .err .ErrNotFound :=
  ⟨((DeleteAccount_soft pairStore "B" 3).1 (mkAccount "B" 30) (by decide)).2.2.2,
    ((DeleteAccount_soft pairStore "Z" 3).2 (by decide)).1,
    ((DeleteAccount_soft pairStore "Z" 3).2 (by decide)).2⟩

theorem UpdateAccount_missing_eq (s : InMemoryStore) (id : String) (name : Option String)
    (isActive : Option Bool) (t : Time) (ha : KMap.find s.Accounts id = none) :
    Repo.UpdateAccount s id name isActive t = (.err .ErrNotFound, s) := by
  unfold Repo.UpdateAccount
  simp only [ha]

theorem UpdateAccount_ok_eq (s : InMemoryStore) (id : String) (name : Option String)
    (isActive : Option Bool) (t : Time) (a : Account)
    (ha : KMap.find s.Accounts id = some a) :
    Repo.UpdateAccount s id name isActive t
      = (.ok { a with Name := name.getD a.Name, IsActive := isActive.getD a.IsActive,
                      UpdatedAt := t },
         { s with Accounts := KMap.modify (KMap.modify (KMap.modify s.Accounts id
             (fun r => match name with
               | some n => { r with Name := n }
               | none => r)) id
             (fun r => match isActive with
               | some b => { r with IsActive := b }
               | none => r)) id (fun r => { r with UpdatedAt := t }) }) := by
  unfold Repo.UpdateAccount
  simp only [ha]
  cases name <;> cases isActive <;> rfl

theorem UpdateAccount_ok (s : InMemoryStore) (id : String) (name : Option String)
    (isActive : Option Bool) (t : Time) (a : Account)
    (ha : KMap.find s.Accounts id = some a) :
    (Repo.UpdateAccount s id name isActive t).1
      = .ok { a with Name := name.getD a.Name, IsActive := isActive.getD a.IsActive,
                     UpdatedAt := t } ∧
    KMap.find (Repo.UpdateAccount s id name isActive t).2.Accounts id
      = some { a with Name := name.getD a.Name, IsActive := isActive.getD a.IsActive,
                      UpdatedAt := t } ∧
    (∀ k, k ≠ id →
      KMap.find (Repo.UpdateAccount s id name isActive t).2.Accounts k
        = KMap.find s.Accounts k) ∧
    KMap.keys (Repo.UpdateAccount s id name isActive t).2.Accounts = KMap.keys s.Accounts ∧
    (Repo.UpdateAccount s id name isActive t).2.Users = s.Users ∧
    (Repo.UpdateAccount s id name isActive t).2.Transactions = s.Transactions ∧
    (Repo.UpdateAccount s id name isActive t).2.EmailIndex = s.EmailIndex := by
  rw [UpdateAccount_ok_eq s id name isActive t a ha]
  refine ⟨rfl, ?_, ?_, ?_, rfl, rfl, rfl⟩
  · show KMap.find (KMap.modify (KMap.modify (KMap.modify s.Accounts id _) id _) id _) id = _
    rw [find_modify_self _ _ _ _ (find_modify_self _ _ _ _ (find_modify_self _ _ _ a ha))]
    cases name <;> cases isActive <;> rfl
  · intro k hk
    show KMap.find (KMap.modify (KMap.modify (KMap.modify s.Accounts id _) id _) id _) k = _
    rw [find_modify_ne _ _ _ _ (Ne.symm hk), find_modify_ne _ _ _ _ (Ne.symm hk),
      find_modify_ne _ _ _ _ (Ne.symm hk)]
  · show KMap.keys (KMap.modify (KMap.modify (KMap.modify s.Accounts id _) id _) id _) = _
    rw [KMap.keys_modify, KMap.keys_modify, KMap.keys_modify]

/-- C16.  For every existing account that is inactive, `UpdateAccount(id, name unset,
active = true)` succeeds and returns the account to the active state with its balance
(and every other field but `UpdatedAt`) unchanged; a `Deposit(id, amount)` with
`amount > 0`, which failed with `ErrAccountInactive` before the update, succeeds after
it. -/
theorem UpdateAccount_reactivates (s : InMemoryStore) (id : String) (t : Time) (a : Account)
    (ha : KMap.find s.Accounts id = some a) (hina : a.IsActive = false) (amount : I64)
    (hpos : 0 < amount.val) (md : Meta) (t1 : Time) (tid : String) (t2 : Time) :
    Repo.Deposit s id amount md t1 tid t2 = (.err .ErrAccountInactive, s) ∧
    (Repo.UpdateAccount s id none (some true) t).1
      = .ok { a with IsActive := true, UpdatedAt := t } ∧
    KMap.find (Repo.UpdateAccount s id none (some true) t).2.Accounts id
      = some { a with IsActive := true, UpdatedAt := t } ∧
    (Repo.Deposit (Repo.UpdateAccount s id none (some true) t).2 id amount md t1 tid t2).1
      = .ok { ID := tid, AccountID := a.ID, Typ := .Deposit, Amount := amount, Meta := md,
              CreatedAt := t2 } := by
  have hu := UpdateAccount_ok s id none (some true) t a ha
  refine ⟨Deposit_inactive_eq s id amount md t1 tid t2 a hpos ha hina, hu.1, hu.2.1, ?_⟩
  rw [Deposit_ok_eq (Repo.UpdateAccount s id none (some true) t).2 id amount md t1 tid t2
    { a with IsActive := true, UpdatedAt := t } hpos hu.2.1 rfl]

/-- Witness of `UpdateAccount_reactivates`: the deleted account `B` is set active again,
still holds 30, and takes a deposit of 10. -/
theorem UpdateAccount_reactivates_witness :
    KMap.find frozenStore.Accounts "B"
      = some { mkAccount "B" 30 with IsActive := false, UpdatedAt := 3 } ∧
    KMap.find (Repo.UpdateAccount frozenStore "B" none (some true) 4).2.Accounts "B"
      = some { mkAccount "B" 30 with IsActive := true, UpdatedAt := 4 } ∧
    (Repo.Deposit (Repo.UpdateAccount frozenStore "B" none (some true) 4).2 "B" 10 [] 5
        "T1" 6).1
      = .ok { ID := "T1", AccountID := "B", Typ := .Deposit, Amount := 10, Meta := [],
              CreatedAt := 6 } :=
  have h := UpdateAccount_reactivates frozenStore "B" 4
    { mkAccount "B" 30 with IsActive := false, UpdatedAt := 3 } (by decide) (by decide) 10
    (by decide) [] 5 "T1" 6
  ⟨by decide, h.2.2.1, h.2.2.2⟩

/-- C17.  `UpdateAccount(id, name?, active?)` is a field-wise update.  For an existing
`id` it succeeds and returns the stored account: `Name` is the supplied name if one is
given and the old `Name` otherwise, `IsActive` is the supplied flag if one is given and
the old flag otherwise, `ID`, `UserID`, `Currency`, `Balance` and `CreatedAt` are as
before, and `UpdatedAt` is set to the current time (on every successful call, so whenever
a field changed); every other account, the set of keys, the users, the transactions and
the email index are unchanged.  For an absent `id` it fails with `ErrNotFound` and changes
nothing. -/
theorem UpdateAccount_spec (s : InMemoryStore) (id : String) (name : Option String)
    (isActive : Option Bool) (t : Time) :
    (∀ a, KMap.find s.Accounts id = some a →
      (Repo.UpdateAccount s id name isActive t).1
        = .ok { ID := a.ID, UserID := a.UserID, Name := name.getD a.Name,
                Balance := a.Balance, Currency := a.Currency,
                IsActive := isActive.getD a.IsActive, CreatedAt := a.CreatedAt,
                UpdatedAt := t } ∧
      KMap.find (Repo.UpdateAccount s id name isActive t).2.Accounts id
        = some { ID := a.ID, UserID := a.UserID, Name := name.getD a.Name,
                 Balance := a.Balance, Currency := a.Currency,
                 IsActive := isActive.getD a.IsActive, CreatedAt := a.CreatedAt,
                 UpdatedAt := t } ∧
      (∀ k, k ≠ id →
        KMap.find (Repo.UpdateAccount s id name isActive t).2.Accounts k
          = KMap.find s.Accounts k) ∧
      KMap.keys (Repo.UpdateAccount s id name isActive t).2.Accounts
        = KMap.keys s.Accounts ∧
      (Repo.UpdateAccount s id name isActive t).2.Users = s.Users ∧
      (Repo.UpdateAccount s id name isActive t).2.Transactions = s.Transactions ∧
      (Repo.UpdateAccount s id name isActive t).2.EmailIndex = s.EmailIndex) ∧
    (KMap.find s.Accounts id = none →
      Repo.UpdateAccount s id name isActive t = (.err .ErrNotFound, s)) :=
  ⟨fun a ha => UpdateAccount_ok s id name isActive t a ha,
    UpdateAccount_missing_eq s id name isActive t⟩

/-- Witness of `UpdateAccount_spec`: renaming `A` with no flag given changes the name,
keeps it active with 50 on it, and leaves `B` as it was. -/
theorem UpdateAccount_spec_witness :
    KMap.find (Repo.UpdateAccount pairStore "A" (some "travel") none 4).2.Accounts "A"
      = some { ID := "A", UserID := "u1", Name := "travel", Balance := 50,
               Currency := "USD", IsActive := true, CreatedAt := 1, UpdatedAt := 4 } ∧
    KMap.find (Repo.UpdateAccount pairStore "A" (some "travel") none 4).2.Accounts "B"
      = KMap.find pairStore.Accounts "B" ∧
    Repo.UpdateAccount pairStore "Z" (some "travel") none 4 = (.err .ErrNotFound, pairStore) :=
  ⟨((UpdateAccount_spec pairStore "A" (some "travel") none 4).1 (mkAccount "A" 50)
      (by decide)).2.1,
    ((UpdateAccount_spec pairStore "A" (some "travel") none 4).1 (mkAccount "A" 50)
      (by decide)).2.2.1 "B" (by decide),
    (UpdateAccount_spec pairStore "Z" (some "travel") none 4).2 (by decide)⟩

/-! ## Listing accounts -/

theorem find_of_mem_of_nodup {V : Type} (m : KMap V) (k : String) (v : V)
    (hnd : (KMap.keys m).Nodup) (h : (k, v) ∈ m) : KMap.find m k = some v := by
  induction m with
  | nil => cases h
  | cons e rest ih =>
    obtain ⟨k0, v0⟩ := e
    simp only [KMap.keys, List.map_cons, List.nodup_cons] at hnd
    rcases List.mem_cons.mp h with h1 | h1
    · cases h1
      simp [KMap.find]
    · have hk : k0 ≠ k := by
        intro heq
        subst heq
        exact hnd.1 (List.mem_map.mpr ⟨(k0, v), h1, rfl⟩)
      simp only [KMap.find, hk, if_false]
      exact ih hnd.2 h1

theorem mem_of_find {V : Type} (m : KMap V) (k : String) (v : V)
    (h : KMap.find m k = some v) : (k, v) ∈ m := by
  induction m with
  | nil => cases h
  | cons e rest ih =>
    obtain ⟨k0, v0⟩ := e
    by_cases hk : k0 = k
    · simp only [KMap.find, hk, if_true, Option.some.injEq] at h
      subst h; subst hk
      exact List.mem_cons_self _ _
    · simp only [KMap.find, hk, if_false] at h
      exact List.mem_cons_of_mem _ (ih h)

theorem nodup_of_keys_nodup {V : Type} (m : KMap V) (hnd : (KMap.keys m).Nodup) :
    m.Nodup :=
  List.Nodup.of_map Prod.fst hnd

theorem list_step_eq (userID currency : String) (minBalance : Option I64)
    (out : List Account) (e : String × Account) :
    (if (decide (e.2.UserID ≠ userID) || !e.2.IsActive) = true then out
      else if (decide (currency ≠ "") && decide (e.2.Currency ≠ currency)) = true then out
      else if (match minBalance with
          | some m => decide (e.2.Balance < m)
          | none => false) = true then out
      else out ++ [e.2])
      = if Listed userID currency minBalance e.2 then out ++ [e.2] else out := by
  cases minBalance with
  | none =>
    by_cases hL : Listed userID currency none e.2
    · rw [if_pos hL]
      obtain ⟨h1, h2, h3, -⟩ := hL
      rcases h3 with h3 | h3 <;> simp [h1, h2, h3]
    · rw [if_neg hL]
      split_ifs with c1 c2 c3
      · rfl
      · rfl
      · rfl
      · exfalso
        apply hL
        simp only [Bool.or_eq_true, decide_eq_true_eq, Bool.not_eq_true', not_or,
          Bool.not_eq_false, Bool.and_eq_true, not_and, Decidable.not_not, ne_eq] at c1 c2
        refine ⟨c1.1, c1.2, ?_, trivial⟩
        by_cases hc : currency = ""
        · exact Or.inl hc
        · exact Or.inr (c2 hc)
  | some m =>
    by_cases hL : Listed userID currency (some m) e.2
    · rw [if_pos hL]
      obtain ⟨h1, h2, h3, h4⟩ := hL
      have h5 : ¬ e.2.Balance < m := by rw [I64.lt_def]; simp only at h4; omega
      rcases h3 with h3 | h3 <;> simp [h1, h2, h3, h5]
    · rw [if_neg hL]
      split_ifs with c1 c2 c3
      · rfl
      · rfl
      · rfl
      · exfalso
        apply hL
        simp only [Bool.or_eq_true, decide_eq_true_eq, Bool.not_eq_true', not_or,
          Bool.not_eq_false, Bool.and_eq_true, not_and, Decidable.not_not, ne_eq] at c1 c2 c3
        rw [I64.lt_def] at c3
        refine ⟨c1.1, c1.2, ?_, ?_⟩
        · by_cases hc : currency = ""
          · exact Or.inl hc
          · exact Or.inr (c2 hc)
        · show m.val ≤ e.2.Balance.val
          omega


theorem list_foldl_eq (userID currency : String) (minBalance : Option I64)
    (l : KMap Account) (out : List Account) :
    l.foldl
      (fun out e =>
        if decide (e.2.UserID ≠ userID) || !e.2.IsActive then out
        else if decide (currency ≠ "") && decide (e.2.Currency ≠ currency) then out
        else if (match minBalance with
            | some m => decide (e.2.Balance < m)
            | none => false) then out
        else out ++ [e.2])
      out
      = out ++ (l.filter (fun e => decide (Listed userID currency minBalance e.2))).map
          Prod.snd := by
  induction l generalizing out with
  | nil => simp
  | cons e rest ih =>
    rw [List.foldl_cons, list_step_eq, ih]
    by_cases hL : Listed userID currency minBalance e.2
    · simp [hL, List.filter_cons]
    · simp [hL, List.filter_cons]

theorem ListAccountsByUser_eq (s : InMemoryStore) (userID currency : String)
    (minBalance : Option I64) :
    Repo.ListAccountsByUser s userID currency minBalance
      = .ok ((s.Accounts.filter
          (fun e => decide (Listed userID currency minBalance e.2))).map Prod.snd) := by
  unfold Repo.ListAccountsByUser
  rw [list_foldl_eq]
  rfl

theorem CreateUser_ok_eq (s : InMemoryStore) (u : User) (id : String) (t1 t2 : Time)
    (hnew : KMap.find s.EmailIndex u.Email = none) :
    Repo.CreateUser s u id t1 t2
      = (.ok { ID := id, Email := u.Email, PasswordHash := u.PasswordHash, Name := u.Name,
               IsActive := true, CreatedAt := t1, UpdatedAt := t2 },
         { s with
           Users := KMap.put s.Users id
             { ID := id, Email := u.Email, PasswordHash := u.PasswordHash, Name := u.Name,
               IsActive := true, CreatedAt := t1, UpdatedAt := t2 }
           EmailIndex := KMap.put s.EmailIndex u.Email id }) := by
  unfold Repo.CreateUser
  simp only [hnew, Option.isSome_none, Bool.false_eq_true, if_false]

theorem CreateUser_duplicate_eq (s : InMemoryStore) (u : User) (id : String) (t1 t2 : Time)
    (uid : String) (hreg : KMap.find s.EmailIndex u.Email = some uid) :
    Repo.CreateUser s u id t1 t2 = (.err .emailAlreadyRegistered, s) := by
  unfold Repo.CreateUser
  simp only [hreg, Option.isSome_some, if_true]

/-- C19.  For every store in which the email `e` is not registered, `CreateUser` with
the email `e` succeeds, and a second `CreateUser` with the same email `e`, whatever its
name and credential hash, fails with the duplicate-email error and leaves the store, so
the user map and the email index, unchanged: `GetUserByEmail(e)` still returns the first
user, with the identifier of the first user. -/
theorem CreateUser_duplicate_email (s : InMemoryStore) (u u' : User) (id : String)
    (t1 t2 : Time) (id' : String) (t1' t2' : Time)
    (hnew : KMap.find s.EmailIndex u.Email = none) (hsame : u'.Email = u.Email) :
    (Repo.CreateUser s u id t1 t2).1
      = .ok { ID := id, Email := u.Email, PasswordHash := u.PasswordHash, Name := u.Name,
              IsActive := true, CreatedAt := t1, UpdatedAt := t2 } ∧
    Repo.CreateUser (Repo.CreateUser s u id t1 t2).2 u' id' t1' t2'
      = (.err .emailAlreadyRegistered, (Repo.CreateUser s u id t1 t2).2) ∧
    Repo.GetUserByEmail (Repo.CreateUser (Repo.CreateUser s u id t1 t2).2 u' id' t1' t2').2
        u.Email
      = .ok (some { ID := id, Email := u.Email, PasswordHash := u.PasswordHash,
                    Name := u.Name, IsActive := true, CreatedAt := t1, UpdatedAt := t2 }) := by
  have hidx : KMap.find (Repo.CreateUser s u id t1 t2).2.EmailIndex u'.Email = some id := by
    rw [CreateUser_ok_eq s u id t1 t2 hnew, hsame]
    show KMap.find (KMap.put s.EmailIndex u.Email id) u.Email = some id
    rw [KMap.find_put, if_pos rfl]
  have hdup := CreateUser_duplicate_eq (Repo.CreateUser s u id t1 t2).2 u' id' t1' t2' id hidx
  refine ⟨?_, hdup, ?_⟩
  · rw [CreateUser_ok_eq s u id t1 t2 hnew]
  · rw [hdup]
    rw [hsame] at hidx
    unfold Repo.GetUserByEmail
    rw [hidx]
    show Res.ok (KMap.find (Repo.CreateUser s u id t1 t2).2.Users id) = _
    rw [CreateUser_ok_eq s u id t1 t2 hnew]
    show Res.ok (KMap.find (KMap.put s.Users id _) id) = _
    rw [KMap.find_put, if_pos rfl]

/-- Witness of `CreateUser_duplicate_email`: on the empty store `ann@x.org` registers
once; the second registration fails and the email still resolves to the user `U1`. -/
theorem CreateUser_duplicate_email_witness :
    KMap.find NewInMemoryStore.EmailIndex "ann@x.org" = none ∧
    Repo.CreateUser (Repo.CreateUser NewInMemoryStore (mkUser "ann@x.org" "Ann") "U1" 1 2).2
        (mkUser "ann@x.org" "Bob") "U2" 3 4
      = (.err .emailAlreadyRegistered,
         (Repo.CreateUser NewInMemoryStore (mkUser "ann@x.org" "Ann") "U1" 1 2).2) ∧
    Repo.GetUserByEmail
        (Repo.CreateUser
          (Repo.CreateUser NewInMemoryStore (mkUser "ann@x.org" "Ann") "U1" 1 2).2
          (mkUser "ann@x.org" "Bob") "U2" 3 4).2 "ann@x.org"
      = .ok (some { ID := "U1", Email := "ann@x.org", PasswordHash := "h", Name := "Ann",
                    IsActive := true, CreatedAt := 1, UpdatedAt := 2 }) :=
  have h := CreateUser_duplicate_email NewInMemoryStore (mkUser "ann@x.org" "Ann")
    (mkUser "ann@x.org" "Bob") "U1" 1 2 "U2" 3 4 (by decide) (by decide)
  ⟨by decide, h.2.1, h.2.2⟩

/-! ## Creating accounts -/

/-- The account `CreateAccount` stores and returns, from the record `a` its pointer
points to and the values `id`, `t1`, `t2` it draws. -/
theorem CreateAccount_result (s : InMemoryStore) (p : AccountPtr) (id : String)
    (t1 t2 : Time) :
    (Repo.CreateAccount s p id t1 t2).1
      = .ok { ID := id, UserID := p.record.UserID, Name := p.record.Name,
              Balance := p.record.Balance, Currency := p.record.Currency, IsActive := true,
              CreatedAt := t1, UpdatedAt := t2 } ∧
    KMap.find (Repo.CreateAccount s p id t1 t2).2.Accounts id
      = some { ID := id, UserID := p.record.UserID, Name := p.record.Name,
               Balance := p.record.Balance, Currency := p.record.Currency,
               IsActive := true, CreatedAt := t1, UpdatedAt := t2 } ∧
    (Repo.CreateAccount s p id t1 t2).2.Transactions = s.Transactions ∧
    (Repo.CreateAccount s p id t1 t2).2.Users = s.Users ∧
    (Repo.CreateAccount s p id t1 t2).2.EmailIndex = s.EmailIndex := by
  cases hact : p.record.IsActive <;>
    simp [Repo.CreateAccount, hact, KMap.find_put]

/-- The stored accounts after `CreateAccount` is handed the pointer the store binds
under `key`: the record rewritten is bound under `key` and under the new identifier, and
every other key keeps its record. -/
theorem CreateAccount_stored_find (s : InMemoryStore) (key : String) (a : Account)
    (id : String) (t1 t2 : Time) (ha : KMap.find s.Accounts key = some a) (k : String) :
    KMap.find (Repo.CreateAccount s (.stored key a) id t1 t2).2.Accounts k
      = if id = k ∨ key = k then
          some { ID := id, UserID := a.UserID, Name := a.Name, Balance := a.Balance,
                 Currency := a.Currency, IsActive := true, CreatedAt := t1,
                 UpdatedAt := t2 }
        else KMap.find s.Accounts k := by
  by_cases h1 : id = k
  · cases hact : a.IsActive <;>
      simp [Repo.CreateAccount, AccountPtr.record, AccountPtr.write, hact, KMap.find_put, h1]
  · by_cases h2 : key = k
    · subst h2
      cases hact : a.IsActive <;>
        simp [Repo.CreateAccount, AccountPtr.record, AccountPtr.write, hact, KMap.find_put,
          KMap.find_modify, h1, ha]
    · cases hact : a.IsActive <;>
        simp [Repo.CreateAccount, AccountPtr.record, AccountPtr.write, hact, KMap.find_put,
          KMap.find_modify, h1, h2]

theorem Deposit_cases (s : InMemoryStore) (accountID : String) (amount : I64) (md : Meta)
    (t1 : Time) (id : String) (t2 : Time) :
    (∃ e, Repo.Deposit s accountID amount md t1 id t2 = (.err e, s)) ∨
    (∃ a, 0 < amount.val ∧ KMap.find s.Accounts accountID = some a ∧ a.IsActive = true) := by
  by_cases hpos : 0 < amount.val
  · cases ha : KMap.find s.Accounts accountID with
    | none => exact Or.inl ⟨_, Deposit_missing_eq s accountID amount md t1 id t2 hpos ha⟩
    | some a =>
      cases hact : a.IsActive with
      | false =>
        exact Or.inl ⟨_, Deposit_inactive_eq s accountID amount md t1 id t2 a hpos ha hact⟩
      | true => exact Or.inr ⟨a, hpos, rfl, hact⟩
  · exact Or.inl ⟨_, Deposit_invalid_eq s accountID amount md t1 id t2 (by omega)⟩

theorem Withdraw_cases (s : InMemoryStore) (accountID : String) (amount : I64) (md : Meta)
    (t1 : Time) (id : String) (t2 : Time) :
    (∃ e, Repo.Withdraw s accountID amount md t1 id t2 = (.err e, s)) ∨
    (∃ a, 0 < amount.val ∧ KMap.find s.Accounts accountID = some a ∧ a.IsActive = true ∧
      amount.val ≤ a.Balance.val) := by
  by_cases hpos : 0 < amount.val
  · cases ha : KMap.find s.Accounts accountID with
    | none => exact Or.inl ⟨_, Withdraw_missing_eq s accountID amount md t1 id t2 hpos ha⟩
    | some a =>
      cases hact : a.IsActive with
      | false =>
        exact Or.inl ⟨_, Withdraw_inactive_eq s accountID amount md t1 id t2 a hpos ha hact⟩
      | true =>
        by_cases hbal : a.Balance.val < amount.val
        · exact Or.inl ⟨_, Withdraw_insufficient_eq s accountID amount md t1 id t2 a hpos ha
            hact hbal⟩
        · exact Or.inr ⟨a, hpos, rfl, hact, by omega⟩
  · exact Or.inl ⟨_, Withdraw_invalid_eq s accountID amount md t1 id t2 (by omega)⟩

theorem Transfer_cases (s : InMemoryStore) (fromID toID : String) (amount : I64)
    (md : Meta) (t1 t2 : Time) (outID : String) (outAt : Time) (inID : String)
    (inAt : Time) :
    (∃ e, Repo.Transfer s fromID toID amount md t1 t2 outID outAt inID inAt = (.err e, s)) ∨
    (∃ src dst, 0 < amount.val ∧ KMap.find s.Accounts fromID = some src ∧
      KMap.find s.Accounts toID = some dst ∧ src.IsActive = true ∧ dst.IsActive = true ∧
      amount.val ≤ src.Balance.val) := by
  by_cases hpos : 0 < amount.val
  · cases hsrc : KMap.find s.Accounts fromID with
    | none =>
      exact Or.inl ⟨_, Transfer_from_missing_eq s fromID toID amount md t1 t2 outID outAt inID
        inAt hpos hsrc⟩
    | some src =>
      cases hdst : KMap.find s.Accounts toID with
      | none =>
        exact Or.inl ⟨_, Transfer_to_missing_eq s fromID toID amount md t1 t2 outID outAt inID
          inAt src hpos hsrc hdst⟩
      | some dst =>
        cases hsa : src.IsActive with
        | false =>
          exact Or.inl ⟨_, Transfer_inactive_eq s fromID toID amount md t1 t2 outID outAt inID
            inAt src dst hpos hsrc hdst (Or.inl hsa)⟩
        | true =>
          cases hda : dst.IsActive with
          | false =>
            exact Or.inl ⟨_, Transfer_inactive_eq s fromID toID amount md t1 t2 outID outAt
              inID inAt src dst hpos hsrc hdst (Or.inr hda)⟩
          | true =>
            by_cases hbal : src.Balance.val < amount.val
            · exact Or.inl ⟨_, Transfer_insufficient_eq s fromID toID amount md t1 t2 outID
                outAt inID inAt src dst hpos hsrc hdst hsa hda hbal⟩
            · exact Or.inr ⟨src, dst, hpos, rfl, rfl, hsa, hda, by omega⟩
  · exact Or.inl ⟨_, Transfer_invalid_eq s fromID toID amount md t1 t2 outID outAt inID inAt
      (by omega)⟩

/-! ## A transfer and the sum of the balances -/

/-- The sum of the balances after a successful transfer: unchanged, up to the wrap of the
credit `to.Balance += amount` between two different accounts. -/
theorem Transfer_total_of_ok (s : InMemoryStore) (fromID toID : String) (amount : I64)
    (md : Meta) (t1 t2 : Time) (outID : String) (outAt : Time) (inID : String) (inAt : Time)
    (src dst : Account) (hpos : 0 < amount.val)
    (hsrc : KMap.find s.Accounts fromID = some src)
    (hdst : KMap.find s.Accounts toID = some dst)
    (hsa : src.IsActive = true) (hda : dst.IsActive = true)
    (hbal : amount.val ≤ src.Balance.val) :
    totalBalance (Repo.Transfer s fromID toID amount md t1 t2 outID outAt inID inAt).2
      = totalBalance s +
          (if fromID = toID then 0
           else (dst.Balance + amount).val - (dst.Balance.val + amount.val)) := by
  rw [Transfer_ok_eq s fromID toID amount md t1 t2 outID outAt inID inAt src dst hpos hsrc
    hdst hsa hda hbal]
  have hsrcHi := src.Balance.hi
  have hdebit : (src.Balance - amount).val = src.Balance.val - amount.val := by
    rw [I64.val_sub, wrap64_of_range _ (by omega) (by omega)]
  unfold totalBalance
  simp only
  rw [sum_modify_same (fun a : Account => a.Balance.val) _ toID
      (fun r => { r with UpdatedAt := t2 }) (fun a => rfl),
    sum_modify_same (fun a : Account => a.Balance.val) _ fromID
      (fun r => { r with UpdatedAt := t1 }) (fun a => rfl)]
  by_cases hk : fromID = toID
  · subst hk
    rw [if_pos rfl,
      KMap.sum_modify (fun a : Account => a.Balance.val) _ fromID _
        { src with Balance := src.Balance - amount }
        (by rw [KMap.find_modify, hsrc]; simp),
      KMap.sum_modify (fun a : Account => a.Balance.val) _ fromID _ src hsrc]
    show _ + ((src.Balance - amount).val - src.Balance.val)
      + (((src.Balance - amount) + amount).val - (src.Balance - amount).val) = _
    rw [I64.val_add, hdebit, wrap64_of_range _ (by omega) (by omega)]
    omega
  · rw [if_neg hk,
      KMap.sum_modify (fun a : Account => a.Balance.val) _ toID _ dst
        (by rw [KMap.find_modify, hdst]; simp [hk]),
      KMap.sum_modify (fun a : Account => a.Balance.val) _ fromID _ src hsrc]
    show _ + ((src.Balance - amount).val - src.Balance.val)
      + ((dst.Balance + amount).val - dst.Balance.val) = _
    rw [hdebit]
    omega

/-- C3 (as stated) fails.  In the store where `A` holds 1 and `B` holds `math.MaxInt64`,
`Transfer(A, B, 1)` succeeds; `to.Balance += amount` wraps to `math.MinInt64`, and the
sum of the balances goes from `2^63` to `-2^63`. -/
theorem Transfer_total_changes_on_overflow :
    (∃ r, (Repo.Transfer fullStore "A" "B" 1 [] 5 6 "T1" 7 "T2" 8).1 = .ok r) ∧
    totalBalance fullStore = 9223372036854775808 ∧
    totalBalance (Repo.Transfer fullStore "A" "B" 1 [] 5 6 "T1" 7 "T2" 8).2
      = -9223372036854775808 ∧
    totalBalance (Repo.Transfer fullStore "A" "B" 1 [] 5 6 "T1" 7 "T2" 8).2
      ≠ totalBalance fullStore :=
  ⟨⟨_, rfl⟩, by decide, by decide, by decide⟩

/-- C3 (amended).  For every store and every call `Transfer(fromID, toID, amount, meta)`,
the sum of the balances of all accounts after the call equals the sum before the call
whenever the call fails, whenever `fromID = toID`, and whenever the call succeeds between
two different accounts and the balance of the destination plus `amount` does not pass
`2^63 - 1`.  In the one remaining case, a call that succeeds between two different
accounts with the balance of the destination plus `amount` above `2^63 - 1`, the sum
after the call is the sum before less `2^64`.  The sum counts the record of every key of
the store, every key owning its record. -/
theorem Transfer_totalBalance (s : InMemoryStore) (fromID toID : String) (amount : I64)
    (md : Meta) (t1 t2 : Time) (outID : String) (outAt : Time) (inID : String)
    (inAt : Time) :
    (∀ e, (Repo.Transfer s fromID toID amount md t1 t2 outID outAt inID inAt).1 = .err e →
      totalBalance (Repo.Transfer s fromID toID amount md t1 t2 outID outAt inID inAt).2
        = totalBalance s) ∧
    (fromID = toID →
      totalBalance (Repo.Transfer s fromID toID amount md t1 t2 outID outAt inID inAt).2
        = totalBalance s) ∧
    (∀ r dst, (Repo.Transfer s fromID toID amount md t1 t2 outID outAt inID inAt).1 = .ok r →
      fromID ≠ toID → KMap.find s.Accounts toID = some dst →
      dst.Balance.val + amount.val ≤ 9223372036854775807 →
      totalBalance (Repo.Transfer s fromID toID amount md t1 t2 outID outAt inID inAt).2
        = totalBalance s) ∧
    (∀ r dst, (Repo.Transfer s fromID toID amount md t1 t2 outID outAt inID inAt).1 = .ok r →
      fromID ≠ toID → KMap.find s.Accounts toID = some dst →
      9223372036854775807 < dst.Balance.val + amount.val →
      totalBalance (Repo.Transfer s fromID toID amount md t1 t2 outID outAt inID inAt).2
        = totalBalance s - 18446744073709551616) := by
  rcases Transfer_cases s fromID toID amount md t1 t2 outID outAt inID inAt with
    ⟨e0, he0⟩ | ⟨src, dst0, hpos, hsrc, hdst, hsa, hda, hbal⟩
  · rw [he0]
    refine ⟨fun _ _ => rfl, fun _ => rfl, ?_, ?_⟩
    · intro r dst h
      cases h
    · intro r dst h
      cases h
  · have htot := Transfer_total_of_ok s fromID toID amount md t1 t2 outID outAt inID inAt
      src dst0 hpos hsrc hdst hsa hda hbal
    have hok := Transfer_ok_eq s fromID toID amount md t1 t2 outID outAt inID inAt src dst0
      hpos hsrc hdst hsa hda hbal
    refine ⟨?_, ?_, ?_, ?_⟩
    · intro e he
      rw [hok] at he
      cases he
    · intro hk
      rw [htot, if_pos hk, add_zero]
    · intro r dst _ hk hd hroom
      rw [hdst] at hd
      cases hd
      have hlo := dst0.Balance.lo
      rw [htot, if_neg hk, I64.val_add, wrap64_of_range _ (by omega) hroom]
      omega
    · intro r dst _ hk hd hover
      rw [hdst] at hd
      cases hd
      have hhi := dst0.Balance.hi
      have hamt := amount.hi
      rw [htot, if_neg hk, I64.val_add]
      unfold wrap64
      omega

/-- Witness of `Transfer_totalBalance`.  On the store where `A` holds 50 and `B` holds
30, `Transfer(A, B, math.MaxInt64)` fails for want of funds and `Transfer(A, A, 20)`
succeeds, and both keep the total at 80.  Transferring 400 from the account that holds
1000 to the account that holds 0 keeps the total at 1000.  On the store where `A` holds 1
and `B` holds `math.MaxInt64`, `Transfer(A, B, 1)` takes `2^64` off the total. -/
theorem Transfer_totalBalance_witness :
    (Repo.Transfer pairStore "A" "B" I64.MaxInt64 [] 5 6 "T1" 7 "T2" 8).1
      = .err .ErrInsufficient ∧
    totalBalance (Repo.Transfer pairStore "A" "B" I64.MaxInt64 [] 5 6 "T1" 7 "T2" 8).2
      = totalBalance pairStore ∧
    (∃ r, (Repo.Transfer pairStore "A" "A" 20 [] 5 6 "T1" 7 "T2" 8).1 = .ok r) ∧
    totalBalance (Repo.Transfer pairStore "A" "A" 20 [] 5 6 "T1" 7 "T2" 8).2
      = totalBalance pairStore ∧
    totalBalance pairStore = 80 ∧
    (∃ r, (Repo.Transfer scenarioStore "A" "B" 400 [] 7 8 "T2" 9 "T3" 10).1 = .ok r) ∧
    totalBalance scenarioStore = 1000 ∧
    totalBalance (Repo.Transfer scenarioStore "A" "B" 400 [] 7 8 "T2" 9 "T3" 10).2
      = totalBalance scenarioStore ∧
    totalBalance (Repo.Transfer fullStore "A" "B" 1 [] 5 6 "T1" 7 "T2" 8).2
      = totalBalance fullStore - 18446744073709551616 :=
  ⟨rfl,
    (Transfer_totalBalance pairStore "A" "B" I64.MaxInt64 [] 5 6 "T1" 7 "T2" 8).1
      .ErrInsufficient rfl,
    ⟨_, rfl⟩,
    (Transfer_totalBalance pairStore "A" "A" 20 [] 5 6 "T1" 7 "T2" 8).2.1 rfl,
    by decide,
    ⟨_, rfl⟩,
    by decide,
    (Transfer_totalBalance scenarioStore "A" "B" 400 [] 7 8 "T2" 9 "T3" 10).2.2.1 _
      (mkAccount "B" 0) rfl (by decide) (by decide) (by decide),
    (Transfer_totalBalance fullStore "A" "B" 1 [] 5 6 "T1" 7 "T2" 8).2.2.2 _
      (mkAccount "B" I64.MaxInt64) rfl (by decide) (by decide) (by decide)⟩

/-! ## Transactions are only ever added -/

theorem find_append_of_find {V : Type} (m l : KMap V) (k : String) (v : V)
    (h : KMap.find m k = some v) : KMap.find (m ++ l) k = some v := by
  induction m with
  | nil => cases h
  | cons e rest ih =>
    obtain ⟨k0, v0⟩ := e
    by_cases hk : k0 = k
    · simp only [KMap.find, hk, if_true] at h
      simp only [List.cons_append, KMap.find, hk, if_true, h]
    · simp only [KMap.find, hk, if_false] at h
      simp only [List.cons_append, KMap.find, hk, if_false]
      exact ih h

theorem exec_transactions (s : InMemoryStore) (c : Call) (hf : c.Fresh s) :
    ∃ added, (c.exec s).Transactions = s.Transactions ++ added ∧
      added.length = c.added s ∧ ∀ e ∈ added, Posted e := by
  cases c with
  | CreateUser u id t1 t2 =>
    refine ⟨[], ?_, rfl, by simp⟩
    show (Repo.CreateUser s u id t1 t2).2.Transactions = _
    unfold Repo.CreateUser
    split <;> simp
  | CreateAccount a id t1 t2 =>
    refine ⟨[], ?_, rfl, by simp⟩
    show (Repo.CreateAccount s (.fresh a) id t1 t2).2.Transactions = _
    rw [CreateAccount_eq]
    simp
  | UpdateAccount id name isActive t =>
    refine ⟨[], ?_, rfl, by simp⟩
    show (Repo.UpdateAccount s id name isActive t).2.Transactions = _
    cases ha : KMap.find s.Accounts id with
    | none => rw [UpdateAccount_missing_eq s id name isActive t ha]; simp
    | some a => rw [UpdateAccount_ok_eq s id name isActive t a ha]; simp
  | DeleteAccount id t =>
    refine ⟨[], ?_, rfl, by simp⟩
    show (Repo.DeleteAccount s id t).2.Transactions = _
    cases ha : KMap.find s.Accounts id with
    | none => rw [DeleteAccount_missing_eq s id t ha]; simp
    | some a => rw [DeleteAccount_ok_eq s id t a ha]; simp
  | Deposit accountID amount md t1 id t2 =>
    have hid : id ∉ KMap.keys s.Transactions := hf
    show ∃ added, (Repo.Deposit s accountID amount md t1 id t2).2.Transactions
        = s.Transactions ++ added ∧
      added.length = (if (Repo.Deposit s accountID amount md t1 id t2).1.isOk then 1 else 0) ∧
      ∀ e ∈ added, Posted e
    rcases Deposit_cases s accountID amount md t1 id t2 with ⟨e, he⟩ | ⟨a, hpos, ha, hact⟩
    · rw [he]
      exact ⟨[], by simp, by simp [Res.isOk], by simp⟩
    · rw [Deposit_ok_eq s accountID amount md t1 id t2 a hpos ha hact]
      refine ⟨_, KMap.put_fresh _ _ _ hid, by simp [Res.isOk], ?_⟩
      intro e he
      simp only [List.mem_singleton] at he
      subst he
      exact ⟨rfl, hpos, Or.inl rfl⟩
  | Withdraw accountID amount md t1 id t2 =>
    have hid : id ∉ KMap.keys s.Transactions := hf
    show ∃ added, (Repo.Withdraw s accountID amount md t1 id t2).2.Transactions
        = s.Transactions ++ added ∧
      added.length = (if (Repo.Withdraw s accountID amount md t1 id t2).1.isOk then 1 else 0) ∧
      ∀ e ∈ added, Posted e
    rcases Withdraw_cases s accountID amount md t1 id t2 with
      ⟨e, he⟩ | ⟨a, hpos, ha, hact, hbal⟩
    · rw [he]
      exact ⟨[], by simp, by simp [Res.isOk], by simp⟩
    · rw [Withdraw_ok_eq s accountID amount md t1 id t2 a hpos ha hact hbal]
      refine ⟨_, KMap.put_fresh _ _ _ hid, by simp [Res.isOk], ?_⟩
      intro e he
      simp only [List.mem_singleton] at he
      subst he
      exact ⟨rfl, hpos, Or.inr rfl⟩
  | Transfer fromID toID amount md t1 t2 outID outAt inID inAt =>
    have hfr : outID ∉ KMap.keys s.Transactions ∧ inID ∉ KMap.keys s.Transactions ∧
        inID ≠ outID := hf
    show ∃ added, (Repo.Transfer s fromID toID amount md t1 t2 outID outAt inID
        inAt).2.Transactions = s.Transactions ++ added ∧
      added.length = (if (Repo.Transfer s fromID toID amount md t1 t2 outID outAt inID
        inAt).1.isOk then 2 else 0) ∧
      ∀ e ∈ added, Posted e
    rcases Transfer_cases s fromID toID amount md t1 t2 outID outAt inID inAt with
      ⟨e, he⟩ | ⟨src, dst, hpos, hsrc, hdst, hsa, hda, hbal⟩
    · rw [he]
      exact ⟨[], by simp, by simp [Res.isOk], by simp⟩
    · rw [Transfer_ok_eq s fromID toID amount md t1 t2 outID outAt inID inAt src dst hpos hsrc
        hdst hsa hda hbal]
      refine ⟨_, put_put_fresh _ _ _ _ _ hfr.1 hfr.2.1 hfr.2.2, by simp [Res.isOk], ?_⟩
      intro e he
      simp only [List.mem_cons, List.mem_singleton, List.not_mem_nil, or_false] at he
      rcases he with he | he
      · subst he
        exact ⟨rfl, hpos, Or.inr rfl⟩
      · subst he
        exact ⟨rfl, hpos, Or.inl rfl⟩

theorem posted_run (s : InMemoryStore) (cs : List Call) (hf : FreshRun s cs)
    (h : ∀ e ∈ s.Transactions, Posted e) :
    (∃ added, (run s cs).Transactions = s.Transactions ++ added) ∧
    ∀ e ∈ (run s cs).Transactions, Posted e := by
  induction cs generalizing s with
  | nil => exact ⟨⟨[], by simp [run]⟩, h⟩
  | cons c cs ih =>
    obtain ⟨added, hadd, -, hposted⟩ := exec_transactions s c hf.1
    have h1 : ∀ e ∈ (c.exec s).Transactions, Posted e := by
      intro e he
      rw [hadd] at he
      rcases List.mem_append.mp he with h2 | h2
      · exact h e h2
      · exact hposted e h2
    obtain ⟨⟨more, hmore⟩, hall⟩ := ih (c.exec s) hf.2 h1
    refine ⟨⟨added ++ more, ?_⟩, hall⟩
    show (run (c.exec s) cs).Transactions = _
    rw [hmore, hadd, List.append_assoc]

/-- C22.  Transactions are append-only.  For every store and every call of a repository
operation that draws new identifiers, the transactions after the call are the
transactions before it followed by the records the call adds, so every transaction
present before the call is present, the same in every field, after it; the number of
transactions grows by exactly 1 on a successful `Deposit` or `Withdraw`, by exactly 2 on
a successful `Transfer`, and by 0 in every other case; every record added is stored under
its `ID`, has an amount `> 0` and the type DEPOSIT or WITHDRAW.  Hence in every store
reached from the empty store every stored amount is `> 0` and every stored type is
DEPOSIT or WITHDRAW, never TRANSFER; and no sequence of calls removes or changes a
stored transaction. -/
theorem transactions_append_only :
    (∀ (s : InMemoryStore) (c : Call), c.Fresh s →
      ∃ added, (c.exec s).Transactions = s.Transactions ++ added ∧
        added.length = c.added s ∧
        (c.exec s).Transactions.length = s.Transactions.length + c.added s ∧
        (∀ e ∈ added, Posted e) ∧
        (∀ k t, KMap.find s.Transactions k = some t →
          KMap.find (c.exec s).Transactions k = some t)) ∧
    (∀ cs : List Call, FreshRun NewInMemoryStore cs →
      ∀ e ∈ (run NewInMemoryStore cs).Transactions,
        e.1 = e.2.ID ∧ 0 < e.2.Amount.val ∧ (e.2.Typ = .Deposit ∨ e.2.Typ = .Withdraw) ∧
        e.2.Typ ≠ .Transfer) ∧
    (∀ (s : InMemoryStore) (cs : List Call), FreshRun s cs →
      ∀ k t, KMap.find s.Transactions k = some t →
        KMap.find (run s cs).Transactions k = some t) := by
  refine ⟨?_, ?_, ?_⟩
  · intro s c hf
    obtain ⟨added, hadd, hlen, hposted⟩ := exec_transactions s c hf
    refine ⟨added, hadd, hlen, ?_, hposted, ?_⟩
    · rw [hadd, List.length_append, hlen]
    · intro k t hk
      rw [hadd]
      exact find_append_of_find _ _ k t hk
  · intro cs hf e he
    have h := (posted_run NewInMemoryStore cs hf (by simp [NewInMemoryStore])).2 e he
    refine ⟨h.1, h.2.1, h.2.2, ?_⟩
    rcases h.2.2 with h1 | h1 <;> rw [h1] <;> decide
  · intro s cs hf k t hk
    induction cs generalizing s with
    | nil => exact hk
    | cons c cs ih =>
      obtain ⟨added, hadd, -, -⟩ := exec_transactions s c hf.1
      apply ih (c.exec s) hf.2
      rw [hadd]
      exact find_append_of_find _ _ k t hk

/-- Witness of `transactions_append_only`: on the store of the scenario, which holds one
record, the transfer of 400 succeeds and leaves three; every record of the scenario run
is a DEPOSIT or a WITHDRAW of a positive amount. -/
theorem transactions_append_only_witness :
    (Call.Transfer "A" "B" 400 [] 7 8 "T2" 9 "T3" 10).Fresh scenarioStore ∧
    (Call.Transfer "A" "B" 400 [] 7 8 "T2" 9 "T3" 10).added scenarioStore = 2 ∧
    ((Call.Transfer "A" "B" 400 [] 7 8 "T2" 9 "T3" 10).exec scenarioStore).Transactions.length
      = scenarioStore.Transactions.length
        + (Call.Transfer "A" "B" 400 [] 7 8 "T2" 9 "T3" 10).added scenarioStore ∧
    FreshRun NewInMemoryStore scenarioRun ∧
    (∀ e ∈ (run NewInMemoryStore scenarioRun).Transactions,
      e.1 = e.2.ID ∧ 0 < e.2.Amount.val ∧ (e.2.Typ = .Deposit ∨ e.2.Typ = .Withdraw) ∧
      e.2.Typ ≠ .Transfer) :=
  ⟨by decide, by decide, by
    obtain ⟨added, -, -, hlen, -⟩ := transactions_append_only.1 scenarioStore
      (Call.Transfer "A" "B" 400 [] 7 8 "T2" 9 "T3" 10) (by decide)
    exact hlen,
    by decide, transactions_append_only.2.1 scenarioRun (by decide)⟩

/-! ## The email index and the user map -/

theorem exec_users_index (s : InMemoryStore) (c : Call) (hc : ∀ e, ¬ c.Registers e) :
    (c.exec s).Users = s.Users ∧ (c.exec s).EmailIndex = s.EmailIndex := by
  cases c with
  | CreateUser u id t1 t2 => exact absurd rfl (hc u.Email)
  | CreateAccount a id t1 t2 =>
    show (Repo.CreateAccount s (.fresh a) id t1 t2).2.Users = _ ∧
      (Repo.CreateAccount s (.fresh a) id t1 t2).2.EmailIndex = _
    rw [CreateAccount_eq]
    exact ⟨rfl, rfl⟩
  | UpdateAccount id name isActive t =>
    show (Repo.UpdateAccount s id name isActive t).2.Users = _ ∧
      (Repo.UpdateAccount s id name isActive t).2.EmailIndex = _
    cases ha : KMap.find s.Accounts id with
    | none => rw [UpdateAccount_missing_eq s id name isActive t ha]; exact ⟨rfl, rfl⟩
    | some a => rw [UpdateAccount_ok_eq s id name isActive t a ha]; exact ⟨rfl, rfl⟩
  | DeleteAccount id t =>
    show (Repo.DeleteAccount s id t).2.Users = _ ∧ (Repo.DeleteAccount s id t).2.EmailIndex = _
    cases ha : KMap.find s.Accounts id with
    | none => rw [DeleteAccount_missing_eq s id t ha]; exact ⟨rfl, rfl⟩
    | some a => rw [DeleteAccount_ok_eq s id t a ha]; exact ⟨rfl, rfl⟩
  | Deposit accountID amount md t1 id t2 =>
    show (Repo.Deposit s accountID amount md t1 id t2).2.Users = _ ∧
      (Repo.Deposit s accountID amount md t1 id t2).2.EmailIndex = _
    rcases Deposit_cases s accountID amount md t1 id t2 with ⟨e, he⟩ | ⟨a, hpos, ha, hact⟩
    · rw [he]; exact ⟨rfl, rfl⟩
    · rw [Deposit_ok_eq s accountID amount md t1 id t2 a hpos ha hact]; exact ⟨rfl, rfl⟩
  | Withdraw accountID amount md t1 id t2 =>
    show (Repo.Withdraw s accountID amount md t1 id t2).2.Users = _ ∧
      (Repo.Withdraw s accountID amount md t1 id t2).2.EmailIndex = _
    rcases Withdraw_cases s accountID amount md t1 id t2 with
      ⟨e, he⟩ | ⟨a, hpos, ha, hact, hbal⟩
    · rw [he]; exact ⟨rfl, rfl⟩
    · rw [Withdraw_ok_eq s accountID amount md t1 id t2 a hpos ha hact hbal]
      exact ⟨rfl, rfl⟩
  | Transfer fromID toID amount md t1 t2 outID outAt inID inAt =>
    show (Repo.Transfer s fromID toID amount md t1 t2 outID outAt inID inAt).2.Users = _ ∧
      (Repo.Transfer s fromID toID amount md t1 t2 outID outAt inID inAt).2.EmailIndex = _
    rcases Transfer_cases s fromID toID amount md t1 t2 outID outAt inID inAt with
      ⟨e, he⟩ | ⟨src, dst, hpos, hsrc, hdst, hsa, hda, hbal⟩
    · rw [he]; exact ⟨rfl, rfl⟩
    · rw [Transfer_ok_eq s fromID toID amount md t1 t2 outID outAt inID inAt src dst hpos hsrc
        hdst hsa hda hbal]
      exact ⟨rfl, rfl⟩

theorem indexAgrees_of_eq {s s' : InMemoryStore} (h : IndexAgrees s)
    (hu : s'.Users = s.Users) (hi : s'.EmailIndex = s.EmailIndex) : IndexAgrees s' where
  indexed := by rw [hu, hi]; exact h.indexed
  registered := by rw [hu, hi]; exact h.registered

theorem indexAgrees_createUser {s : InMemoryStore} (h : IndexAgrees s) (u : User)
    (id : String) (t1 t2 : Time) (hid : id ∉ KMap.keys s.Users) :
    IndexAgrees (Repo.CreateUser s u id t1 t2).2 := by
  cases hreg : KMap.find s.EmailIndex u.Email with
  | some uid =>
    rw [CreateUser_duplicate_eq s u id t1 t2 uid hreg]
    exact h
  | none =>
    rw [CreateUser_ok_eq s u id t1 t2 hreg]
    constructor
    · intro email id' hfind
      show ∃ v, KMap.find (KMap.put s.Users id _) id' = some v ∧ v.Email = email
      have hfind' : KMap.find (KMap.put s.EmailIndex u.Email id) email = some id' := hfind
      rw [KMap.find_put] at hfind'
      by_cases he : u.Email = email
      · rw [if_pos he] at hfind'
        cases hfind'
        exact ⟨{ ID := id, Email := u.Email, PasswordHash := u.PasswordHash, Name := u.Name,
                 IsActive := true, CreatedAt := t1, UpdatedAt := t2 },
          by rw [KMap.find_put, if_pos rfl], he⟩
      · rw [if_neg he] at hfind'
        obtain ⟨v, hv, hve⟩ := h.indexed email id' hfind'
        have hne : id ≠ id' := by
          intro heq
          subst heq
          exact hid (KMap.mem_keys_of_find hv)
        exact ⟨v, by rw [KMap.find_put, if_neg hne]; exact hv, hve⟩
    · intro id' v hfind
      show v.ID = id' ∧ KMap.find (KMap.put s.EmailIndex u.Email id) v.Email = some id'
      have hfind' : KMap.find (KMap.put s.Users id
          { ID := id, Email := u.Email, PasswordHash := u.PasswordHash, Name := u.Name,
            IsActive := true, CreatedAt := t1, UpdatedAt := t2 }) id' = some v := hfind
      rw [KMap.find_put] at hfind'
      by_cases hk : id = id'
      · rw [if_pos hk] at hfind'
        cases hfind'
        exact ⟨hk, by rw [KMap.find_put, if_pos rfl, hk]⟩
      · rw [if_neg hk] at hfind'
        obtain ⟨hvid, hvidx⟩ := h.registered id' v hfind'
        have hne : u.Email ≠ v.Email := by
          intro heq
          rw [heq, hvidx] at hreg
          cases hreg
        exact ⟨hvid, by rw [KMap.find_put, if_neg hne]; exact hvidx⟩

theorem indexAgrees_exec {s : InMemoryStore} (h : IndexAgrees s) (c : Call)
    (hf : c.Fresh s) : IndexAgrees (c.exec s) := by
  by_cases hc : ∀ e, ¬ c.Registers e
  · obtain ⟨hu, hi⟩ := exec_users_index s c hc
    exact indexAgrees_of_eq h hu hi
  · cases c with
    | CreateUser u id t1 t2 => exact indexAgrees_createUser h u id t1 t2 hf
    | CreateAccount a id t1 t2 => exact absurd (fun e h => h) hc
    | UpdateAccount id name isActive t => exact absurd (fun e h => h) hc
    | DeleteAccount id t => exact absurd (fun e h => h) hc
    | Deposit accountID amount md t1 id t2 => exact absurd (fun e h => h) hc
    | Withdraw accountID amount md t1 id t2 => exact absurd (fun e h => h) hc
    | Transfer fromID toID amount md t1 t2 outID outAt inID inAt =>
      exact absurd (fun e h => h) hc

theorem indexAgrees_run {s : InMemoryStore} (h : IndexAgrees s) (cs : List Call)
    (hf : FreshRun s cs) : IndexAgrees (run s cs) := by
  induction cs generalizing s with
  | nil => exact h
  | cons c cs ih => exact ih (indexAgrees_exec h c hf.1) hf.2

theorem index_none_exec (s : InMemoryStore) (c : Call) (email : String) :
    KMap.find (c.exec s).EmailIndex email = none ↔
      (KMap.find s.EmailIndex email = none ∧ ¬ c.Registers email) := by
  by_cases hc : ∀ e, ¬ c.Registers e
  · rw [(exec_users_index s c hc).2]
    exact ⟨fun h => ⟨h, hc email⟩, fun h => h.1⟩
  · cases c with
    | CreateUser u id t1 t2 =>
      show KMap.find (Repo.CreateUser s u id t1 t2).2.EmailIndex email = none ↔
        (KMap.find s.EmailIndex email = none ∧ ¬ u.Email = email)
      cases hreg : KMap.find s.EmailIndex u.Email with
      | some uid =>
        rw [CreateUser_duplicate_eq s u id t1 t2 uid hreg]
        constructor
        · intro hnone
          refine ⟨hnone, ?_⟩
          intro heq
          rw [heq, hnone] at hreg
          cases hreg
        · exact fun hh => hh.1
      | none =>
        rw [CreateUser_ok_eq s u id t1 t2 hreg]
        show KMap.find (KMap.put s.EmailIndex u.Email id) email = none ↔ _
        rw [KMap.find_put]
        by_cases he : u.Email = email
        · rw [if_pos he]
          exact ⟨fun hh => (by cases hh), fun hh => absurd he hh.2⟩
        · rw [if_neg he]
          exact ⟨fun hh => ⟨hh, he⟩, fun hh => hh.1⟩
    | CreateAccount a id t1 t2 => exact absurd (fun e h => h) hc
    | UpdateAccount id name isActive t => exact absurd (fun e h => h) hc
    | DeleteAccount id t => exact absurd (fun e h => h) hc
    | Deposit accountID amount md t1 id t2 => exact absurd (fun e h => h) hc
    | Withdraw accountID amount md t1 id t2 => exact absurd (fun e h => h) hc
    | Transfer fromID toID amount md t1 t2 outID outAt inID inAt =>
      exact absurd (fun e h => h) hc

theorem index_none_run (s : InMemoryStore) (cs : List Call) (email : String) :
    KMap.find (run s cs).EmailIndex email = none ↔
      (KMap.find s.EmailIndex email = none ∧ ∀ c ∈ cs, ¬ c.Registers email) := by
  induction cs generalizing s with
  | nil => simp [run]
  | cons c cs ih =>
    show KMap.find (run (c.exec s) cs).EmailIndex email = none ↔ _
    rw [ih (c.exec s), index_none_exec]
    simp only [List.mem_cons, forall_eq_or_imp]
    tauto

/-- C23.  In every store reached from the empty store through the repository operations,
drawing new identifiers, the email index and the user map agree: every entry
`email -> id` of the index has a user stored under `id` whose `Email` is that email, and
every stored user is stored under its `ID` and its `Email` maps to that `ID`.  Hence
`GetUserByEmail` never returns a missing user together with no error, and it fails with
`ErrNotFound` exactly when no `CreateUser` call of the run had that email. -/
theorem email_index_agrees (cs : List Call) (hfresh : FreshRun NewInMemoryStore cs) :
    (∀ email id, KMap.find (run NewInMemoryStore cs).EmailIndex email = some id →
      ∃ u, KMap.find (run NewInMemoryStore cs).Users id = some u ∧ u.Email = email ∧
        u.ID = id) ∧
    (∀ id u, KMap.find (run NewInMemoryStore cs).Users id = some u →
      u.ID = id ∧ KMap.find (run NewInMemoryStore cs).EmailIndex u.Email = some u.ID) ∧
    (∀ email, Repo.GetUserByEmail (run NewInMemoryStore cs) email ≠ .ok none) ∧
    (∀ email, Repo.GetUserByEmail (run NewInMemoryStore cs) email = .err .ErrNotFound ↔
      ∀ c ∈ cs, ¬ c.Registers email) := by
  have h0 : IndexAgrees NewInMemoryStore :=
    ⟨by intro email id h; simp [NewInMemoryStore, KMap.find] at h,
      by intro id u h; simp [NewInMemoryStore, KMap.find] at h⟩
  have h := indexAgrees_run h0 cs hfresh
  refine ⟨?_, ?_, ?_, ?_⟩
  · intro email id hfind
    obtain ⟨u, hu, he⟩ := h.indexed email id hfind
    exact ⟨u, hu, he, (h.registered id u hu).1⟩
  · intro id u hu
    obtain ⟨hid, hidx⟩ := h.registered id u hu
    exact ⟨hid, by rw [hid]; exact hidx⟩
  · intro email
    unfold Repo.GetUserByEmail
    cases hfind : KMap.find (run NewInMemoryStore cs).EmailIndex email with
    | none => simp
    | some id =>
      obtain ⟨u, hu, -⟩ := h.indexed email id hfind
      simp [hu]
  · intro email
    have hiff := index_none_run NewInMemoryStore cs email
    unfold Repo.GetUserByEmail
    cases hfind : KMap.find (run NewInMemoryStore cs).EmailIndex email with
    | none =>
      rw [hfind] at hiff
      simp only [true_iff]
      exact (hiff.mp rfl).2
    | some id =>
      rw [hfind] at hiff
      simp only [false_iff, reduceCtorEq]
      intro hall
      have := hiff.mpr ⟨by simp [NewInMemoryStore, KMap.find], hall⟩
      cases this

/-- Witness of `email_index_agrees`: after two registrations under `ann@x.org`, of which
the second fails, the email resolves to the user `U1`; an email that no call registered
is not found. -/
theorem email_index_agrees_witness :
    FreshRun NewInMemoryStore registerRun ∧
    Repo.GetUserByEmail (run NewInMemoryStore registerRun) "ann@x.org"
      = .ok (some { ID := "U1", Email := "ann@x.org", PasswordHash := "h", Name := "Ann",
                    IsActive := true, CreatedAt := 1, UpdatedAt := 2 }) ∧
    Repo.GetUserByEmail (run NewInMemoryStore registerRun) "ann@x.org" ≠ .ok none ∧
    Repo.GetUserByEmail (run NewInMemoryStore registerRun) "zed@x.org" = .err .ErrNotFound :=
  ⟨by decide, by decide,
    (email_index_agrees registerRun (by decide)).2.2.1 "ann@x.org",
    ((email_index_agrees registerRun (by decide)).2.2.2 "zed@x.org").mpr (by decide)⟩

/-! ## The precedence of the errors of Transfer -/

/-- C24.  `Transfer` reports its failures in a fixed precedence: the invalid-amount error
when `amount <= 0`, before everything; otherwise `ErrNotFound` if the source or the
destination is missing, whatever the state of the other account; otherwise
`ErrAccountInactive` if either account is inactive, whatever the balance of the source;
otherwise `ErrInsufficient` if and only if the balance of the source is below `amount`;
otherwise success.  So the result is an error `e` exactly when the precedence written
from these words gives `e`, a function of the store, the two identifiers and the amount
alone: the metadata, the times and the identifiers drawn play no part. -/
theorem Transfer_error_precedence (s : InMemoryStore) (fromID toID : String) (amount : I64)
    (md : Meta) (t1 t2 : Time) (outID : String) (outAt : Time) (inID : String)
    (inAt : Time) :
    (amount.val ≤ 0 →
      (Repo.Transfer s fromID toID amount md t1 t2 outID outAt inID inAt).1
        = .err .amountMustBePositive) ∧
    (0 < amount.val →
      (KMap.find s.Accounts fromID = none ∨ KMap.find s.Accounts toID = none) →
      (Repo.Transfer s fromID toID amount md t1 t2 outID outAt inID inAt).1
        = .err .ErrNotFound) ∧
    (∀ src dst, 0 < amount.val → KMap.find s.Accounts fromID = some src →
      KMap.find s.Accounts toID = some dst →
      (src.IsActive = false ∨ dst.IsActive = false) →
      (Repo.Transfer s fromID toID amount md t1 t2 outID outAt inID inAt).1
        = .err .ErrAccountInactive) ∧
    (∀ src dst, 0 < amount.val → KMap.find s.Accounts fromID = some src →
      KMap.find s.Accounts toID = some dst → src.IsActive = true → dst.IsActive = true →
      ((Repo.Transfer s fromID toID amount md t1 t2 outID outAt inID inAt).1
          = .err .ErrInsufficient ↔ src.Balance.val < amount.val) ∧
      ((∃ r, (Repo.Transfer s fromID toID amount md t1 t2 outID outAt inID inAt).1 = .ok r) ↔
        amount.val ≤ src.Balance.val)) ∧
    (∀ e, (Repo.Transfer s fromID toID amount md t1 t2 outID outAt inID inAt).1 = .err e ↔
      transferError s fromID toID amount = some e) ∧
    ((∃ r, (Repo.Transfer s fromID toID amount md t1 t2 outID outAt inID inAt).1 = .ok r) ↔
      transferError s fromID toID amount = none) := by
  refine ⟨?_, ?_, ?_, ?_, ?_, ?_⟩
  · intro hle
    rw [Transfer_invalid_eq s fromID toID amount md t1 t2 outID outAt inID inAt hle]
  · intro hpos hmiss
    cases hsrc : KMap.find s.Accounts fromID with
    | none =>
      rw [Transfer_from_missing_eq s fromID toID amount md t1 t2 outID outAt inID inAt hpos
        hsrc]
    | some src =>
      rcases hmiss with h | h
      · rw [hsrc] at h; cases h
      · rw [Transfer_to_missing_eq s fromID toID amount md t1 t2 outID outAt inID inAt src
          hpos hsrc h]
  · intro src dst hpos hsrc hdst hact
    rw [Transfer_inactive_eq s fromID toID amount md t1 t2 outID outAt inID inAt src dst hpos
      hsrc hdst hact]
  · intro src dst hpos hsrc hdst hsa hda
    by_cases hbal : src.Balance.val < amount.val
    · rw [Transfer_insufficient_eq s fromID toID amount md t1 t2 outID outAt inID inAt src dst
        hpos hsrc hdst hsa hda hbal]
      refine ⟨⟨fun _ => hbal, fun _ => rfl⟩, ⟨?_, fun h => absurd h (by omega)⟩⟩
      rintro ⟨r, hr⟩
      cases hr
    · rw [Transfer_ok_eq s fromID toID amount md t1 t2 outID outAt inID inAt src dst hpos hsrc
        hdst hsa hda (by omega)]
      refine ⟨⟨fun h => (by cases h), fun h => absurd h hbal⟩,
        ⟨fun _ => by omega, fun _ => ⟨_, rfl⟩⟩⟩
  · intro e
    unfold transferError
    by_cases hpos : 0 < amount.val
    · rw [if_neg (by omega)]
      cases hsrc : KMap.find s.Accounts fromID with
      | none =>
        rw [Transfer_from_missing_eq s fromID toID amount md t1 t2 outID outAt inID inAt hpos
          hsrc]
        constructor <;> intro h <;> cases h <;> rfl
      | some src =>
        cases hdst : KMap.find s.Accounts toID with
        | none =>
          rw [Transfer_to_missing_eq s fromID toID amount md t1 t2 outID outAt inID inAt src
            hpos hsrc hdst]
          constructor <;> intro h <;> cases h <;> rfl
        | some dst =>
          simp only
          by_cases hact : src.IsActive = false ∨ dst.IsActive = false
          · rw [Transfer_inactive_eq s fromID toID amount md t1 t2 outID outAt inID inAt src
              dst hpos hsrc hdst hact, if_pos hact]
            constructor <;> intro h <;> cases h <;> rfl
          · rw [if_neg hact]
            have hsa : src.IsActive = true := by
              cases h : src.IsActive
              · exact absurd (Or.inl h) hact
              · rfl
            have hda : dst.IsActive = true := by
              cases h : dst.IsActive
              · exact absurd (Or.inr h) hact
              · rfl
            by_cases hbal : src.Balance.val < amount.val
            · rw [Transfer_insufficient_eq s fromID toID amount md t1 t2 outID outAt inID inAt
                src dst hpos hsrc hdst hsa hda hbal, if_pos hbal]
              constructor <;> intro h <;> cases h <;> rfl
            · rw [Transfer_ok_eq s fromID toID amount md t1 t2 outID outAt inID inAt src dst
                hpos hsrc hdst hsa hda (by omega), if_neg hbal]
              constructor <;> intro h <;> cases h
    · rw [if_pos (by omega),
        Transfer_invalid_eq s fromID toID amount md t1 t2 outID outAt inID inAt (by omega)]
      constructor <;> intro h <;> cases h <;> rfl
  · unfold transferError
    by_cases hpos : 0 < amount.val
    · rw [if_neg (by omega)]
      cases hsrc : KMap.find s.Accounts fromID with
      | none =>
        rw [Transfer_from_missing_eq s fromID toID amount md t1 t2 outID outAt inID inAt hpos
          hsrc]
        constructor
        · rintro ⟨r, hr⟩; cases hr
        · intro h; cases h
      | some src =>
        cases hdst : KMap.find s.Accounts toID with
        | none =>
          rw [Transfer_to_missing_eq s fromID toID amount md t1 t2 outID outAt inID inAt src
            hpos hsrc hdst]
          constructor
          · rintro ⟨r, hr⟩; cases hr
          · intro h; cases h
        | some dst =>
          simp only
          by_cases hact : src.IsActive = false ∨ dst.IsActive = false
          · rw [Transfer_inactive_eq s fromID toID amount md t1 t2 outID outAt inID inAt src
              dst hpos hsrc hdst hact, if_pos hact]
            constructor
            · rintro ⟨r, hr⟩; cases hr
            · intro h; cases h
          · rw [if_neg hact]
            have hsa : src.IsActive = true := by
              cases h : src.IsActive
              · exact absurd (Or.inl h) hact
              · rfl
            have hda : dst.IsActive = true := by
              cases h : dst.IsActive
              · exact absurd (Or.inr h) hact
              · rfl
            by_cases hbal : src.Balance.val < amount.val
            · rw [Transfer_insufficient_eq s fromID toID amount md t1 t2 outID outAt inID inAt
                src dst hpos hsrc hdst hsa hda hbal, if_pos hbal]
              constructor
              · rintro ⟨r, hr⟩; cases hr
              · intro h; cases h
            · rw [Transfer_ok_eq s fromID toID amount md t1 t2 outID outAt inID inAt src dst
                hpos hsrc hdst hsa hda (by omega), if_neg hbal]
              exact ⟨fun _ => rfl, fun _ => ⟨_, rfl⟩⟩
    · rw [if_pos (by omega),
        Transfer_invalid_eq s fromID toID amount md t1 t2 outID outAt inID inAt (by omega)]
      constructor
      · rintro ⟨r, hr⟩; cases hr
      · intro h; cases h

/-- Witness of `Transfer_error_precedence`, on the store where `B` is inactive: a
transfer from `B` to the unbound `Z` fails with `ErrNotFound`, and a transfer of 1000
from `A`, which holds 50, to `B` fails with `ErrAccountInactive`. -/
theorem Transfer_error_precedence_witness :
    KMap.find frozenStore.Accounts "Z" = none ∧
    (Repo.Transfer frozenStore "B" "Z" 10 [] 5 6 "T1" 7 "T2" 8).1 = .err .ErrNotFound ∧
    (Repo.Transfer frozenStore "A" "B" 1000 [] 5 6 "T1" 7 "T2" 8).1
      = .err .ErrAccountInactive ∧
    transferError frozenStore "A" "B" 1000 = some .ErrAccountInactive :=
  ⟨by decide,
    (Transfer_error_precedence frozenStore "B" "Z" 10 [] 5 6 "T1" 7 "T2" 8).2.1 (by decide)
      (Or.inr (by decide)),
    (Transfer_error_precedence frozenStore "A" "B" 1000 [] 5 6 "T1" 7 "T2" 8).2.2.1
      (mkAccount "A" 50) { mkAccount "B" 30 with IsActive := false, UpdatedAt := 3 }
      (by decide) (by decide) (by decide) (Or.inr (by decide)),
    ((Transfer_error_precedence frozenStore "A" "B" 1000 [] 5 6 "T1" 7 "T2" 8).2.2.2.2.1
      .ErrAccountInactive).mp (by decide)⟩

/-! ## The frame of the money operations -/

theorem fixedKept_refl (accs : KMap Account) : FixedKept accs accs :=
  fun _ a h => ⟨a, h, rfl, rfl, rfl, rfl, rfl, rfl⟩

theorem fixedKept_trans {a b c : KMap Account} (h1 : FixedKept a b) (h2 : FixedKept b c) :
    FixedKept a c := by
  intro k x hx
  obtain ⟨y, hy, e1⟩ := h1 k x hx
  obtain ⟨z, hz, e2⟩ := h2 k y hy
  refine ⟨z, hz, ?_⟩
  obtain ⟨a1, a2, a3, a4, a5, a6⟩ := e1
  obtain ⟨b1, b2, b3, b4, b5, b6⟩ := e2
  exact ⟨b1.trans a1, b2.trans a2, b3.trans a3, b4.trans a4, b5.trans a5, b6.trans a6⟩

theorem fixedKept_modify (accs : KMap Account) (k0 : String) (f : Account → Account)
    (hf : ∀ r : Account, r.SameFixed (f r)) : FixedKept accs (KMap.modify accs k0 f) := by
  intro k a ha
  by_cases hk : k0 = k
  · subst hk
    exact ⟨f a, find_modify_self _ _ _ a ha, hf a⟩
  · exact ⟨a, by rw [find_modify_ne _ _ _ _ hk]; exact ha, rfl, rfl, rfl, rfl, rfl, rfl⟩

theorem Deposit_frame (s : InMemoryStore) (accountID : String) (amount : I64) (md : Meta)
    (t1 : Time) (id : String) (t2 : Time) :
    (∀ k, k ≠ accountID →
      KMap.find (Repo.Deposit s accountID amount md t1 id t2).2.Accounts k
        = KMap.find s.Accounts k) ∧
    KMap.keys (Repo.Deposit s accountID amount md t1 id t2).2.Accounts
      = KMap.keys s.Accounts ∧
    FixedKept s.Accounts (Repo.Deposit s accountID amount md t1 id t2).2.Accounts := by
  rcases Deposit_cases s accountID amount md t1 id t2 with ⟨e, he⟩ | ⟨a, hpos, ha, hact⟩
  · rw [he]
    exact ⟨fun _ _ => rfl, rfl, fixedKept_refl _⟩
  · rw [Deposit_ok_eq s accountID amount md t1 id t2 a hpos ha hact]
    refine ⟨?_, ?_, ?_⟩
    · intro k hk
      show KMap.find (KMap.modify (KMap.modify s.Accounts accountID _) accountID _) k = _
      rw [find_modify_ne _ _ _ _ (Ne.symm hk), find_modify_ne _ _ _ _ (Ne.symm hk)]
    · show KMap.keys (KMap.modify (KMap.modify s.Accounts accountID _) accountID _) = _
      rw [KMap.keys_modify, KMap.keys_modify]
    · exact fixedKept_trans
        (fixedKept_modify s.Accounts accountID
          (fun r => { r with Balance := r.Balance + amount })
          (fun r => ⟨rfl, rfl, rfl, rfl, rfl, rfl⟩))
        (fixedKept_modify _ accountID (fun r => { r with UpdatedAt := t1 })
          (fun r => ⟨rfl, rfl, rfl, rfl, rfl, rfl⟩))

theorem Withdraw_frame (s : InMemoryStore) (accountID : String) (amount : I64) (md : Meta)
    (t1 : Time) (id : String) (t2 : Time) :
    (∀ k, k ≠ accountID →
      KMap.find (Repo.Withdraw s accountID amount md t1 id t2).2.Accounts k
        = KMap.find s.Accounts k) ∧
    KMap.keys (Repo.Withdraw s accountID amount md t1 id t2).2.Accounts
      = KMap.keys s.Accounts ∧
    FixedKept s.Accounts (Repo.Withdraw s accountID amount md t1 id t2).2.Accounts := by
  rcases Withdraw_cases s accountID amount md t1 id t2 with
    ⟨e, he⟩ | ⟨a, hpos, ha, hact, hbal⟩
  · rw [he]
    exact ⟨fun _ _ => rfl, rfl, fixedKept_refl _⟩
  · rw [Withdraw_ok_eq s accountID amount md t1 id t2 a hpos ha hact hbal]
    refine ⟨?_, ?_, ?_⟩
    · intro k hk
      show KMap.find (KMap.modify (KMap.modify s.Accounts accountID _) accountID _) k = _
      rw [find_modify_ne _ _ _ _ (Ne.symm hk), find_modify_ne _ _ _ _ (Ne.symm hk)]
    · show KMap.keys (KMap.modify (KMap.modify s.Accounts accountID _) accountID _) = _
      rw [KMap.keys_modify, KMap.keys_modify]
    · exact fixedKept_trans
        (fixedKept_modify s.Accounts accountID
          (fun r => { r with Balance := r.Balance - amount })
          (fun r => ⟨rfl, rfl, rfl, rfl, rfl, rfl⟩))
        (fixedKept_modify _ accountID (fun r => { r with UpdatedAt := t1 })
          (fun r => ⟨rfl, rfl, rfl, rfl, rfl, rfl⟩))

theorem Transfer_frame (s : InMemoryStore) (fromID toID : String) (amount : I64)
    (md : Meta) (t1 t2 : Time) (outID : String) (outAt : Time) (inID : String)
    (inAt : Time) :
    (∀ k, k ≠ fromID → k ≠ toID →
      KMap.find (Repo.Transfer s fromID toID amount md t1 t2 outID outAt inID inAt).2.Accounts
        k = KMap.find s.Accounts k) ∧
    KMap.keys (Repo.Transfer s fromID toID amount md t1 t2 outID outAt inID inAt).2.Accounts
      = KMap.keys s.Accounts ∧
    FixedKept s.Accounts
      (Repo.Transfer s fromID toID amount md t1 t2 outID outAt inID inAt).2.Accounts := by
  rcases Transfer_cases s fromID toID amount md t1 t2 outID outAt inID inAt with
    ⟨e, he⟩ | ⟨src, dst, hpos, hsrc, hdst, hsa, hda, hbal⟩
  · rw [he]
    exact ⟨fun _ _ _ => rfl, rfl, fixedKept_refl _⟩
  · rw [Transfer_ok_eq s fromID toID amount md t1 t2 outID outAt inID inAt src dst hpos hsrc
      hdst hsa hda hbal]
    refine ⟨?_, ?_, ?_⟩
    · intro k hk1 hk2
      show KMap.find (KMap.modify (KMap.modify (KMap.modify (KMap.modify s.Accounts fromID _)
        toID _) fromID _) toID _) k = _
      rw [find_modify_ne _ _ _ _ (Ne.symm hk2), find_modify_ne _ _ _ _ (Ne.symm hk1),
        find_modify_ne _ _ _ _ (Ne.symm hk2), find_modify_ne _ _ _ _ (Ne.symm hk1)]
    · show KMap.keys (KMap.modify (KMap.modify (KMap.modify (KMap.modify s.Accounts fromID _)
        toID _) fromID _) toID _) = _
      rw [KMap.keys_modify, KMap.keys_modify, KMap.keys_modify, KMap.keys_modify]
    · exact fixedKept_trans (fixedKept_trans (fixedKept_trans
        (fixedKept_modify s.Accounts fromID
          (fun r => { r with Balance := r.Balance - amount })
          (fun r => ⟨rfl, rfl, rfl, rfl, rfl, rfl⟩))
        (fixedKept_modify _ toID (fun r => { r with Balance := r.Balance + amount })
          (fun r => ⟨rfl, rfl, rfl, rfl, rfl, rfl⟩)))
        (fixedKept_modify _ fromID (fun r => { r with UpdatedAt := t1 })
          (fun r => ⟨rfl, rfl, rfl, rfl, rfl, rfl⟩)))
        (fixedKept_modify _ toID (fun r => { r with UpdatedAt := t2 })
          (fun r => ⟨rfl, rfl, rfl, rfl, rfl, rfl⟩))

/-- C25.  Money operations touch only their target accounts.  For every store, a
`Deposit` or a `Withdraw` on the account `A`, successful or not, leaves every account
other than `A`, every user and the email index unchanged; a `Transfer` from `A` to `B`
leaves every account other than `A` and `B`, every user and the email index unchanged;
no operation binds or unbinds a key; and every account, the touched ones included, keeps
its `ID`, `UserID`, `Name`, `Currency`, `IsActive` and `CreatedAt`: only `Balance` and
`UpdatedAt` change. -/
theorem money_operations_frame (s : InMemoryStore) (A B : String) (amount : I64)
    (md : Meta) (t1 t2 : Time) (id : String) (outAt : Time) (inID : String) (inAt : Time) :
    ((∀ k, k ≠ A →
        KMap.find (Repo.Deposit s A amount md t1 id t2).2.Accounts k = KMap.find s.Accounts k) ∧
      (Repo.Deposit s A amount md t1 id t2).2.Users = s.Users ∧
      (Repo.Deposit s A amount md t1 id t2).2.EmailIndex = s.EmailIndex ∧
      KMap.keys (Repo.Deposit s A amount md t1 id t2).2.Accounts = KMap.keys s.Accounts ∧
      (∀ k a, KMap.find s.Accounts k = some a →
        ∃ a', KMap.find (Repo.Deposit s A amount md t1 id t2).2.Accounts k = some a' ∧
          a'.ID = a.ID ∧ a'.UserID = a.UserID ∧ a'.Name = a.Name ∧
          a'.Currency = a.Currency ∧ a'.IsActive = a.IsActive ∧
          a'.CreatedAt = a.CreatedAt)) ∧
    ((∀ k, k ≠ A →
        KMap.find (Repo.Withdraw s A amount md t1 id t2).2.Accounts k
          = KMap.find s.Accounts k) ∧
      (Repo.Withdraw s A amount md t1 id t2).2.Users = s.Users ∧
      (Repo.Withdraw s A amount md t1 id t2).2.EmailIndex = s.EmailIndex ∧
      KMap.keys (Repo.Withdraw s A amount md t1 id t2).2.Accounts = KMap.keys s.Accounts ∧
      (∀ k a, KMap.find s.Accounts k = some a →
        ∃ a', KMap.find (Repo.Withdraw s A amount md t1 id t2).2.Accounts k = some a' ∧
          a'.ID = a.ID ∧ a'.UserID = a.UserID ∧ a'.Name = a.Name ∧
          a'.Currency = a.Currency ∧ a'.IsActive = a.IsActive ∧
          a'.CreatedAt = a.CreatedAt)) ∧
    ((∀ k, k ≠ A → k ≠ B →
        KMap.find (Repo.Transfer s A B amount md t1 t2 id outAt inID inAt).2.Accounts k
          = KMap.find s.Accounts k) ∧
      (Repo.Transfer s A B amount md t1 t2 id outAt inID inAt).2.Users = s.Users ∧
      (Repo.Transfer s A B amount md t1 t2 id outAt inID inAt).2.EmailIndex
        = s.EmailIndex ∧
      KMap.keys (Repo.Transfer s A B amount md t1 t2 id outAt inID inAt).2.Accounts
        = KMap.keys s.Accounts ∧
      (∀ k a, KMap.find s.Accounts k = some a →
        ∃ a', KMap.find (Repo.Transfer s A B amount md t1 t2 id outAt inID inAt).2.Accounts
            k = some a' ∧
          a'.ID = a.ID ∧ a'.UserID = a.UserID ∧ a'.Name = a.Name ∧
          a'.Currency = a.Currency ∧ a'.IsActive = a.IsActive ∧
          a'.CreatedAt = a.CreatedAt)) := by
  have hd := Deposit_frame s A amount md t1 id t2
  have hw := Withdraw_frame s A amount md t1 id t2
  have ht := Transfer_frame s A B amount md t1 t2 id outAt inID inAt
  have ud := exec_users_index s (.Deposit A amount md t1 id t2) (fun _ h => h)
  have uw := exec_users_index s (.Withdraw A amount md t1 id t2) (fun _ h => h)
  have ut := exec_users_index s (.Transfer A B amount md t1 t2 id outAt inID inAt)
    (fun _ h => h)
  exact ⟨⟨hd.1, ud.1, ud.2, hd.2.1, hd.2.2⟩, ⟨hw.1, uw.1, uw.2, hw.2.1, hw.2.2⟩,
    ⟨ht.1, ut.1, ut.2, ht.2.1, ht.2.2⟩⟩

/-- Witness of `money_operations_frame`: the transfer of 400 from `A` to `B` on the store
of the scenario leaves `B` active with its name, and the unbound `Z` unbound. -/
theorem money_operations_frame_witness :
    KMap.find (Repo.Transfer scenarioStore "A" "B" 400 [] 7 8 "T2" 9 "T3" 10).2.Accounts "Z"
      = KMap.find scenarioStore.Accounts "Z" ∧
    KMap.find (Repo.Deposit scenarioStore "A" 400 [] 7 "T2" 8).2.Accounts "B"
      = KMap.find scenarioStore.Accounts "B" ∧
    ∃ b, KMap.find (Repo.Transfer scenarioStore "A" "B" 400 [] 7 8 "T2" 9 "T3"
        10).2.Accounts "B" = some b ∧
      b.ID = (mkAccount "B" 0).ID ∧ b.UserID = (mkAccount "B" 0).UserID ∧
      b.Name = (mkAccount "B" 0).Name ∧ b.Currency = (mkAccount "B" 0).Currency ∧
      b.IsActive = (mkAccount "B" 0).IsActive ∧ b.CreatedAt = (mkAccount "B" 0).CreatedAt :=
  ⟨(money_operations_frame scenarioStore "A" "B" 400 [] 7 8 "T2" 9 "T3" 10).2.2.1 "Z"
      (by decide) (by decide),
    (money_operations_frame scenarioStore "A" "B" 400 [] 7 8 "T2" 9 "T3" 10).1.1 "B"
      (by decide),
    (money_operations_frame scenarioStore "A" "B" 400 [] 7 8 "T2" 9 "T3" 10).2.2.2.2.2.2 "B"
      (mkAccount "B" 0) (by decide)⟩

end BankingAPI
